import Mathlib

/-!
# DizKord voice mesh engine: a shallow embedding

The definitions below embed the parts of `services/webrtc.js`,
`services/audio.js` and `stores/voiceStore.js` that the verified properties are
about.  Module-level variables and the zustand store become fields of explicit
state records; asynchronous handlers become state transformers whose external
outcomes (does `setRemoteDescription` succeed, does `addIceCandidate` throw)
are supplied by an explicit environment; JavaScript strings are sequences of
UTF-16 code units.  By default a handler runs to completion before the next
event is handled; where the interleaving of other code at an `await` matters,
a second definition (`onPresenceSnapshotWith`, `startVoiceWith`) takes the code
that runs in the meantime as an argument.
Every action on the browser or on the signaling channel is also appended to a
record (`World.log`), so that properties of the form "this call is made only
when ..." can be stated.
-/

namespace Dizkord

/-! ## JavaScript values -/

/-- A JavaScript string is a finite sequence of UTF-16 code units. -/
abbrev JsString := List Nat

/-- Participant identifiers (`auth.currentUser.uid`, `user.uid`, `data.from`). -/
abbrev Uid := JsString

/-- The JavaScript relational comparison `a < b` on two strings: the first
differing code unit decides, and a proper prefix is smaller. -/
def jsLt : JsString → JsString → Bool
  | [], [] => false
  | [], _ :: _ => true
  | _ :: _, [] => false
  | x :: xs, y :: ys =>
    if x < y then true else if y < x then false else jsLt xs ys

/-- The role test of `webrtc.js` line 263 (`const isOfferer = uid < user.uid`) and
line 469 (`if (uid < peerId)`): the local side offers iff its identifier is
smaller. -/
def isOfferer (uid peer : Uid) : Bool := jsLt uid peer

/-- The identifier of the voice agent (`'eve'`), as UTF-16 code units. -/
def eveUid : Uid := [101, 118, 101]

/-- The property key JavaScript uses for `undefined` (`obj[undefined]`). -/
def undefinedKey : Uid := [117, 110, 100, 101, 102, 105, 110, 101, 100]

/-- A plain JavaScript object used as a map from string keys to values, in
insertion order. -/
abbrev Obj (α : Type) := List (Uid × α)

/-- Property read `o[k]` (`none` is `undefined`). -/
def objGet {α : Type} : Obj α → Uid → Option α
  | [], _ => none
  | (k', v) :: rest, k => if k' = k then some v else objGet rest k

/-- Property write `o[k] = v` (also `{ ...o, [k]: v }`). -/
def objSet {α : Type} : Obj α → Uid → α → Obj α
  | [], k, v => [(k, v)]
  | (k', v') :: rest, k, v =>
    if k' = k then (k, v) :: rest else (k', v') :: objSet rest k v

/-- Property removal `delete o[k]` (also `const { [k]: _, ...rest } = o`). -/
def objDel {α : Type} : Obj α → Uid → Obj α
  | [], _ => []
  | (k', v') :: rest, k =>
    if k' = k then objDel rest k else (k', v') :: objDel rest k

/-- The keys of an object, `Object.keys(o)`. -/
def objKeys {α : Type} (o : Obj α) : List Uid := o.map Prod.fst

/-- The truthiness test `if (o[k])` for an object whose values are objects. -/
def objHas {α : Type} (o : Obj α) (k : Uid) : Bool := (objGet o k).isSome

/-! ## Media objects -/

inductive TrackKind where
  | audio
  | video
deriving DecidableEq

/-- A `MediaStreamTrack`: identity and kind (the mutable flags `enabled` and
`readyState` live in the `Browser` record). -/
structure Track where
  id : Nat
  kind : TrackKind
deriving DecidableEq

/-- A `MediaStream` with its tracks. -/
structure MediaStream where
  id : Nat
  tracks : List Track
deriving DecidableEq

def MediaStream.getAudioTracks (s : MediaStream) : List Track :=
  s.tracks.filter (fun t => t.kind = TrackKind.audio)

def MediaStream.getVideoTracks (s : MediaStream) : List Track :=
  s.tracks.filter (fun t => t.kind = TrackKind.video)

/-- One automation command issued on a gain parameter by the speech detector:
`cancelScheduledValues(now); setValueAtTime(value, now);
linearRampToValueAtTime(target, now + duration)`. -/
structure Ramp where
  target : Nat
  durationMs : Nat
deriving DecidableEq

/-- A `GainNode`: the value last assigned to `gain.value` and the automation
commands issued on `gain`, oldest first. -/
structure GainNode where
  value : Nat
  ramps : List Ramp
deriving DecidableEq

/-- Session descriptions are opaque strings; the empty string is falsy. -/
abbrev Sdp := JsString

/-- ICE candidate payloads are opaque. -/
abbrev Candidate := Nat

inductive SignalingState where
  | stable
  | haveLocalOffer
  | haveRemoteOffer
  | closed
deriving DecidableEq

inductive ConnectionState where
  | new
  | connecting
  | connected
  | disconnected
  | failed
  | closed
deriving DecidableEq

/-- An `RTCRtpSender`; `track` may be `null`. -/
structure Sender where
  track : Option Track
deriving DecidableEq

/-- An `RTCPeerConnection` as far as the engine reads and drives it. `pcId`
tells apart successive connection objects (each `new RTCPeerConnection` gets a
fresh one). -/
structure RTCPeerConnection where
  pcId : Nat
  remoteDescription : Option Sdp
  localDescription : Option Sdp
  signalingState : SignalingState
  connectionState : ConnectionState
  senders : List Sender
  dataChannel : Bool
deriving DecidableEq

/-! ## Store and engine state -/

/-- A document of the `voicePresence` collection. -/
structure PresenceEntry where
  uid : Uid
  isBot : Bool
  isScreenSharing : Bool
deriving DecidableEq

/-- The closure `webrtc.js` registers with `registerMuteCallback` (lines 193 and
223): `(muted) => { if (micMuteGain) micMuteGain.gain.value = muted ? 0 : 1 }`.
It is the only callback ever registered. -/
inductive MuteCallback where
  | micGain
deriving DecidableEq

/-- The `onSpeaking` closures handed to `createSpeakingDetector`: the local
one of `startVoice`/`switchInputDevice` (capturing `uid`) and the per-peer one
of `pc.ontrack` (capturing `peerId`). -/
inductive SpeakingCallback where
  | localMic (uid : Option Uid)
  | remote (peerId : Uid)
deriving DecidableEq

/-- The closure state of one `createSpeakingDetector` call. `gateNode` is the
index of the gate `GainNode` (absent for remote peers), `hasGetThreshold`
whether the `getThreshold` option was supplied, `sampleRate` is
`audioContext.sampleRate`, `fftSize` is `analyser.fftSize`. -/
structure Detector where
  speaking : Bool
  silenceFrames : Nat
  onsetFrames : Nat
  stopped : Bool
  gateNode : Option Nat
  hasGetThreshold : Bool
  sampleRate : Nat
  fftSize : Nat
  onSpeaking : SpeakingCallback
deriving DecidableEq

/-- The functions stored in `unsubVoice`: the one `joinVoiceChannel` sets, and
the one `listenSignaling` sets, which first calls the previous value when that
is a function (`engineAfter prev`) and otherwise only unsubscribes the engine
listeners (`engine`). -/
inductive UnsubFn where
  | storePresence (listener : Nat)
  | engine (presListener : Nat)
  | engineAfter (prev : UnsubFn) (presListener : Nat)
deriving DecidableEq

/-- The values `startVoice` writes to the store field `error`. -/
inductive VoiceError where
  | micAccessDenied (message : JsString)
  | audioPipelineFailed (message : JsString)
deriving DecidableEq

/-- The zustand store of `voiceStore.js` (fields the engine touches). -/
structure Store where
  inVoice : Bool
  voiceChannelId : Option JsString
  voiceGroupId : Option JsString
  voiceUsers : List PresenceEntry
  localStream : Option MediaStream
  peerConnections : Obj RTCPeerConnection
  remoteStreams : Obj (Option MediaStream)
  remoteVideoStreams : Obj (Option MediaStream)
  isMuted : Bool
  isDeafened : Bool
  selectedInput : Option JsString
  speakingUsers : Obj Bool
  unsubVoice : Option UnsubFn
  error : Option VoiceError
  vadThreshold : Nat
  _wasMutedBeforeDeafen : Bool
  isScreenSharing : Bool
  screenStream : Option MediaStream
  _muteCallback : Option MuteCallback
deriving DecidableEq

/-- An ICE server descriptor (opaque). -/
abbrev IceServer := Nat

/-- The `_onVoiceStopCb` hook; `grokVoice.js` registers `() => stopGrokVoice()`. -/
inductive StopHook where
  | stopGrokVoice
deriving DecidableEq

/-- The module-level variables of `webrtc.js` (and `workletLoaded` of
`audio.js`). Audio nodes and contexts are referred to by index. -/
structure Engine where
  ICE_SERVERS : List IceServer
  turnCacheExpiry : Nat
  signalingUnsub : Option Nat
  audioContext : Option Nat
  currentRawStream : Option MediaStream
  pipelineDest : Option Nat
  micMuteGain : Option Nat
  captureStream : Option MediaStream
  _onVoiceStopCb : Option StopHook
  speakingDetectors : Obj Detector
  localSpeakingDetector : Option Detector
  pendingIceCandidates : Obj (List Candidate)
  switchingDevice : Bool
  reconnectAttempts : Obj Nat
  reconnectTimers : Obj Nat
  activeGroupId : Option JsString
  activeChannelId : Option JsString
  voiceActive : Bool
  cleanupResilience : Option Nat
  screenStream : Option MediaStream
  workletLoaded : Bool
deriving DecidableEq

/-- The type of a signaling document. -/
inductive DocType where
  | offer
  | answer
  | iceCandidate
  | other
deriving DecidableEq

/-- A signaling document `{ type, from, to, sdp | candidate }`; `ref` is the
document reference, `sender` is `from` and `recipient` is `to`. -/
structure SignalingDoc where
  ref : Nat
  type : DocType
  sender : Uid
  recipient : Uid
  sdp : Sdp
  candidate : Candidate
deriving DecidableEq

/-- What a pending `setTimeout` will run. -/
inductive TimerKind where
  | reconnect (peerId : Uid)
  | renegotiate (peerId : Uid) (pcId : Nat)
deriving DecidableEq

structure Timer where
  id : Nat
  kind : TimerKind
  delayMs : Nat
deriving DecidableEq

/-- Observable actions of the engine on the browser and on the signaling
channel, recorded in the order they happen. -/
inductive Effect where
  | muteCallback (muted : Bool)
  | gateRamp (node : Nat) (target : Nat) (durationMs : Nat)
  | onSpeaking (cb : SpeakingCallback) (speaking : Bool)
  | newPeerConnection (peerId : Uid) (pcId : Nat) (isOfferer : Bool)
  | closePeerConnection (peerId : Uid) (pcId : Nat)
  | setRemoteDescription (peerId : Uid) (pcId : Nat) (ok : Bool)
  | addIceCandidate (peerId : Uid) (pcId : Nat) (c : Candidate)
      (remoteDescriptionSet : Bool) (ok : Bool)
  | addDoc (type : DocType) (sender : Option Uid) (recipient : Uid)
  | deleteDoc (ref : Nat) (ok : Bool)
  | setTimeout (t : Timer)
  | clearTimeout (id : Nat)
  | detectorCreated (cb : SpeakingCallback)
  | detectorStopped (cb : SpeakingCallback)
  | turnFetch (ok : Bool)
  | getUserMedia (exactDevice : Bool) (ok : Bool)
  | newAudioContext (ctx : Nat)
  | closeAudioContext (ctx : Nat)
  | addModule (ctx : Nat) (ok : Bool)
  | trackStop (track : Nat)
  | subscribe (listener : Nat)
  | unsubscribe (listener : Nat)
  | stopHook
  | setPresence (uid : Uid)
  | updatePresence (uid : Uid) (isScreenSharing : Bool)
  | deletePresence (uid : Uid)
  | deleteSignalingDocs (uid : Uid)
  | replaceTrack (peerId : Uid) (pcId : Nat) (track : Option Nat) (ok : Bool)
  | removeTrack (peerId : Uid) (pcId : Nat) (track : Nat)
deriving DecidableEq

/-- The part of the browser the engine observes and changes: the gain nodes
created so far (a node is referred to by its index), the set of tracks whose
`enabled` flag is false, the stopped tracks, closed audio contexts, pending
timers, the active registrations of `setupAudioResilience` (three document
listeners and an interval each), the active snapshot listeners, and the next
fresh identity. -/
structure Browser where
  gains : List GainNode
  disabledTracks : List Nat
  stoppedTracks : List Nat
  closedContexts : List Nat
  timers : List Timer
  resilience : List Nat
  listeners : List Nat
  nextId : Nat
deriving DecidableEq

/-- The whole state: store, module variables, browser, the signed-in user
(`auth.currentUser?.uid`) and the record of observable actions. -/
structure World where
  store : Store
  eng : Engine
  browser : Browser
  authUid : Option Uid
  log : List Effect
deriving DecidableEq

/-- Record an observable action. -/
def World.emit (w : World) (e : Effect) : World :=
  { w with log := w.log ++ [e] }

/-- The truthiness test `if (uid)` on `auth.currentUser?.uid`. -/
def truthyUid : Option Uid → Option Uid
  | some (c :: cs) => some (c :: cs)
  | _ => none

/-- The property key of an identifier that may be `undefined`. -/
def keyOf : Option Uid → Uid
  | some u => u
  | none => undefinedKey

/-- The two public STUN servers of `STUN_SERVERS` (lines 13-16), as opaque
descriptors. -/
def STUN_SERVERS : List IceServer := [0, 1]

/-- The initial store state (`voiceStore.js` lines 27-48), with nothing saved in
local storage. -/
def initialStore : Store :=
  { inVoice := false, voiceChannelId := none, voiceGroupId := none, voiceUsers := [],
    localStream := none, peerConnections := [], remoteStreams := [],
    remoteVideoStreams := [], isMuted := false, isDeafened := false,
    selectedInput := none, speakingUsers := [], unsubVoice := none, error := none,
    vadThreshold := 20, _wasMutedBeforeDeafen := false, isScreenSharing := false,
    screenStream := none, _muteCallback := none }

/-- The initial values of the module variables of `webrtc.js` and `audio.js`. -/
def initialEngine : Engine :=
  { ICE_SERVERS := STUN_SERVERS, turnCacheExpiry := 0, signalingUnsub := none,
    audioContext := none, currentRawStream := none, pipelineDest := none,
    micMuteGain := none, captureStream := none, _onVoiceStopCb := none,
    speakingDetectors := [], localSpeakingDetector := none, pendingIceCandidates := [],
    switchingDevice := false, reconnectAttempts := [], reconnectTimers := [],
    activeGroupId := none, activeChannelId := none, voiceActive := false,
    cleanupResilience := none, screenStream := none, workletLoaded := false }

def initialBrowser : Browser :=
  { gains := [], disabledTracks := [], stoppedTracks := [], closedContexts := [],
    timers := [], resilience := [], listeners := [], nextId := 0 }

/-- The state right after page load, with `uid` signed in. -/
def initialWorld (uid : Option Uid) : World :=
  { store := initialStore, eng := initialEngine, browser := initialBrowser,
    authUid := uid, log := [] }

/-! ## voiceStore.js -/

/-- Store action `registerMuteCallback` (line 52). -/
def registerMuteCallback (w : World) (cb : Option MuteCallback) : World :=
  { w with store := { w.store with _muteCallback := cb } }

/-- Store action `setSpeaking` (lines 60-70). -/
def setSpeaking (w : World) (uid : Uid) (speaking : Bool) : World :=
  let speakingUsers := w.store.speakingUsers
  if speaking then
    if objGet speakingUsers uid = some true then w
    else { w with store := { w.store with speakingUsers := objSet speakingUsers uid true } }
  else
    if ¬ (objGet speakingUsers uid = some true) then w
    else { w with store := { w.store with speakingUsers := objDel speakingUsers uid } }

/-- Assignment `node.gain.value = v` on the gain node with index `n`. -/
def setGainValue (gains : List GainNode) (n : Nat) (v : Nat) : List GainNode :=
  match gains.get? n with
  | some g => gains.set n { g with value := v }
  | none => gains

/-- A call of the registered mute callback (lines 193-195): writes the gain of
the node `micMuteGain` currently points to, if any. -/
def MuteCallback.call (_cb : MuteCallback) (w : World) (muted : Bool) : World :=
  let w1 := w.emit (Effect.muteCallback muted)
  match w1.eng.micMuteGain with
  | some n =>
    { w1 with browser :=
        { w1.browser with gains := setGainValue w1.browser.gains n (if muted then 0 else 1) } }
  | none => w1

/-- The assignment `t.enabled = e` for every track of a list. -/
def setTracksEnabled (b : Browser) (ts : List Track) (e : Bool) : Browser :=
  if e then { b with disabledTracks := b.disabledTracks.filter (fun i => i ∉ ts.map Track.id) }
  else { b with disabledTracks := b.disabledTracks ++ ts.map Track.id }

/-- The statement pair that each branch of `toggleMute`/`toggleDeafen` runs
(lines 76-77, 84-85, 97-98, 101-102):
`if (_muteCallback) _muteCallback(m) else if (localStream) localStream.getAudioTracks().forEach(t => { t.enabled = !m })`,
with `_muteCallback` and `localStream` read at the start of the action. -/
def applyMute (w : World) (cb : Option MuteCallback) (localStream : Option MediaStream)
    (m : Bool) : World :=
  match cb with
  | some f => f.call w m
  | none =>
    match localStream with
    | some ls => { w with browser := setTracksEnabled w.browser ls.getAudioTracks (!m) }
    | none => w

/-- The statement pair `const uid = auth.currentUser?.uid; if (uid) get().setSpeaking(uid, false)`. -/
def clearOwnSpeaking (w : World) : World :=
  match truthyUid w.authUid with
  | some uid => setSpeaking w uid false
  | none => w

/-- Store action `toggleMute` (lines 72-91). -/
def toggleMute (w : World) : World :=
  let isMuted := w.store.isMuted
  let isDeafened := w.store.isDeafened
  let localStream := w.store.localStream
  let _muteCallback := w.store._muteCallback
  if isDeafened then
    let w1 := applyMute w _muteCallback localStream false
    let w2 := clearOwnSpeaking w1
    { w2 with store :=
        { w2.store with isMuted := false, isDeafened := false, _wasMutedBeforeDeafen := false } }
  else
    let newMuted := !isMuted
    let w1 := applyMute w _muteCallback localStream newMuted
    let w2 := if newMuted then clearOwnSpeaking w1 else w1
    { w2 with store := { w2.store with isMuted := newMuted } }

/-- Store action `toggleDeafen` (lines 93-107). -/
def toggleDeafen (w : World) : World :=
  let isDeafened := w.store.isDeafened
  let isMuted := w.store.isMuted
  let _wasMutedBeforeDeafen := w.store._wasMutedBeforeDeafen
  let localStream := w.store.localStream
  let _muteCallback := w.store._muteCallback
  if isDeafened then
    let shouldStayMuted := _wasMutedBeforeDeafen
    let w1 := applyMute w _muteCallback localStream shouldStayMuted
    { w1 with store :=
        { w1.store with isDeafened := false, isMuted := shouldStayMuted,
                        _wasMutedBeforeDeafen := false } }
  else
    let w1 := applyMute w _muteCallback localStream true
    let w2 := clearOwnSpeaking w1
    { w2 with store :=
        { w2.store with isDeafened := true, isMuted := true, _wasMutedBeforeDeafen := isMuted } }

/-! ## audio.js: the speech detector -/

def SILENCE_DELAY : Nat := 15

/-- `const ONSET_DELAY = gateNode ? 3 : 0` (line 106). -/
def ONSET_DELAY (gateNode : Option Nat) : Nat :=
  if gateNode.isSome then 3 else 0

/-- `startBin = Math.floor(300 / binSize)` with `binSize = sampleRate / fftSize`
(lines 114-116), over the exact quotient. -/
def startBin (sampleRate fftSize : Nat) : Nat := 300 * fftSize / sampleRate

/-- `endBin = Math.floor(3400 / binSize)` (line 117). -/
def endBin (sampleRate fftSize : Nat) : Nat := 3400 * fftSize / sampleRate

/-- The loop of lines 119-122: the sum of `data[i]` for
`startBin ≤ i < endBin`, `i < data.length`. -/
def bandSum (sampleRate fftSize : Nat) (data : List Nat) : Nat :=
  ((data.take (endBin sampleRate fftSize)).drop (startBin sampleRate fftSize)).sum

/-- The test `avg > speechThreshold` of line 125, where
`avg = sum / (endBin - startBin)`: over the exact quotient (and with the
JavaScript value `Infinity` for a positive sum over zero bins) this is
`speechThreshold * (endBin - startBin) < sum`. -/
def aboveThreshold (sampleRate fftSize : Nat) (data : List Nat) (speechThreshold : Nat) :
    Bool :=
  decide (speechThreshold * (endBin sampleRate fftSize - startBin sampleRate fftSize)
    < bandSum sampleRate fftSize data)

/-- What one run of `check` asks of its surroundings: the argument of the
`onSpeaking` call and the gate ramp, if the speaking state switched. -/
structure CheckOutput where
  onSpeaking : Option Bool
  ramp : Option Ramp
deriving DecidableEq

/-- The body of `check` (lines 108-152) on the closure state: `data` is what
`analyser.getByteFrequencyData` delivers and `speechThreshold` the value read
this frame. The ramp is reported only when a gate node is attached. -/
def Detector.check (d : Detector) (speechThreshold : Nat) (data : List Nat) :
    Detector × CheckOutput :=
  if d.stopped then (d, ⟨none, none⟩)
  else if aboveThreshold d.sampleRate d.fftSize data speechThreshold then
    let d1 := { d with silenceFrames := 0, onsetFrames := d.onsetFrames + 1 }
    if !d1.speaking && decide (d1.onsetFrames ≥ ONSET_DELAY d.gateNode) then
      ({ d1 with speaking := true },
        ⟨some true, if d.gateNode.isSome then some ⟨1, 5⟩ else none⟩)
    else (d1, ⟨none, none⟩)
  else
    let d1 := { d with onsetFrames := 0, silenceFrames := d.silenceFrames + 1 }
    if d1.speaking && decide (d1.silenceFrames > SILENCE_DELAY) then
      ({ d1 with speaking := false },
        ⟨some false, if d.gateNode.isSome then some ⟨0, 150⟩ else none⟩)
    else (d1, ⟨none, none⟩)

/-- The automation commands of lines 132-134 and 144-146 on gain node `n`. -/
def rampGain (gains : List GainNode) (n : Nat) (r : Ramp) : List GainNode :=
  match gains.get? n with
  | some g => gains.set n { g with ramps := g.ramps ++ [r] }
  | none => gains

/-- A call of an `onSpeaking` closure: the local one (`webrtc.js` lines 185-189,
230-234) records not-speaking while muted or deafened; the per-peer one
(lines 374-376) forwards to `setSpeaking`. -/
def SpeakingCallback.call (cb : SpeakingCallback) (w : World) (speaking : Bool) : World :=
  let w1 := w.emit (Effect.onSpeaking cb speaking)
  match cb with
  | SpeakingCallback.localMic uid =>
    if w1.store.isMuted || w1.store.isDeafened then setSpeaking w1 (keyOf uid) false
    else setSpeaking w1 (keyOf uid) speaking
  | SpeakingCallback.remote peerId => setSpeaking w1 peerId speaking

/-- The threshold read of line 112:
`getThreshold ? getThreshold() : 15`, where the only `getThreshold` ever passed
is `() => useVoiceStore.getState().vadThreshold`. -/
def Detector.readThreshold (d : Detector) (w : World) : Nat :=
  if d.hasGetThreshold then w.store.vadThreshold else 15

/-- The call `onSpeaking(b)` of lines 130 and 142, when `check` makes one. -/
def notifySpeaking (w : World) (cb : SpeakingCallback) : Option Bool → World
  | some b => cb.call w b
  | none => w

/-- The gate automation of lines 131-135 and 143-147: `if (gateNode) { ... }`. -/
def applyRamp (w : World) : Option Nat → Option Ramp → World
  | some n, some rp =>
    { (w.emit (Effect.gateRamp n rp.target rp.durationMs)) with
      browser := { w.browser with gains := rampGain w.browser.gains n rp } }
  | _, _ => w

/-- One run of `check` of detector `d` in state `w`: the closure state
advances, `onSpeaking` is called first and the gate is ramped second. -/
def runCheck (w : World) (d : Detector) (data : List Nat) : World × Detector :=
  let r := d.check (d.readThreshold w) data
  (applyRamp (notifySpeaking w d.onSpeaking r.2.onSpeaking) d.gateNode r.2.ramp, r.1)

/-- The function `createSpeakingDetector` (lines 85-165): builds the closure
state and runs `check()` once (line 154) on the data the analyser holds then. -/
def createSpeakingDetector (w : World) (sampleRate : Nat) (onSpeaking : SpeakingCallback)
    (gateNode : Option Nat) (hasGetThreshold : Bool) (firstFrame : List Nat) :
    World × Detector :=
  let d : Detector :=
    { speaking := false, silenceFrames := 0, onsetFrames := 0, stopped := false,
      gateNode := gateNode, hasGetThreshold := hasGetThreshold,
      sampleRate := sampleRate, fftSize := 512, onSpeaking := onSpeaking }
  runCheck (w.emit (Effect.detectorCreated onSpeaking)) d firstFrame

/-- The method `stop` of a detector (lines 158-163). -/
def Detector.stop (d : Detector) : Detector := { d with stopped := true }

/-- An animation frame of the local detector (`localSpeakingDetector`). -/
def localDetectorFrame (w : World) (data : List Nat) : World :=
  match w.eng.localSpeakingDetector with
  | none => w
  | some d =>
    let r := runCheck w d data
    { r.1 with eng := { r.1.eng with localSpeakingDetector := some r.2 } }

/-- An animation frame of the detector attached to peer `peerId`. -/
def remoteDetectorFrame (w : World) (peerId : Uid) (data : List Nat) : World :=
  match objGet w.eng.speakingDetectors peerId with
  | none => w
  | some d =>
    let r := runCheck w d data
    { r.1 with eng := { r.1.eng with speakingDetectors := objSet r.1.eng.speakingDetectors peerId r.2 } }

/-- Store action `setVadThreshold` (lines 109-112). -/
def setVadThreshold (w : World) (val : Nat) : World :=
  { w with store := { w.store with vadThreshold := val } }

/-- User and audio events on the local microphone path. -/
inductive MicAction where
  | frame (vadThreshold : Nat) (data : List Nat)
  | toggleMute
  | toggleDeafen
deriving DecidableEq

/-- One event: a frame is analysed with the threshold current at that time. -/
def MicAction.step (w : World) : MicAction → World
  | MicAction.frame t data => localDetectorFrame (setVadThreshold w t) data
  | MicAction.toggleMute => Dizkord.toggleMute w
  | MicAction.toggleDeafen => Dizkord.toggleDeafen w

def runMicActions (w : World) (as : List MicAction) : World :=
  as.foldl MicAction.step w

/-- The gate commands in a record of actions. -/
def gateRamps : List Effect → List (Nat × Ramp)
  | [] => []
  | Effect.gateRamp n t d :: rest => (n, ⟨t, d⟩) :: gateRamps rest
  | _ :: rest => gateRamps rest

/-- The gate commands a detector with closure state `d` issues on a sequence of
events, computed from the frames alone. -/
def detectorGateCommands (d : Detector) : List MicAction → List (Nat × Ramp)
  | [] => []
  | MicAction.frame t data :: rest =>
    let r := d.check (if d.hasGetThreshold then t else 15) data
    (match d.gateNode, r.2.ramp with
      | some n, some rp => [(n, rp)]
      | _, _ => []) ++ detectorGateCommands r.1 rest
  | _ :: rest => detectorGateCommands d rest

/-! ## audio.js: the pipeline -/

/-- How the browser answers the calls of `createAudioPipeline`. -/
structure PipelineOutcome where
  sourceOk : Bool
  addModuleOk : Bool
  workletNodeOk : Bool
  errorMessage : JsString
deriving DecidableEq

/-- The object `createAudioPipeline` returns (line 70); gain nodes by index. -/
structure PipelineResult where
  stream : MediaStream
  gateNode : Nat
  muteGain : Nat
  vadAnalyser : Nat
  dest : Nat
  captureStream : MediaStream
deriving DecidableEq

/-- The function `createAudioPipeline` (lines 21-71); `none` is a thrown error.
The gate and the mute gain are two separately created gain nodes, both starting
at gain 1. -/
def createAudioPipeline (w : World) (audioContext : Nat) (o : PipelineOutcome) :
    World × Option PipelineResult :=
  if !o.sourceOk then (w, none)
  else
    -- load RNNoise AudioWorklet (once per AudioContext)
    let loaded : World × Bool :=
      if !w.eng.workletLoaded then
        if o.addModuleOk then
          ({ (w.emit (Effect.addModule audioContext true)) with
              eng := { w.eng with workletLoaded := true } }, true)
        else (w.emit (Effect.addModule audioContext false), false)
      else (w, true)
    let w1 := loaded.1
    if !loaded.2 then (w1, none)
    else if !o.workletNodeOk then (w1, none)
    else
      let i := w1.browser.nextId
      let gate := w1.browser.gains.length
      let muteGain := gate + 1
      let b := { w1.browser with
        gains := w1.browser.gains ++ [⟨1, []⟩, ⟨1, []⟩], nextId := i + 6 }
      ({ w1 with browser := b },
        some { stream := ⟨i, [⟨i + 1, TrackKind.audio⟩]⟩, gateNode := gate,
               muteGain := muteGain, vadAnalyser := i + 2, dest := i + 3,
               captureStream := ⟨i + 4, [⟨i + 5, TrackKind.audio⟩]⟩ })

/-- The function `resetWorkletState` (lines 76-78). -/
def resetWorkletState (w : World) : World :=
  { w with eng := { w.eng with workletLoaded := false } }

/-! ## webrtc.js: credentials, microphone, start -/

/-- How the credential endpoint answers: an error, or a list of TURN servers
together with the time `Date.now()` shows when the answer is processed. -/
inductive TurnOutcome where
  | failed
  | returned (turnServers : List IceServer) (nowAfter : Nat)
deriving DecidableEq

/-- The function `fetchTurnCredentials` (lines 22-45); `now` is `Date.now()` at
the cache test. -/
def fetchTurnCredentials (w : World) (now : Nat) (o : TurnOutcome) : World :=
  if decide (now < w.eng.turnCacheExpiry) &&
      decide (w.eng.ICE_SERVERS.length > STUN_SERVERS.length) then w
  else
    match o with
    | TurnOutcome.returned turnServers nowAfter =>
      let w1 := w.emit (Effect.turnFetch true)
      if turnServers.length > 0 then
        { w1 with eng := { w1.eng with ICE_SERVERS := STUN_SERVERS ++ turnServers,
                                        turnCacheExpiry := nowAfter + 3600000 } }
      else { w1 with eng := { w1.eng with ICE_SERVERS := STUN_SERVERS } }
    | TurnOutcome.failed =>
      let w1 := w.emit (Effect.turnFetch false)
      { w1 with eng := { w1.eng with ICE_SERVERS := STUN_SERVERS } }

/-- How `getUserMedia` answers for the requested device and for the default
device (`none` is a rejection), and the message of the final error. -/
structure MicOutcome where
  exact : Option MediaStream
  default : Option MediaStream
  errorMessage : JsString
deriving DecidableEq

/-- The truthiness test `if (deviceId)` on a string that may be `null`. -/
def truthyString : Option JsString → Bool
  | some (_ :: _) => true
  | _ => false

/-- The function `acquireMic` (lines 95-114); `none` is a thrown error. A
stream without an audio track makes `track.label` throw. -/
def acquireMic (w : World) (deviceId : Option JsString) (o : MicOutcome) :
    World × Option MediaStream :=
  let tryExact : World × Option MediaStream :=
    if truthyString deviceId then
      match o.exact with
      | some st =>
        if st.getAudioTracks.isEmpty then (w.emit (Effect.getUserMedia true true), none)
        else (w.emit (Effect.getUserMedia true true), some st)
      | none => (w.emit (Effect.getUserMedia true false), none)
    else (w, none)
  match tryExact.2 with
  | some st => (tryExact.1, some st)
  | none =>
    match o.default with
    | some st =>
      if st.getAudioTracks.isEmpty then (tryExact.1.emit (Effect.getUserMedia false true), none)
      else (tryExact.1.emit (Effect.getUserMedia false true), some st)
    | none => (tryExact.1.emit (Effect.getUserMedia false false), none)

/-- `stream.getTracks().forEach(t => t.stop())`. -/
def stopTracks (w : World) (st : MediaStream) : World :=
  { w with
    browser := { w.browser with stoppedTracks := w.browser.stoppedTracks ++ st.tracks.map Track.id }
    log := w.log ++ st.tracks.map (fun t => Effect.trackStop t.id) }

/-- The function `setupAudioResilience` (lines 79-91): registers the listeners
and the interval; the returned cleanup is identified by the registration. -/
def setupAudioResilience (w : World) (ctx : Nat) : World × Nat :=
  ({ w with browser := { w.browser with resilience := w.browser.resilience ++ [ctx] } }, ctx)

/-- The cleanup function returned by `setupAudioResilience`. -/
def cleanupResilienceCall (w : World) (reg : Nat) : World :=
  { w with browser := { w.browser with resilience := w.browser.resilience.filter (· ≠ reg) } }

/-- The subscriptions of `listenSignaling` (lines 247-333): a presence listener,
a signaling listener kept in `signalingUnsub`, and the new `unsubVoice`. The
handlers themselves are `onPresenceSnapshot` and `onSignalingSnapshot`. -/
def listenSignaling (w : World) : World :=
  let i := w.browser.nextId
  let unsubPres := i
  let sig := i + 1
  let prevUnsub := w.store.unsubVoice
  let w1 := { w with
    browser := { w.browser with listeners := w.browser.listeners ++ [unsubPres, sig],
                                nextId := i + 2 }
    eng := { w.eng with signalingUnsub := some sig }
    log := w.log ++ [Effect.subscribe unsubPres, Effect.subscribe sig] }
  { w1 with store := { w1.store with
      unsubVoice := some (match prevUnsub with
        | some f => UnsubFn.engineAfter f unsubPres
        | none => UnsubFn.engine unsubPres) } }

/-- Everything the outside world contributes to one `startVoice` call. -/
structure StartEnv where
  now : Nat
  turn : TurnOutcome
  mic : MicOutcome
  pipeline : PipelineOutcome
  firstFrame : List Nat
deriving DecidableEq

/-- Lines 134-146 of `startVoice`: the guards and the synchronous prefix up to
the first `await`. `none` means `return false` with nothing changed. -/
def startVoiceEnter (w : World) (groupId channelId : JsString) : Option World :=
  if w.eng.voiceActive then none
  else
    match truthyUid w.authUid with
    | none => none
    | some _ =>
      some { w with eng := { w.eng with activeGroupId := some groupId,
                                         activeChannelId := some channelId,
                                         voiceActive := true } }

/-- Lines 151-165: after the microphone answer; `none` in the second component
means the call has returned false. -/
def startVoiceMic (w : World) (selectedInput : Option JsString) (env : StartEnv) :
    World × Option (MediaStream × Nat) :=
  let r := acquireMic w selectedInput env.mic
  match r.2 with
  | none =>
    ({ r.1 with store := { r.1.store with
          error := some (VoiceError.micAccessDenied env.mic.errorMessage) }
                eng := { r.1.eng with voiceActive := false } }, none)
  | some rawStream =>
    let w1 := { r.1 with eng := { r.1.eng with currentRawStream := some rawStream } }
    let ctx := w1.browser.nextId
    let w2 := { (w1.emit (Effect.newAudioContext ctx)) with
      browser := { w1.browser with nextId := ctx + 1 }
      eng := { w1.eng with audioContext := some ctx } }
    let reg := setupAudioResilience w2 ctx
    ({ reg.1 with eng := { reg.1.eng with cleanupResilience := some reg.2 } },
      some (rawStream, ctx))

/-- Lines 167-200: from the pipeline construction to the end. -/
def startVoicePipeline (w : World) (uid : Uid) (rawStream : MediaStream) (ctx : Nat)
    (env : StartEnv) : Bool × World :=
  let r := createAudioPipeline w ctx env.pipeline
  match r.2 with
  | none =>
    let w1 := { r.1 with store := { r.1.store with
      error := some (VoiceError.audioPipelineFailed env.pipeline.errorMessage) } }
    let w2 := stopTracks w1 rawStream
    let w3 := { (w2.emit (Effect.closeAudioContext ctx)) with
      browser := { w2.browser with closedContexts := w2.browser.closedContexts ++ [ctx] }
      eng := { w2.eng with audioContext := none, voiceActive := false } }
    (false, w3)
  | some result =>
    let e1 := r.1.eng
    let w1 := { r.1 with eng := { e1 with pipelineDest := some result.dest
                                          micMuteGain := some result.muteGain
                                          captureStream := some result.captureStream } }
    let det := createSpeakingDetector w1 48000 (SpeakingCallback.localMic (some uid))
      (some result.gateNode) true env.firstFrame
    let w2 := { det.1 with eng := { det.1.eng with localSpeakingDetector := some det.2 } }
    let w3 := registerMuteCallback w2 (some MuteCallback.micGain)
    let w4 := { w3 with store := { w3.store with localStream := some result.stream } }
    (true, listenSignaling w4)

/-- The function `startVoice` (lines 133-201), run to completion. -/
def startVoice (w : World) (groupId channelId : JsString) (env : StartEnv) : Bool × World :=
  match startVoiceEnter w groupId channelId with
  | none => (false, w)
  | some w1 =>
    let selectedInput := w.store.selectedInput
    let w2 := fetchTurnCredentials w1 env.now env.turn
    let m := startVoiceMic w2 selectedInput env
    match m.2 with
    | none => (false, m.1)
    | some (rawStream, ctx) => startVoicePipeline m.1 (keyOf w.authUid) rawStream ctx env

/-- The states in which a `startVoice` call that passed its guards is suspended
at an `await` (during the credential fetch, during the microphone request, and
during the worklet load of the pipeline construction), as the call itself
leaves them: no other code has run since. What other code does to such a state
before the call resumes is the argument `during` of `startVoiceWith`. -/
def startVoiceSuspended (w : World) (groupId channelId : JsString) (env : StartEnv) :
    List World :=
  match startVoiceEnter w groupId channelId with
  | none => []
  | some w1 =>
    let w2 := fetchTurnCredentials w1 env.now env.turn
    let m := startVoiceMic w2 w.store.selectedInput env
    match m.2 with
    | none => [w1, w2]
    | some _ => [w1, w2, m.1]

/-! ## webrtc.js: peer connections -/

/-- How the browser and the signaling channel answer while one signaling
document or one new connection is handled: whether `setRemoteDescription`
succeeds, whether creating and setting the local description succeeds, whether
`addDoc` and `deleteDoc` succeed, and which candidates `addIceCandidate`
rejects. -/
structure SigEnv where
  setRemoteOk : Bool
  localDescriptionOk : Bool
  addDocOk : Bool
  deleteDocOk : Bool
  badCandidates : List Candidate
deriving DecidableEq

/-- The function `removePeer` (lines 473-485). -/
def removePeer (w : World) (peerId : Uid) : World :=
  let store := w.store
  let w1 := match objGet store.peerConnections peerId with
    | some pc => w.emit (Effect.closePeerConnection peerId pc.pcId)
    | none => w
  let w2 := { w1 with eng := { w1.eng with
    pendingIceCandidates := objDel w1.eng.pendingIceCandidates peerId } }
  let w3 := match objGet w2.eng.speakingDetectors peerId with
    | some d =>
      { (w2.emit (Effect.detectorStopped d.onSpeaking)) with
        eng := { w2.eng with speakingDetectors := objDel w2.eng.speakingDetectors peerId } }
    | none => w2
  let w4 := { w3 with store := { w3.store with
    peerConnections := objDel store.peerConnections peerId
    remoteStreams := objDel store.remoteStreams peerId
    remoteVideoStreams := objDel store.remoteVideoStreams peerId } }
  setSpeaking w4 peerId false

/-- A call `pc.addIceCandidate(c)`: recorded together with whether the remote
description of `pc` is set at this moment. The browser rejects a candidate when
no remote description is set, and it rejects the candidates of
`env.badCandidates`. The result says whether the call succeeded. -/
def addIceCandidate (w : World) (peerId : Uid) (pc : RTCPeerConnection) (c : Candidate)
    (env : SigEnv) : World × Bool :=
  let ok := pc.remoteDescription.isSome && decide (c ∉ env.badCandidates)
  (w.emit (Effect.addIceCandidate peerId pc.pcId c pc.remoteDescription.isSome ok), ok)

/-- The function `flushIceCandidates` (lines 63-72). -/
def flushIceCandidates (w : World) (peerId : Uid) (pc : RTCPeerConnection) (env : SigEnv) :
    World :=
  match objGet w.eng.pendingIceCandidates peerId with
  | none => w
  | some [] => w
  | some (c :: cs) =>
    let w1 := (c :: cs).foldl (fun acc cand => (addIceCandidate acc peerId pc cand env).1) w
    { w1 with eng := { w1.eng with
      pendingIceCandidates := objDel w1.eng.pendingIceCandidates peerId } }

/-- The two kinds of description passed to `setRemoteDescription`. -/
inductive SdpType where
  | offer
  | answer
deriving DecidableEq

/-- The browser's `pc.setRemoteDescription`: on success the remote description
is set and the signaling state advances; on failure the connection is
unchanged and the call throws (`false`). -/
def setRemoteDescription (w : World) (peerId : Uid) (pc : RTCPeerConnection) (t : SdpType)
    (sdp : Sdp) (env : SigEnv) : World × RTCPeerConnection × Bool :=
  let w1 := w.emit (Effect.setRemoteDescription peerId pc.pcId env.setRemoteOk)
  if env.setRemoteOk then
    let pc1 := { pc with
      remoteDescription := some sdp
      signalingState := match t with
        | SdpType.offer => SignalingState.haveRemoteOffer
        | SdpType.answer => SignalingState.stable }
    ({ w1 with store := { w1.store with
        peerConnections := objSet w1.store.peerConnections peerId pc1 } }, pc1, true)
  else (w1, pc, false)

/-- The browser's `createOffer`/`createAnswer` followed by
`setLocalDescription`, as one step that succeeds or throws. -/
def setLocalDescription (w : World) (peerId : Uid) (pc : RTCPeerConnection) (t : SdpType)
    (env : SigEnv) : World × RTCPeerConnection × Bool :=
  if env.localDescriptionOk then
    let pc1 := { pc with
      localDescription := some []
      signalingState := match t with
        | SdpType.offer => SignalingState.haveLocalOffer
        | SdpType.answer => SignalingState.stable }
    ({ w with store := { w.store with
        peerConnections := objSet w.store.peerConnections peerId pc1 } }, pc1, true)
  else (w, pc, false)

/-- A write `addDoc(sigRef, { type, from: uid, to, ... })`; `false` is a thrown
error. -/
def addDoc (w : World) (type : DocType) (recipient : Uid) (env : SigEnv) : World × Bool :=
  if env.addDocOk then (w.emit (Effect.addDoc type w.authUid recipient), true)
  else (w, false)

/-- The remote-offer sequence shared by the renegotiation branch (lines 293-297)
and the answerer branch of `createPeerConnection` (lines 426-430):
`setRemoteDescription`, `flushIceCandidates`, answer, `addDoc`. `false` is a
thrown error. -/
def answerOffer (w : World) (peerId : Uid) (pc : RTCPeerConnection) (sdp : Sdp)
    (env : SigEnv) : World × Bool :=
  let r := setRemoteDescription w peerId pc SdpType.offer sdp env
  if !r.2.2 then (r.1, false)
  else
    let w1 := flushIceCandidates r.1 peerId r.2.1 env
    let l := setLocalDescription w1 peerId r.2.1 SdpType.answer env
    if !l.2.2 then (l.1, false)
    else addDoc l.1 DocType.answer peerId env

/-- Lines 337-353 and 416-417 of `createPeerConnection`: the new connection
object with the audio tracks of `localStream` (and, for the offerer, the
bootstrap data channel), stored in `peerConnections` under `peerId`. -/
def newPeerConnection (w : World) (peerId : Uid) (localStream : Option MediaStream)
    (isOfferer : Bool) : World × RTCPeerConnection :=
  let pcId := w.browser.nextId
  let pc : RTCPeerConnection :=
    { pcId := pcId, remoteDescription := none, localDescription := none,
      signalingState := SignalingState.stable, connectionState := ConnectionState.new,
      senders := match localStream with
        | some ls => ls.getAudioTracks.map (fun t => ⟨some t⟩)
        | none => [],
      dataChannel := isOfferer }
  let w0 := { (w.emit (Effect.newPeerConnection peerId pcId isOfferer)) with
    browser := { w.browser with nextId := pcId + 1 } }
  ({ w0 with store := { w0.store with
      peerConnections := objSet w0.store.peerConnections peerId pc } }, pc)

/-- The `try` block of `createPeerConnection` (lines 419-432); `false` is a
thrown error. -/
def peerSetup (w : World) (peerId : Uid) (pc : RTCPeerConnection) (isOfferer : Bool)
    (remoteSdp : Option Sdp) (env : SigEnv) : World × Bool :=
  if isOfferer then
    let l := setLocalDescription w peerId pc SdpType.offer env
    if !l.2.2 then (l.1, false) else addDoc l.1 DocType.offer peerId env
  else if truthyString remoteSdp then
    answerOffer w peerId pc (remoteSdp.getD []) env
  else (w, true)

/-- Lines 439-452 of `createPeerConnection`: when the local user is already
sharing the screen, the offerer adds the screen tracks to the new connection and
schedules a renegotiation offer 500 ms later. -/
def addScreenTracks (w : World) (peerId : Uid) (pcId : Nat) (isOfferer : Bool) : World :=
  match isOfferer && w.store.isScreenSharing, w.store.screenStream with
  | true, some screenStream =>
    match screenStream.getVideoTracks with
    | [] => w
    | videoTrack :: _ =>
      let added : List Sender :=
        ⟨some videoTrack⟩ :: screenStream.getAudioTracks.map (fun t => ⟨some t⟩)
      let w3 := match objGet w.store.peerConnections peerId with
        | some p => { w with store := { w.store with
            peerConnections := objSet w.store.peerConnections peerId
              { p with senders := p.senders ++ added } } }
        | none => w
      let t : Timer := ⟨w3.browser.nextId, TimerKind.renegotiate peerId pcId, 500⟩
      { (w3.emit (Effect.setTimeout t)) with
        browser := { w3.browser with timers := w3.browser.timers ++ [t],
                                     nextId := w3.browser.nextId + 1 } }
  | _, _ => w

/-- The function `createPeerConnection` (lines 335-455); the second component
is `false` when it returns `null`. -/
def createPeerConnection (w : World) (peerId : Uid) (localStream : Option MediaStream)
    (isOfferer : Bool) (remoteSdp : Option Sdp) (env : SigEnv) : World × Bool :=
  let n := newPeerConnection w peerId localStream isOfferer
  let setup := peerSetup n.1 peerId n.2 isOfferer remoteSdp env
  if !setup.2 then (removePeer setup.1 peerId, false)
  else (addScreenTracks setup.1 peerId n.2.pcId isOfferer, true)

def MAX_RECONNECT_ATTEMPTS : Nat := 3

def RECONNECT_DELAY_MS : Nat := 2000

/-- The function `handlePeerReconnect` (lines 457-471), up to scheduling the
timer; the timer body is `reconnectTimerFired`. -/
def handlePeerReconnect (w : World) (peerId : Uid) : World :=
  let attempts := (objGet w.eng.reconnectAttempts peerId).getD 0 + 1
  let w1 := { w with eng := { w.eng with
    reconnectAttempts := objSet w.eng.reconnectAttempts peerId attempts } }
  if attempts > MAX_RECONNECT_ATTEMPTS then removePeer w1 peerId
  else
    let w2 := removePeer w1 peerId
    let t : Timer :=
      ⟨w2.browser.nextId, TimerKind.reconnect peerId, min (RECONNECT_DELAY_MS * attempts) 10000⟩
    { (w2.emit (Effect.setTimeout t)) with
      browser := { w2.browser with timers := w2.browser.timers ++ [t],
                                   nextId := w2.browser.nextId + 1 }
      eng := { w2.eng with reconnectTimers := objSet w2.eng.reconnectTimers peerId t.id } }

/-- The `uid < peerId` test when `uid` may be `undefined` (then it is false). -/
def offersTo (uid : Option Uid) (peerId : Uid) : Bool :=
  match uid with
  | some u => isOfferer u peerId
  | none => false

/-- The body of the reconnect timer (lines 463-470), run when timer `t` for
`peerId` fires. -/
def reconnectTimerFired (w : World) (t : Nat) (peerId : Uid) (env : SigEnv) : World :=
  let w0 := { w with browser := { w.browser with timers := w.browser.timers.filter (·.id ≠ t) } }
  let w1 := { w0 with eng := { w0.eng with
    reconnectTimers := objDel w0.eng.reconnectTimers peerId } }
  if !w1.eng.voiceActive then w1
  else
    let store := w1.store
    if !store.inVoice || !store.voiceUsers.any (fun u => u.uid = peerId) then w1
    else if offersTo w1.authUid peerId then
      (createPeerConnection w1 peerId store.localStream true none env).1
    else w1

/-- The handler `pc.onconnectionstatechange` (lines 408-414) of the connection
`pcId` created for `peerId`, run after the browser moved that connection to
`state`. -/
def onconnectionstatechange (w : World) (peerId : Uid) (pcId : Nat) (state : ConnectionState) :
    World :=
  let w0 := match objGet w.store.peerConnections peerId with
    | some pc =>
      if pc.pcId = pcId then
        { w with store := { w.store with
          peerConnections := objSet w.store.peerConnections peerId
            { pc with connectionState := state } } }
      else w
    | none => w
  if !w0.eng.voiceActive then w0
  else if state = ConnectionState.failed then handlePeerReconnect w0 peerId
  else if state = ConnectionState.connected then
    { w0 with eng := { w0.eng with
      reconnectAttempts := objSet w0.eng.reconnectAttempts peerId 0 } }
  else w0

/-- The handler `pc.ontrack` (lines 355-397) of the connection to `peerId`:
`stream` is `event.streams[0]`, `firstFrame` what a new detector reads first.
Creating a detector on an undefined stream throws and ends the handler. -/
def ontrack (w : World) (peerId : Uid) (track : Track) (stream : Option MediaStream)
    (firstFrame : List Nat) : World :=
  let currentStore := w.store
  match track.kind with
  | TrackKind.audio =>
    let isScreenAudio := match stream with
      | some st => decide (st.getVideoTracks.length > 0)
      | none => false
    if isScreenAudio then w
    else
      -- mic audio: always update to handle stream replacement during renegotiation
      let w1 := match objGet w.eng.speakingDetectors peerId with
        | some d =>
          { (w.emit (Effect.detectorStopped d.onSpeaking)) with
            eng := { w.eng with
              speakingDetectors := objSet w.eng.speakingDetectors peerId d.stop } }
        | none => w
      let store2 : World → World := fun x =>
        { x with store := { x.store with
          remoteStreams := objSet currentStore.remoteStreams peerId stream } }
      match w1.eng.audioContext, stream with
      | some _, none => w1
      | some _, some _ =>
        let det := createSpeakingDetector w1 48000 (SpeakingCallback.remote peerId) none false
          firstFrame
        store2 { det.1 with eng := { det.1.eng with
          speakingDetectors := objSet det.1.eng.speakingDetectors peerId det.2 } }
      | none, _ => store2 w1
  | TrackKind.video =>
    { w with store := { w.store with
      remoteVideoStreams := objSet currentStore.remoteVideoStreams peerId stream } }

/-! ## webrtc.js: the presence and signaling handlers -/

/-- The filter of line 256: everybody but the local user and the voice agent. -/
def otherUsers (uid : Uid) (users : List PresenceEntry) : List PresenceEntry :=
  users.filter (fun u => decide (u.uid ≠ uid) && decide (u.uid ≠ eveUid) && !u.isBot)

/-- The first loop of the presence handler (lines 261-269): `pcs` is
`store.peerConnections` as read before the loop. -/
def presenceConnect (uid : Uid) (pcs : Obj RTCPeerConnection) (env : Uid → SigEnv)
    (w : World) (others : List PresenceEntry) : World :=
  others.foldl (fun acc user =>
    if !objHas pcs user.uid then
      if isOfferer uid user.uid then
        (createPeerConnection acc user.uid acc.store.localStream true none (env user.uid)).1
      else acc
    else acc) w

/-- The second loop of the presence handler (lines 271-276). -/
def presenceRemove (others : List PresenceEntry) (w : World) (keys : List Uid) : World :=
  keys.foldl (fun acc peerId =>
    if !others.any (fun u => u.uid = peerId) then removePeer acc peerId else acc) w

/-- The presence snapshot handler (lines 252-277) of a session started by
`uid`, run without any other code running at its awaits; `users` are the
documents of the snapshot. The run with other code in between is
`onPresenceSnapshotWith`. -/
def onPresenceSnapshot (uid : Uid) (w : World) (users : List PresenceEntry)
    (env : Uid → SigEnv) : World :=
  if !w.eng.voiceActive then w
  else
    let others := otherUsers uid users
    let store := w.store
    let w1 := presenceConnect uid store.peerConnections env w others
    presenceRemove others w1 (objKeys store.peerConnections)

/-- The kind of a document change in a snapshot. -/
inductive ChangeType where
  | added
  | modified
  | removed
deriving DecidableEq

structure DocChange where
  type : ChangeType
  doc : SignalingDoc
deriving DecidableEq

/-- The `try` block of the signaling handler (lines 288-320) for one document
addressed to the local user; a thrown error is caught and only logged, so the
result is just the state. -/
def handleSignal (w : World) (data : SignalingDoc) (env : SigEnv) : World :=
  let store := w.store
  match data.type with
  | DocType.offer =>
    match objGet store.peerConnections data.sender with
    | some existingPc =>
      if existingPc.connectionState ≠ ConnectionState.closed then
        (answerOffer w data.sender existingPc data.sdp env).1
      else
        (createPeerConnection w data.sender store.localStream false (some data.sdp) env).1
    | none =>
      (createPeerConnection w data.sender store.localStream false (some data.sdp) env).1
  | DocType.answer =>
    match objGet store.peerConnections data.sender with
    | some pc =>
      if pc.signalingState = SignalingState.haveLocalOffer then
        let r := setRemoteDescription w data.sender pc SdpType.answer data.sdp env
        if !r.2.2 then r.1 else flushIceCandidates r.1 data.sender r.2.1 env
      else w
    | none => w
  | DocType.iceCandidate =>
    match objGet store.peerConnections data.sender with
    | some pc =>
      if pc.remoteDescription.isSome then
        (addIceCandidate w data.sender pc data.candidate env).1
      else
        -- queue until remote description arrives
        let q := (objGet w.eng.pendingIceCandidates data.sender).getD []
        { w with eng := { w.eng with
          pendingIceCandidates :=
            objSet w.eng.pendingIceCandidates data.sender (q ++ [data.candidate]) } }
    | none => w
  | DocType.other => w

/-- One iteration of the loop over `snap.docChanges()` (lines 281-326); the
`deleteDoc` call is recorded with its outcome, a failure being swallowed. -/
def handleDocChange (uid : Uid) (w : World) (change : DocChange) (env : SigEnv) : World :=
  if change.type ≠ ChangeType.added then w
  else if change.doc.recipient ≠ uid then w
  else
    let w1 := handleSignal w change.doc env
    w1.emit (Effect.deleteDoc change.doc.ref env.deleteDocOk)

/-- The signaling snapshot handler (lines 279-327) of a session started by
`uid`; each change comes with the answers of the outside world while it is
handled. -/
def onSignalingSnapshot (uid : Uid) (w : World) (changes : List (DocChange × SigEnv)) :
    World :=
  if !w.eng.voiceActive then w
  else changes.foldl (fun acc c => handleDocChange uid acc c.1 c.2) w

/-! ## Reading the record of actions -/

/-- An `addIceCandidate` call made while the remote description was not set. -/
def Effect.isEarlyCandidate : Effect → Bool
  | Effect.addIceCandidate _ _ _ false _ => true
  | _ => false

/-- The `addIceCandidate` calls in a record: peer, connection, candidate. -/
def iceCalls : List Effect → List (Uid × Nat × Candidate)
  | [] => []
  | Effect.addIceCandidate p i c _ _ :: rest => (p, i, c) :: iceCalls rest
  | _ :: rest => iceCalls rest

/-- The peers to which a connection was initiated as offerer, in order. -/
def offersInitiated : List Effect → List Uid
  | [] => []
  | Effect.newPeerConnection p _ true :: rest => p :: offersInitiated rest
  | _ :: rest => offersInitiated rest

/-- The timers scheduled in a record, in order. -/
def timersScheduled : List Effect → List Timer
  | [] => []
  | Effect.setTimeout t :: rest => t :: timersScheduled rest
  | _ :: rest => timersScheduled rest

/-- The later state only extends the record of the earlier one, and every
action it adds satisfies `P`. -/
def LogExt (P : Effect → Bool) (w w' : World) : Prop :=
  ∃ suffix, w'.log = w.log ++ suffix ∧ ∀ e ∈ suffix, P e = true

/-- The action is not an early `addIceCandidate` call. -/
def notEarly (e : Effect) : Bool := !e.isEarlyCandidate

/-! ## Example states -/

/-- A state in a voice channel with a pipeline: the mute callback is registered
and `micMuteGain` points to gain node 1 (node 0 is the gate). -/
def mutedWorld : World :=
  { initialWorld (some [97]) with
    store := { initialStore with inVoice := true, isMuted := true,
                                 _muteCallback := some MuteCallback.micGain }
    eng := { initialEngine with voiceActive := true, micMuteGain := some 1 }
    browser := { initialBrowser with gains := [⟨1, []⟩, ⟨0, []⟩] } }

/-- A deafened state: `mutedWorld` after `toggleDeafen`. -/
def deafenedWorld : World := toggleDeafen mutedWorld

def uidA : Uid := [97]

def uidB : Uid := [98]

def uidC : Uid := [99]

/-- The local user `uid` has joined a voice channel (`inVoice` is set and the
presence list holds `users`) and `startVoice` has not run yet. -/
def joinedWorld (uid : Uid) (users : List PresenceEntry) : World :=
  { initialWorld (some uid) with
    store := { initialStore with inVoice := true, voiceChannelId := some [99],
                                 voiceGroupId := some [103], voiceUsers := users,
                                 unsubVoice := some (UnsubFn.storePresence 0) }
    browser := { initialBrowser with listeners := [0], nextId := 1 } }

/-- Answers of the outside world under which `startVoice` succeeds: no TURN
server, the default microphone, a working pipeline, silence in the first frame. -/
def goodStartEnv : StartEnv :=
  { now := 1000, turn := TurnOutcome.failed,
    mic := { exact := none, default := some ⟨100, [⟨101, TrackKind.audio⟩]⟩, errorMessage := [] },
    pipeline := { sourceOk := true, addModuleOk := true, workletNodeOk := true,
                  errorMessage := [] },
    firstFrame := [] }

/-- Answers under which every browser and channel call succeeds. -/
def okSigEnv : SigEnv :=
  { setRemoteOk := true, localDescriptionOk := true, addDocOk := true, deleteDocOk := true,
    badCandidates := [] }

def presenceOf (uid : Uid) : PresenceEntry :=
  { uid := uid, isBot := false, isScreenSharing := false }

/-- User `a` in a running session with `a` and `b` present, before any presence
snapshot was handled by the engine. -/
def startedWorldA : World :=
  (startVoice (joinedWorld uidA [presenceOf uidA, presenceOf uidB]) [103] [99] goodStartEnv).2

/-- User `a` after the presence snapshot: `a` has offered to `b` and waits for
the answer. -/
def offeringWorldA : World :=
  onPresenceSnapshot uidA startedWorldA [presenceOf uidA, presenceOf uidB] (fun _ => okSigEnv)

/-- User `b` in a running session with `a` and `b` present: `b` waits for the
offer of `a`. -/
def startedWorldB : World :=
  (startVoice (joinedWorld uidB [presenceOf uidA, presenceOf uidB]) [103] [99] goodStartEnv).2

/-- An added signaling document. -/
def addedDoc (ref : Nat) (type : DocType) (sender recipient : Uid) (sdp : Sdp)
    (candidate : Candidate) : DocChange × SigEnv :=
  (⟨ChangeType.added, ⟨ref, type, sender, recipient, sdp, candidate⟩⟩, okSigEnv)

/-- The signaling snapshot handler run on a sequence of snapshots. -/
def onSignalingSnapshots (uid : Uid) (w : World) (snaps : List (List (DocChange × SigEnv))) :
    World :=
  snaps.foldl (onSignalingSnapshot uid) w

/-- User `b` receives, in one snapshot, candidate 7 of `a`, then the offer of
`a`, then candidate 9 of `a`. -/
def earlyCandidateWorldB : World :=
  onSignalingSnapshot uidB startedWorldB
    [addedDoc 1 DocType.iceCandidate uidA uidB [] 7, addedDoc 2 DocType.offer uidA uidB [1] 0,
     addedDoc 3 DocType.iceCandidate uidA uidB [] 9]

/-- User `a`, waiting for the answer of `b`, receives candidate 7 of `b`; then
the connection fails, the reconnect timer (identity 11) fires and creates a new
connection, and the answer of `b` arrives. -/
def reconnectedWorldA : World :=
  onSignalingSnapshot uidA
    (reconnectTimerFired
      (onconnectionstatechange
        (onSignalingSnapshot uidA offeringWorldA [addedDoc 1 DocType.iceCandidate uidB uidA [] 7])
        uidB 10 ConnectionState.failed)
      11 uidB okSigEnv)
    [addedDoc 2 DocType.answer uidB uidA [1] 0]

/-- The state after `n` consecutive failures of the connection to `peerId`,
each handled by `handlePeerReconnect`. -/
def failRepeatedly (peerId : Uid) : Nat → World → World
  | 0, w => w
  | n + 1, w => failRepeatedly peerId n (handlePeerReconnect w peerId)

/-- A frame in which every frequency bin reads 100: its speech-band average
is above every threshold below 100. -/
def loudFrame : List Nat := List.replicate 256 100

/-- User `a` in a running session, muted, and then three loud frames arrive. -/
def mutedSpeakingWorldA : World :=
  runMicActions startedWorldA
    [MicAction.toggleMute, MicAction.frame 20 loudFrame, MicAction.frame 20 loudFrame,
     MicAction.frame 20 loudFrame]

/-! ## Sequences of frames -/

/-- The closure state and the outputs of `check` over a sequence of frames; a
frame is the threshold read in it and the frequency data. -/
def Detector.run (d : Detector) : List (Nat × List Nat) → Detector × List CheckOutput
  | [] => (d, [])
  | f :: rest =>
    ((Detector.run (d.check f.1 f.2).1 rest).1,
      (d.check f.1 f.2).2 :: (Detector.run (d.check f.1 f.2).1 rest).2)

/-- What `check` reports on the frame where it switches to speaking: the call
`onSpeaking(true)` and, with a gate attached, the ramp to 1 over 5 ms. -/
def onsetOutput (gateNode : Option Nat) : CheckOutput :=
  ⟨some true, if gateNode.isSome then some ⟨1, 5⟩ else none⟩

/-- What `check` reports on a frame without a switch. -/
def quietOutput : CheckOutput := ⟨none, none⟩

/-! ## voiceStore.js: joining and leaving -/

/-- A call of the function stored in `unsubVoice`. The one set by
`joinVoiceChannel` (lines 203-207) unsubscribes the store's presence listener
(and removes the two window listeners registered with it); the one set by
`listenSignaling` (`webrtc.js` line 331) first calls the previous function, then
unsubscribes the engine's presence listener and, if `signalingUnsub` is set at
that time, the signaling listener. -/
def UnsubFn.call : UnsubFn → World → World
  | UnsubFn.storePresence l, w =>
    { w with browser := { w.browser with listeners := w.browser.listeners.filter (· ≠ l) }
             log := w.log ++ [Effect.unsubscribe l] }
  | UnsubFn.engine p, w =>
    let w1 := { w with browser := { w.browser with listeners := w.browser.listeners.filter (· ≠ p) }
                       log := w.log ++ [Effect.unsubscribe p] }
    match w1.eng.signalingUnsub with
    | some sg =>
      { w1 with browser := { w1.browser with listeners := w1.browser.listeners.filter (· ≠ sg) }
                log := w1.log ++ [Effect.unsubscribe sg] }
    | none => w1
  | UnsubFn.engineAfter prev p, w =>
    let w0 := UnsubFn.call prev w
    let w1 := { w0 with browser := { w0.browser with listeners := w0.browser.listeners.filter (· ≠ p) }
                        log := w0.log ++ [Effect.unsubscribe p] }
    match w1.eng.signalingUnsub with
    | some sg =>
      { w1 with browser := { w1.browser with listeners := w1.browser.listeners.filter (· ≠ sg) }
                log := w1.log ++ [Effect.unsubscribe sg] }
    | none => w1

/-- Store action `joinVoiceChannel` (lines 138-212); `setDocOk` tells whether
the presence write succeeds (a failure rejects the call before anything is
set). The snapshot listener it registers keeps `voiceUsers` up to date. -/
def joinVoiceChannel (w : World) (groupId channelId : JsString) (setDocOk : Bool) : World :=
  match truthyUid w.authUid with
  | none => w
  | some uid =>
    if !setDocOk then w
    else
      let l := w.browser.nextId
      let w1 := { w with
        browser := { w.browser with listeners := w.browser.listeners ++ [l], nextId := l + 1 }
        log := w.log ++ [Effect.setPresence uid, Effect.subscribe l] }
      { w1 with store := { w1.store with
          inVoice := true
          voiceChannelId := some channelId
          voiceGroupId := some groupId
          unsubVoice := some (UnsubFn.storePresence l)
          error := none
          isMuted := false
          isDeafened := false } }

/-- The calls `pc.close()` for every connection of the map (line 241). -/
def closeAll (w : World) (pcs : Obj RTCPeerConnection) : World :=
  { w with log := w.log ++ pcs.map (fun p => Effect.closePeerConnection p.1 p.2.pcId) }

/-- Store action `leaveVoiceChannel` (lines 214-261); failures of the document
deletions are swallowed. -/
def leaveVoiceChannel (w : World) : World :=
  let voiceGroupId := w.store.voiceGroupId
  let voiceChannelId := w.store.voiceChannelId
  let unsubVoice := w.store.unsubVoice
  let localStream := w.store.localStream
  let peerConnections := w.store.peerConnections
  let w1 := match truthyUid w.authUid, voiceGroupId, voiceChannelId with
    | some uid, some _, some _ =>
      { w with log := w.log ++ [Effect.deletePresence uid, Effect.deleteSignalingDocs uid] }
    | _, _, _ => w
  let w2 := match unsubVoice with
    | some f => f.call w1
    | none => w1
  let w3 := match localStream with
    | some ls => stopTracks w2 ls
    | none => w2
  let w4 := closeAll w3 peerConnections
  { w4 with store := { w4.store with
      inVoice := false
      voiceChannelId := none
      voiceGroupId := none
      voiceUsers := []
      localStream := none
      peerConnections := []
      remoteStreams := []
      remoteVideoStreams := []
      unsubVoice := none
      speakingUsers := []
      error := none
      isMuted := false
      isDeafened := false
      _wasMutedBeforeDeafen := false
      isScreenSharing := false
      screenStream := none } }

/-- The store actions on the membership and on the mute and deafen flags. -/
inductive VoiceAction where
  | toggleMute
  | toggleDeafen
  | joinVoiceChannel (groupId channelId : JsString) (setDocOk : Bool)
  | leaveVoiceChannel
deriving DecidableEq

def VoiceAction.step (w : World) : VoiceAction → World
  | VoiceAction.toggleMute => Dizkord.toggleMute w
  | VoiceAction.toggleDeafen => Dizkord.toggleDeafen w
  | VoiceAction.joinVoiceChannel g c ok => Dizkord.joinVoiceChannel w g c ok
  | VoiceAction.leaveVoiceChannel => Dizkord.leaveVoiceChannel w

def runVoiceActions (w : World) (as : List VoiceAction) : World :=
  as.foldl VoiceAction.step w

/-! ## More readings of the record, and more example states -/

/-- The peers for which a connection object was created, in order, whatever
the role. -/
def connectionsCreated : List Effect → List Uid
  | [] => []
  | Effect.newPeerConnection p _ _ :: rest => p :: connectionsCreated rest
  | _ :: rest => connectionsCreated rest

/-- The signaling documents written, in order: type and recipient. -/
def docsWritten : List Effect → List (DocType × Uid)
  | [] => []
  | Effect.addDoc t _ r :: rest => (t, r) :: docsWritten rest
  | _ :: rest => docsWritten rest

/-- Answers under which the worklet module fails to load, everything else
succeeding. -/
def failingPipelineEnv : StartEnv :=
  { goodStartEnv with
    pipeline := { sourceOk := true, addModuleOk := false, workletNodeOk := true,
                  errorMessage := [] } }

/-- Answers under which no microphone can be acquired. -/
def failingMicEnv : StartEnv :=
  { goodStartEnv with mic := { exact := none, default := none, errorMessage := [] } }

/-- The browser reports the current connection to `peerId` as failed (nothing
happens when there is none). -/
def failOnce (w : World) (peerId : Uid) : World :=
  match objGet w.store.peerConnections peerId with
  | some pc => onconnectionstatechange w peerId pc.pcId ConnectionState.failed
  | none => w

/-- The pending reconnect timer of `peerId` fires (nothing happens when there
is none). -/
def retryOnce (w : World) (peerId : Uid) (env : SigEnv) : World :=
  match objGet w.eng.reconnectTimers peerId with
  | some t => reconnectTimerFired w t peerId env
  | none => w

/-- User `a` after the connection to `b` failed, was recreated by the
reconnect timer and failed again, four failures in all. -/
def abandonedWorldA : World :=
  failOnce (retryOnce (failOnce (retryOnce (failOnce (retryOnce (failOnce offeringWorldA uidB)
    uidB okSigEnv) uidB) uidB okSigEnv) uidB) uidB okSigEnv) uidB

/-! ## webrtc.js: teardown -/

/-- The function `onVoiceStop` (line 516). -/
def onVoiceStop (w : World) (cb : Option StopHook) : World :=
  { w with eng := { w.eng with _onVoiceStopCb := cb } }

/-- A call of the registered hook, `stopGrokVoice` of `grokVoice.js` (lines
514-554), as far as it touches the store and the engine: it clears the speaking
entry of `'eve'` and, through `cleanup` (line 235), unregisters itself with
`onVoiceStop(null)`. The agent's own nodes and socket are not part of the
state. -/
def StopHook.call (_h : StopHook) (w : World) : World :=
  onVoiceStop (setSpeaking (w.emit Effect.stopHook) eveUid false) none

/-- The function `sendRenegotiationOffer` (lines 120-131) for the connection
`pc` of `peerId`, run to completion; a thrown error is caught and logged. -/
def sendRenegotiationOffer (w : World) (peerId : Uid) (pc : RTCPeerConnection)
    (env : SigEnv) : World :=
  if !w.eng.voiceActive then w
  else
    let l := setLocalDescription w peerId pc SdpType.offer env
    if !l.2.2 then l.1 else (addDoc l.1 DocType.offer peerId env).1

/-- The handler `pc.onicecandidate` (lines 399-404) of the connection to
`peerId`; `candidate` is `event.candidate`. -/
def onicecandidate (w : World) (peerId : Uid) (candidate : Option Candidate)
    (env : SigEnv) : World :=
  if !w.eng.voiceActive || candidate.isNone then w
  else (addDoc w DocType.iceCandidate peerId env).1

/-- The body of the renegotiation timer `t` (line 449) set for the connection
`pcId` of `peerId`. A connection that is no longer in the map has been closed,
and `createOffer` on it throws. -/
def renegotiateTimerFired (w : World) (t : Nat) (peerId : Uid) (pcId : Nat)
    (env : SigEnv) : World :=
  let w0 := { w with browser := { w.browser with timers := w.browser.timers.filter (·.id ≠ t) } }
  match objGet w0.store.peerConnections peerId with
  | some pc => if pc.pcId = pcId then sendRenegotiationOffer w0 peerId pc env else w0
  | none => w0

/-- The loop `for (const key of Object.keys(o)) delete o[key]`. -/
def objClear {α : Type} (o : Obj α) : Obj α := (objKeys o).foldl objDel o

/-- Whether `stopScreenShare` removes the track of a sender (lines 596-603):
a video track, or an audio track that is not the microphone track. -/
def isScreenSender (micTrackId : Option Nat) (s : Sender) : Bool :=
  match s.track with
  | none => false
  | some t => decide (t.kind = TrackKind.video) || decide (some t.id ≠ micTrackId)

/-- The calls `pc.removeTrack(sender)` of one connection: the sender stays and
its track becomes `null`. -/
def removeScreenTracks (micTrackId : Option Nat) (pc : RTCPeerConnection) :
    RTCPeerConnection :=
  { pc with senders := pc.senders.map (fun s => if isScreenSender micTrackId s then ⟨none⟩ else s) }

/-- The tracks whose senders `removeScreenTracks` clears, in sender order. -/
def removedTracks (micTrackId : Option Nat) (pc : RTCPeerConnection) : List Nat :=
  (pc.senders.filter (isScreenSender micTrackId)).filterMap (fun s => s.track.map Track.id)

/-- One round of the loop of `stopScreenShare` (lines 593-610) for the entry
`e` of `store.peerConnections`; the renegotiation offer is run to completion. -/
def stopSharingTo (micTrackId : Option Nat) (env : Uid → SigEnv) (acc : World)
    (e : Uid × RTCPeerConnection) : World :=
  if e.2.connectionState = ConnectionState.closed then acc
  else
    let pc1 := removeScreenTracks micTrackId e.2
    let w1 := { acc with
      store := { acc.store with peerConnections := objSet acc.store.peerConnections e.1 pc1 }
      log := acc.log ++ (removedTracks micTrackId e.2).map (Effect.removeTrack e.1 e.2.pcId) }
    if w1.eng.voiceActive && truthyString w1.eng.activeGroupId &&
        truthyString w1.eng.activeChannelId then
      sendRenegotiationOffer w1 e.1 pc1 (env e.1)
    else w1

/-- Line 588 of `stopScreenShare`: the tracks of the module variable
`screenStream` are stopped and the variable is cleared. -/
def stopScreenStream (w : World) : World :=
  match w.eng.screenStream with
  | some s =>
    let w0 := stopTracks w s
    { w0 with eng := { w0.eng with screenStream := none } }
  | none => w

/-- Lines 590-610 of `stopScreenShare`: the loop over the connections of the
store. -/
def clearScreenSenders (w : World) (env : Uid → SigEnv) : World :=
  let store := w.store
  let micTrackId := (store.localStream.bind (fun ls => ls.getAudioTracks.head?)).map Track.id
  store.peerConnections.foldl (stopSharingTo micTrackId env) w

/-- The function `stopScreenShare` (lines 587-618). -/
def stopScreenShare (w : World) (env : Uid → SigEnv) : World :=
  let w2 := clearScreenSenders (stopScreenStream w) env
  let w3 := { w2 with store := { w2.store with isScreenSharing := false
                                               screenStream := none } }
  if truthyString w3.eng.activeGroupId && truthyString w3.eng.activeChannelId then
    match truthyUid w3.authUid with
    | some uid => w3.emit (Effect.updatePresence uid false)
    | none => w3
  else w3

/-- Line 489 of `stopVoice`: `voiceActive = false`. -/
def clearActive (w : World) : World :=
  { w with eng := { w.eng with voiceActive := false } }

/-- Line 492: `if (_onVoiceStopCb) { _onVoiceStopCb(); _onVoiceStopCb = null }`. -/
def runStopHook (w : World) : World :=
  match w.eng._onVoiceStopCb with
  | some h => onVoiceStop (h.call w) none
  | none => w

/-- Line 494: `if (useVoiceStore.getState().isScreenSharing) stopScreenShare()`. -/
def stopActiveScreenShare (env : Uid → SigEnv) (w : World) : World :=
  if w.store.isScreenSharing then stopScreenShare w env else w

/-- The `stop()` calls of lines 495-496: the local detector, then the detectors
of the peers in key order. -/
def detectorStops (e : Engine) : List Effect :=
  (match e.localSpeakingDetector with
    | some d => [Effect.detectorStopped d.onSpeaking]
    | none => []) ++
  e.speakingDetectors.map (fun p => Effect.detectorStopped p.2.onSpeaking)

/-- Lines 495-496: every detector is stopped and dropped. -/
def stopDetectors (w : World) : World :=
  { w with
    log := w.log ++ detectorStops w.eng
    eng := { w.eng with localSpeakingDetector := none
                        speakingDetectors := objClear w.eng.speakingDetectors } }

/-- The `clearTimeout` calls of line 497, in key order. -/
def timerCancels (e : Engine) : List Effect :=
  e.reconnectTimers.map (fun p => Effect.clearTimeout p.2)

/-- Line 497: every pending reconnect timer is cancelled and forgotten. -/
def cancelReconnectTimers (w : World) : World :=
  { w with
    log := w.log ++ timerCancels w.eng
    browser := { w.browser with
      timers := w.browser.timers.filter
        (fun t => decide (t.id ∉ w.eng.reconnectTimers.map Prod.snd)) }
    eng := { w.eng with reconnectTimers := objClear w.eng.reconnectTimers } }

/-- Lines 498-500: the attempt counters and the candidate queues are emptied
and `switchingDevice` is reset. -/
def clearTables (w : World) : World :=
  { w with eng := { w.eng with
      reconnectAttempts := objClear w.eng.reconnectAttempts
      pendingIceCandidates := objClear w.eng.pendingIceCandidates
      switchingDevice := false } }

/-- Line 501: the raw microphone tracks are stopped. -/
def stopRawTracks (w : World) : World :=
  match w.eng.currentRawStream with
  | some s =>
    let w0 := stopTracks w s
    { w0 with eng := { w0.eng with currentRawStream := none } }
  | none => w

/-- Lines 502-504: the session identifiers and the pipeline handles are
cleared and the mute callback is unregistered. -/
def clearPipeline (w : World) : World :=
  registerMuteCallback
    { w with eng := { w.eng with
        activeGroupId := none
        activeChannelId := none
        pipelineDest := none
        micMuteGain := none
        captureStream := none } } none

/-- Line 505: `if (cleanupResilience) { cleanupResilience(); cleanupResilience = null }`. -/
def releaseResilience (w : World) : World :=
  match w.eng.cleanupResilience with
  | some r =>
    let w0 := cleanupResilienceCall w r
    { w0 with eng := { w0.eng with cleanupResilience := none } }
  | none => w

/-- Line 506: `if (audioContext) { audioContext.close(); audioContext = null;
resetWorkletState() }`. -/
def closeContext (w : World) : World :=
  match w.eng.audioContext with
  | some c =>
    resetWorkletState
      { (w.emit (Effect.closeAudioContext c)) with
        browser := { w.browser with closedContexts := w.browser.closedContexts ++ [c] }
        eng := { w.eng with audioContext := none } }
  | none => w

/-- Line 507: `if (signalingUnsub) { signalingUnsub(); signalingUnsub = null }`. -/
def unsubscribeSignaling (w : World) : World :=
  match w.eng.signalingUnsub with
  | some s =>
    { (w.emit (Effect.unsubscribe s)) with
      browser := { w.browser with listeners := w.browser.listeners.filter (· ≠ s) }
      eng := { w.eng with signalingUnsub := none } }
  | none => w

/-- The statements of `stopVoice` (lines 487-509) in program order. -/
def stopVoiceSteps (env : Uid → SigEnv) : List (World → World) :=
  [clearActive, runStopHook, stopActiveScreenShare env, stopDetectors, cancelReconnectTimers,
   clearTables, stopRawTracks, clearPipeline, releaseResilience, closeContext,
   unsubscribeSignaling]

/-- The state after the first `k` statements of `stopVoice`. -/
def stopVoiceUpTo (k : Nat) (w : World) (env : Uid → SigEnv) : World :=
  ((stopVoiceSteps env).take k).foldl (fun acc f => f acc) w

/-- The function `stopVoice` (lines 487-509); `env` is only read by the
renegotiation offers of `stopScreenShare`. -/
def stopVoice (w : World) (env : Uid → SigEnv) : World :=
  (stopVoiceSteps env).foldl (fun acc f => f acc) w

/-- The `removeTrack` calls of one round of the loop of `stopScreenShare`. -/
def sharingStops (micTrackId : Option Nat) (e : Uid × RTCPeerConnection) : List Effect :=
  if e.2.connectionState = ConnectionState.closed then []
  else (removedTracks micTrackId e.2).map (Effect.removeTrack e.1 e.2.pcId)

/-- The browser and channel calls of `stopScreenShare` in program order when no
renegotiation offer is sent: the screen tracks are stopped, the screen senders
of every open connection are cleared, the presence document is updated. -/
def screenShareStops (w : World) : List Effect :=
  (match w.eng.screenStream with
    | some s => s.tracks.map (fun t => Effect.trackStop t.id)
    | none => []) ++
  w.store.peerConnections.foldr (fun e l =>
    sharingStops ((w.store.localStream.bind (fun ls => ls.getAudioTracks.head?)).map Track.id) e
      ++ l) [] ++
  (if truthyString w.eng.activeGroupId && truthyString w.eng.activeChannelId then
    match truthyUid w.authUid with
    | some uid => [Effect.updatePresence uid false]
    | none => []
  else [])

/-- The call of the before-stop hook (line 492), if one is registered. -/
def hookCalls (e : Engine) : List Effect :=
  match e._onVoiceStopCb with
  | some _ => [Effect.stopHook]
  | none => []

/-- The `stop()` calls on the raw microphone tracks (line 501). -/
def rawTrackStops (e : Engine) : List Effect :=
  match e.currentRawStream with
  | some s => s.tracks.map (fun t => Effect.trackStop t.id)
  | none => []

/-- The call `audioContext.close()` (line 506). -/
def contextCloses (e : Engine) : List Effect :=
  match e.audioContext with
  | some c => [Effect.closeAudioContext c]
  | none => []

/-- The call `signalingUnsub()` (line 507). -/
def signalingUnsubscribes (e : Engine) : List Effect :=
  match e.signalingUnsub with
  | some s => [Effect.unsubscribe s]
  | none => []

/-- User `a` in a running session in which the connection to `b` has just
failed (its reconnect timer is pending), the voice agent has registered its
hook, and a screen share with video track 51 is active. -/
def teardownWorldA : World :=
  let w := onVoiceStop (failOnce offeringWorldA uidB) (some StopHook.stopGrokVoice)
  { w with
    store := { w.store with isScreenSharing := true
                            screenStream := some ⟨50, [⟨51, TrackKind.video⟩]⟩ }
    eng := { w.eng with screenStream := some ⟨50, [⟨51, TrackKind.video⟩]⟩ } }

/-- User `a` stops voice while offering to `b` (the connection object stays in
the store) and starts again; while the microphone request of the second start
is pending the old connection fails, which schedules reconnect timer 11; then
the microphone is denied, so the second start ends with the flag cleared and
the timer still pending. -/
def staleTimerWorldA : World :=
  match startVoiceEnter (stopVoice offeringWorldA (fun _ => okSigEnv)) [103] [99] with
  | some w1 =>
    (startVoiceMic (failOnce (fetchTurnCredentials w1 1000 TurnOutcome.failed) uidB) none
      failingMicEnv).1
  | none => offeringWorldA

/-! ## webrtc.js: switching the input device -/

/-- How a `switchInputDevice` call ends: it returns at a guard, it returns
after the microphone was refused, it rejects (the pipeline or a `replaceTrack`
threw; there is no `catch`), or it runs to the end. -/
inductive SwitchResult where
  | ignored
  | micFailed
  | threw
  | done
deriving DecidableEq

/-- Everything the outside world contributes to one `switchInputDevice` call;
`replaceOk p` tells whether `replaceTrack` on the connection to `p` succeeds. -/
structure SwitchEnv where
  mic : MicOutcome
  pipeline : PipelineOutcome
  firstFrame : List Nat
  replaceOk : Uid → Bool

/-- The test `s.track?.kind === 'audio'` (line 236). -/
def Sender.isAudio (s : Sender) : Bool :=
  match s.track with
  | some t => decide (t.kind = TrackKind.audio)
  | none => false

/-- The sender list after `sender.replaceTrack(newTrack)` on
`pc.getSenders().find(s => s.track?.kind === 'audio')` (lines 236-237): the
first audio sender gets the new track; without an audio sender nothing
changes. -/
def replaceAudioTrack (newTrack : Option Track) : List Sender → List Sender
  | [] => []
  | s :: rest => if s.isAudio then ⟨newTrack⟩ :: rest else s :: replaceAudioTrack newTrack rest

/-- The loop of lines 235-238 over the entries of `store.peerConnections`: the
connection objects after the loop, the `replaceTrack` calls made, and whether
the loop ran to the end (`false`: a `replaceTrack` threw). -/
def replaceTracks (newTrack : Option Track) (replaceOk : Uid → Bool) :
    List (Uid × RTCPeerConnection) → List (Uid × RTCPeerConnection) × List Effect × Bool
  | [] => ([], [], true)
  | (peerId, pc) :: rest =>
    if pc.senders.any Sender.isAudio then
      if replaceOk peerId then
        let r := replaceTracks newTrack replaceOk rest
        ((peerId, { pc with senders := replaceAudioTrack newTrack pc.senders }) :: r.1,
          Effect.replaceTrack peerId pc.pcId (newTrack.map Track.id) true :: r.2.1, r.2.2)
      else
        ((peerId, pc) :: rest,
          [Effect.replaceTrack peerId pc.pcId (newTrack.map Track.id) false], false)
    else
      let r := replaceTracks newTrack replaceOk rest
      ((peerId, pc) :: r.1, r.2.1, r.2.2)

/-- Lines 213-215 of `switchInputDevice`: the old raw tracks are stopped, the
new raw stream is kept, the tracks of the old processed stream are stopped. -/
def switchStreams (w : World) (localStream : Option MediaStream)
    (newRawStream : MediaStream) : World :=
  let w1 := match w.eng.currentRawStream with
    | some s => stopTracks w s
    | none => w
  let w2 := { w1 with eng := { w1.eng with currentRawStream := some newRawStream } }
  match localStream with
  | some ls => stopTracks w2 ls
  | none => w2

/-- Lines 218-232 of `switchInputDevice`: the handles of the new pipeline are
kept, the mute callback is registered again, the current mute state is applied
to the new mute gain, the old detector is stopped and a new one is created. -/
def switchPipeline (w : World) (result : PipelineResult) (firstFrame : List Nat) : World :=
  let e0 := w.eng
  let w1 := { w with eng := { e0 with pipelineDest := some result.dest
                                      micMuteGain := some result.muteGain
                                      captureStream := some result.captureStream } }
  let w2 := registerMuteCallback w1 (some MuteCallback.micGain)
  let w3 := if w2.store.isMuted then
      { w2 with browser := { w2.browser with
          gains := setGainValue w2.browser.gains result.muteGain 0 } }
    else w2
  let w4 := match w3.eng.localSpeakingDetector with
    | some d => w3.emit (Effect.detectorStopped d.onSpeaking)
    | none => w3
  let det := createSpeakingDetector w4 48000 (SpeakingCallback.localMic w4.authUid)
    (some result.gateNode) true firstFrame
  { det.1 with eng := { det.1.eng with localSpeakingDetector := some det.2 } }

/-- Lines 234-239 of `switchInputDevice`: the track replacement on the
connections of the store snapshot (the connection objects are changed in
place) and, if no `replaceTrack` threw, the new `localStream`. -/
def switchTracks (w : World) (pcs : Obj RTCPeerConnection) (processedStream : MediaStream)
    (replaceOk : Uid → Bool) : World × Bool :=
  let newTrack := processedStream.getAudioTracks.head?
  let r := replaceTracks newTrack replaceOk pcs
  let w1 := { w with store := { w.store with peerConnections := r.1 }
                     log := w.log ++ r.2.1 }
  if r.2.2 then ({ w1 with store := { w1.store with localStream := some processedStream } }, true)
  else (w1, false)

/-- The `finally` block of `switchInputDevice` (lines 240-242). -/
def switchFinally (w : World) : World :=
  { w with eng := { w.eng with switchingDevice := false } }

/-- The `try` block of `switchInputDevice` with its `finally` (lines 208-242);
`store` is the snapshot of the store taken at line 205. -/
def switchAttempt (w : World) (store : Store) (audioContext : Nat)
    (deviceId : Option JsString) (env : SwitchEnv) : World × SwitchResult :=
  let m := acquireMic w deviceId env.mic
  match m.2 with
  | none => (switchFinally m.1, SwitchResult.micFailed)
  | some newRawStream =>
    let w1 := switchStreams m.1 store.localStream newRawStream
    let r := createAudioPipeline w1 audioContext env.pipeline
    match r.2 with
    | none => (switchFinally r.1, SwitchResult.threw)
    | some pipelineResult =>
      let w2 := switchPipeline r.1 pipelineResult env.firstFrame
      let t := switchTracks w2 store.peerConnections pipelineResult.stream env.replaceOk
      if t.2 then (switchFinally t.1, SwitchResult.done)
      else (switchFinally t.1, SwitchResult.threw)

/-- The function `switchInputDevice` (lines 203-245), run to completion. -/
def switchInputDevice (w : World) (deviceId : Option JsString) (env : SwitchEnv) :
    World × SwitchResult :=
  if w.eng.switchingDevice then (w, SwitchResult.ignored)
  else
    let store := w.store
    match store.inVoice, w.eng.audioContext with
    | true, some audioContext =>
      switchAttempt { w with eng := { w.eng with switchingDevice := true } } store audioContext
        deviceId env
    | _, _ => (w, SwitchResult.ignored)

/-- The calls that create or close a connection. -/
def Effect.isLifecycle : Effect → Bool
  | Effect.newPeerConnection _ _ _ => true
  | Effect.closePeerConnection _ _ => true
  | _ => false

/-- The action neither creates nor closes a connection. -/
def notLifecycle (e : Effect) : Bool := !e.isLifecycle

/-- Answers under which a device switch succeeds: the chosen microphone with
track 201, a working pipeline, every `replaceTrack` accepted. -/
def goodSwitchEnv : SwitchEnv :=
  { mic := { exact := some ⟨200, [⟨201, TrackKind.audio⟩]⟩, default := none, errorMessage := [] }
    pipeline := { sourceOk := true, addModuleOk := true, workletNodeOk := true,
                  errorMessage := [] }
    firstFrame := []
    replaceOk := fun _ => true }

/-- What `check` reports on the frame where it switches to not-speaking: the
call `onSpeaking(false)` and, with a gate attached, the ramp to 0 over 150 ms. -/
def offsetOutput (gateNode : Option Nat) : CheckOutput :=
  ⟨some false, if gateNode.isSome then some ⟨0, 150⟩ else none⟩

/-- The arguments of the `onSpeaking` calls in a sequence of outputs. -/
def speakingCalls (os : List CheckOutput) : List Bool := os.filterMap CheckOutput.onSpeaking

/-- The list alternates and starts with `b` (if it starts at all). -/
def alternating : Bool → List Bool → Bool
  | _, [] => true
  | b, x :: xs => (x == b) && alternating (!b) xs

/-- A frame in which every frequency bin reads 0. -/
def silentFrame : List Nat := List.replicate 256 0

/-- A local detector with a gate (node 0) that is speaking and has just seen
an above-threshold frame. -/
def speakingDetector : Detector :=
  { speaking := true, silenceFrames := 0, onsetFrames := 3, stopped := false,
    gateNode := some 0, hasGetThreshold := true, sampleRate := 48000, fftSize := 512,
    onSpeaking := SpeakingCallback.localMic (some uidA) }

/-! ## The credential cache, as the specification words it -/

/-- The most recent fetch: the time at which its answer was processed and the
number of TURN servers it delivered (0 for a failed fetch); `none` before the
first fetch. -/
abbrev LastFetch := Option (Nat × Nat)

/-- The specification's condition for skipping a fetch at time `now`: the most
recent fetch returned at least one TURN server and happened less than
3,600,000 ms earlier. -/
def cacheFresh (last : LastFetch) (now : Nat) : Bool :=
  match last with
  | some (t, n) => decide (1 ≤ n) && decide (now < t + 3600000)
  | none => false

/-- The most recent fetch after a call at time `now` with answer `o`, by the
specification: a skipped call fetches nothing. -/
def recordFetch (last : LastFetch) (now : Nat) (o : TurnOutcome) : LastFetch :=
  if cacheFresh last now then last
  else
    match o with
    | TurnOutcome.returned turnServers nowAfter => some (nowAfter, turnServers.length)
    | TurnOutcome.failed => some (now, 0)

/-- The most recent fetch after a sequence of calls. -/
def lastFetchOf (calls : List (Nat × TurnOutcome)) : LastFetch :=
  calls.foldl (fun l c => recordFetch l c.1 c.2) none

/-- A sequence of `fetchTurnCredentials` calls, each with the time of the call
and the answer of the endpoint. -/
def turnCalls (w : World) (calls : List (Nat × TurnOutcome)) : World :=
  calls.foldl (fun acc c => fetchTurnCredentials acc c.1 c.2) w

/-- Whether the endpoint answered (the flag recorded with a fetch). -/
def TurnOutcome.answered : TurnOutcome → Bool
  | TurnOutcome.returned _ _ => true
  | TurnOutcome.failed => false

/-- The audio contexts on which `addModule` succeeded, in call order. -/
def modulesLoaded : List Effect → List Nat
  | [] => []
  | Effect.addModule ctx true :: rest => ctx :: modulesLoaded rest
  | _ :: rest => modulesLoaded rest

/-- Answers of the outside world under which the module load succeeds and the
construction of the suppressor node throws. -/
def nodeFailEnv : StartEnv :=
  { goodStartEnv with
    pipeline := { sourceOk := true, addModuleOk := true, workletNodeOk := false,
                  errorMessage := [] } }

/-- User `a` after a `startVoice` that failed at the suppressor node. -/
def failedStartWorldA : World :=
  (startVoice (joinedWorld uidA [presenceOf uidA]) [103] [99] nodeFailEnv).2

/-- Answers under which the microphone is granted and the pipeline rebuild of a
device switch throws at the suppressor node. -/
def pipelineFailSwitchEnv : SwitchEnv :=
  { goodSwitchEnv with
    pipeline := { sourceOk := true, addModuleOk := true, workletNodeOk := false,
                  errorMessage := [] } }

/-- Answers under which every `replaceTrack` of a device switch is rejected. -/
def replaceFailSwitchEnv : SwitchEnv :=
  { goodSwitchEnv with replaceOk := fun _ => false }

/-- Answers under which the microphone request of a device switch is refused. -/
def micFailSwitchEnv : SwitchEnv :=
  { goodSwitchEnv with mic := { exact := none, default := none, errorMessage := [] } }

/-- User `a` has joined, `startVoice` has passed its guards and waits for the
credential fetch; the user presses mute; then the start runs to its end with
every answer good. -/
def mutedDuringStartA : Bool × World :=
  match startVoiceEnter (joinedWorld uidA [presenceOf uidA]) [103] [99] with
  | none => (false, joinedWorld uidA [presenceOf uidA])
  | some w1 =>
    let w2 := fetchTurnCredentials (toggleMute w1) goodStartEnv.now goodStartEnv.turn
    let m := startVoiceMic w2 none goodStartEnv
    match m.2 with
    | none => (false, m.1)
    | some (rawStream, ctx) => startVoicePipeline m.1 uidA rawStream ctx goodStartEnv

/-- The value of the gain node `micMuteGain` points to. -/
def muteGainValue (w : World) : Option Nat :=
  w.eng.micMuteGain.bind (fun n => (w.browser.gains.get? n).map GainNode.value)

/-- A `deleteDoc` call. -/
def Effect.isDelete : Effect → Bool
  | Effect.deleteDoc _ _ => true
  | _ => false

/-- The action is not a `deleteDoc` call. -/
def notDelete (e : Effect) : Bool := !e.isDelete

/-- The documents on which `deleteDoc` was called, in call order. -/
def docsDeleted : List Effect → List Nat
  | [] => []
  | Effect.deleteDoc ref _ :: rest => ref :: docsDeleted rest
  | _ :: rest => docsDeleted rest

/-- The test of lines 282-284: the change is an added document addressed to
`uid`. -/
def addressedTo (uid : Uid) (c : DocChange) : Bool :=
  decide (c.type = ChangeType.added) && decide (c.doc.recipient = uid)

/-- The identifier `stopScreenShare` takes for the microphone track (line 591):
`store.localStream?.getAudioTracks()[0]?.id`. -/
def micTrackId (w : World) : Option Nat :=
  (w.store.localStream.bind (fun ls => ls.getAudioTracks.head?)).map Track.id

/-- User `a` shares the screen while connected to `b`: the connection to `b`
carries the screen video track 51, the microphone track 3 and the screen audio
track 52, in this order. -/
def sharingWorldA : World :=
  { offeringWorldA with
    store := { offeringWorldA.store with
      isScreenSharing := true
      screenStream := some ⟨50, [⟨51, TrackKind.video⟩, ⟨52, TrackKind.audio⟩]⟩
      peerConnections := offeringWorldA.store.peerConnections.map (fun e =>
        (e.1, { e.2 with senders :=
          [⟨some ⟨51, TrackKind.video⟩⟩, ⟨some ⟨3, TrackKind.audio⟩⟩,
           ⟨some ⟨52, TrackKind.audio⟩⟩] })) }
    eng := { offeringWorldA.eng with
      screenStream := some ⟨50, [⟨51, TrackKind.video⟩, ⟨52, TrackKind.audio⟩]⟩ } }

/-- User `a` connected to `b` and `c`: for each of them `a` holds a connection,
a queued candidate (7 of `b`, 8 of `c`), a mic-audio stream whose detector has
reported speaking, and a video stream. -/
def meshWorldA : World :=
  let w0 := onPresenceSnapshot uidA startedWorldA
    [presenceOf uidA, presenceOf uidB, presenceOf uidC] (fun _ => okSigEnv)
  let w1 := onSignalingSnapshot uidA w0
    [addedDoc 1 DocType.iceCandidate uidB uidA [] 7,
     addedDoc 2 DocType.iceCandidate uidC uidA [] 8]
  let w2 := ontrack w1 uidB ⟨60, TrackKind.audio⟩ (some ⟨61, [⟨60, TrackKind.audio⟩]⟩) loudFrame
  let w3 := ontrack w2 uidB ⟨62, TrackKind.video⟩ (some ⟨63, [⟨62, TrackKind.video⟩]⟩) []
  let w4 := ontrack w3 uidC ⟨70, TrackKind.audio⟩ (some ⟨71, [⟨70, TrackKind.audio⟩]⟩) loudFrame
  ontrack w4 uidC ⟨72, TrackKind.video⟩ (some ⟨73, [⟨72, TrackKind.video⟩]⟩) []

/-! ## Handlers interleaved at their awaits -/

/-- The first loop of the presence handler (lines 261-269) with other code
running while it waits: `pcs` is `store.peerConnections` as read at line 257,
before the loop, and is not read again; each iteration that calls
`createPeerConnection` awaits it (line 266), and the next function of `during`,
if any, is what runs in the meantime (modelled as running right after the
call, whose connection is stored at line 417 before its first await). An
iteration without a call does not wait. -/
def presenceConnectWith (uid : Uid) (pcs : Obj RTCPeerConnection) (env : Uid → SigEnv) :
    World → List PresenceEntry → List (World → World) → World
  | w, [], _ => w
  | w, user :: rest, during =>
    if !objHas pcs user.uid && isOfferer uid user.uid then
      let w1 := (createPeerConnection w user.uid w.store.localStream true none (env user.uid)).1
      match during with
      | [] => presenceConnectWith uid pcs env w1 rest []
      | step :: steps => presenceConnectWith uid pcs env (step w1) rest steps
    else presenceConnectWith uid pcs env w rest during

/-- The presence snapshot handler (lines 252-277) with the functions of
`during` running at its awaits. The flag is tested once, at the start, and the
store is read once, at line 257. -/
def onPresenceSnapshotWith (uid : Uid) (w : World) (users : List PresenceEntry)
    (env : Uid → SigEnv) (during : List (World → World)) : World :=
  if !w.eng.voiceActive then w
  else
    let others := otherUsers uid users
    let store := w.store
    let w1 := presenceConnectWith uid store.peerConnections env w others during
    presenceRemove others w1 (objKeys store.peerConnections)

/-- The function `startVoice` (lines 133-201) with `during` running while the
call waits for the microphone (`await acquireMic`, line 153). The flag is
tested once, at line 134, and not again after an await. -/
def startVoiceWith (w : World) (groupId channelId : JsString) (env : StartEnv)
    (during : World → World) : Bool × World :=
  match startVoiceEnter w groupId channelId with
  | none => (false, w)
  | some w1 =>
    let selectedInput := w.store.selectedInput
    let w2 := during (fetchTurnCredentials w1 env.now env.turn)
    let m := startVoiceMic w2 selectedInput env
    match m.2 with
    | none => (false, m.1)
    | some (rawStream, ctx) => startVoicePipeline m.1 (keyOf w.authUid) rawStream ctx env

/-- The connections created, with their identities, in order. -/
def connectionsOpened : List Effect → List (Uid × Nat)
  | [] => []
  | Effect.newPeerConnection p i _ :: rest => (p, i) :: connectionsOpened rest
  | _ :: rest => connectionsOpened rest

/-- The connections on which `close()` was called, in order. -/
def connectionsClosed : List Effect → List (Uid × Nat)
  | [] => []
  | Effect.closePeerConnection p i :: rest => (p, i) :: connectionsClosed rest
  | _ :: rest => connectionsClosed rest

/-- The audio contexts created, in order. -/
def contextsCreated : List Effect → List Nat
  | [] => []
  | Effect.newAudioContext ctx :: rest => ctx :: contextsCreated rest
  | _ :: rest => contextsCreated rest

/-- Answers under which `startVoice` succeeds with another microphone stream
(stream 200, track 201). -/
def otherMicEnv : StartEnv :=
  { goodStartEnv with
    mic := { exact := none, default := some ⟨200, [⟨201, TrackKind.audio⟩]⟩, errorMessage := [] } }

/-- The presence documents of `a`, `b` and `c`. -/
def presenceABC : List PresenceEntry := [presenceOf uidA, presenceOf uidB, presenceOf uidC]

/-- User `a` handles a presence snapshot listing `b` and `c`; while the handler
waits for the connection to `b`, a second presence snapshot with the same
documents is handled. -/
def overlappingPresenceA : World :=
  onPresenceSnapshotWith uidA startedWorldA presenceABC (fun _ => okSigEnv)
    [fun x => onPresenceSnapshot uidA x presenceABC (fun _ => okSigEnv)]

/-- User `a` calls `startVoice`; while the microphone prompt is open,
`stopVoice` is called; then the microphone is granted. -/
def stoppedDuringStartA : Bool × World :=
  startVoiceWith (joinedWorld uidA [presenceOf uidA]) [103] [99] goodStartEnv
    (fun x => stopVoice x (fun _ => okSigEnv))

/-- User `a` calls `startVoice`; while the microphone prompt is open,
`stopVoice` is called and `startVoice` is called again and runs to its end;
then the first microphone request is granted. -/
def restartedDuringStartA : Bool × World :=
  startVoiceWith (joinedWorld uidA [presenceOf uidA]) [103] [99] goodStartEnv
    (fun x => (startVoice (stopVoice x (fun _ => okSigEnv)) [103] [99] otherMicEnv).2)

/-- User `a` has called `startVoice`, which waits for the microphone. -/
def suspendedStartA : World :=
  match startVoiceEnter (joinedWorld uidA [presenceOf uidA]) [103] [99] with
  | some w1 => fetchTurnCredentials w1 goodStartEnv.now goodStartEnv.turn
  | none => joinedWorld uidA [presenceOf uidA]

/-! ## Offerer selection -/

theorem jsLt_irrefl (a : JsString) : jsLt a a = false := by
  induction a with
  | nil => rfl
  | cons x xs ih => simp [jsLt, ih]

theorem jsLt_asymm : ∀ a b : JsString, jsLt a b = true → jsLt b a = false
  | [], [], _ => rfl
  | [], _ :: _, _ => rfl
  | _ :: _, [], h => by simp [jsLt] at h
  | x :: xs, y :: ys, h => by
    rcases Nat.lt_trichotomy x y with hxy | hxy | hxy
    · have h1 : ¬ y < x := Nat.lt_asymm hxy
      simp [jsLt, hxy, h1]
    · subst hxy
      simp only [jsLt, Nat.lt_irrefl, if_false] at h ⊢
      exact jsLt_asymm xs ys h
    · have h1 : ¬ x < y := Nat.lt_asymm hxy
      simp [jsLt, hxy, h1] at h

theorem jsLt_total : ∀ a b : JsString, a ≠ b → jsLt a b = true ∨ jsLt b a = true
  | [], [], h => absurd rfl h
  | [], _ :: _, _ => Or.inl rfl
  | _ :: _, [], _ => Or.inr rfl
  | x :: xs, y :: ys, h => by
    rcases Nat.lt_trichotomy x y with hxy | hxy | hxy
    · left; simp [jsLt, hxy]
    · subst hxy
      have hne : xs ≠ ys := fun e => h (by rw [e])
      simp only [jsLt, Nat.lt_irrefl, if_false]
      exact jsLt_total xs ys hne
    · right; simp [jsLt, hxy]

theorem jsLt_iff_lex : ∀ a b : JsString, jsLt a b = true ↔ List.Lex (· < ·) a b
  | [], [] => by
    simp only [jsLt]
    constructor
    · intro h; exact absurd h Bool.false_ne_true
    · intro h; cases h
  | [], y :: ys => by
    simp only [jsLt, true_iff]
    exact List.Lex.nil
  | x :: xs, [] => by
    simp only [jsLt]
    constructor
    · intro h; exact absurd h Bool.false_ne_true
    · intro h; cases h
  | x :: xs, y :: ys => by
    rcases Nat.lt_trichotomy x y with hxy | hxy | hxy
    · simp only [jsLt, hxy, if_true, true_iff]
      exact List.Lex.rel hxy
    · subst hxy
      simp only [jsLt, Nat.lt_irrefl, if_false]
      rw [jsLt_iff_lex xs ys]
      constructor
      · intro h
        exact List.Lex.cons h
      · intro h
        cases h with
        | cons h1 => exact h1
        | rel h1 => exact absurd h1 (Nat.lt_irrefl x)
    · have h1 : ¬ x < y := Nat.lt_asymm hxy
      simp only [jsLt, h1, hxy, if_false, if_true]
      constructor
      · intro h; exact absurd h Bool.false_ne_true
      · intro h
        cases h with
        | cons _ => exact absurd hxy (Nat.lt_irrefl x)
        | rel h2 => exact absurd h2 h1

/-- C1: for two distinct identifiers exactly one side is the offerer, both
clients agree on who it is (the local test of `a` towards `b` is the negation of
the local test of `b` towards `a`), and the offerer is the lexicographically
smaller identifier. -/
theorem offerer_deterministic (a b : Uid) (h : a ≠ b) :
    ((isOfferer a b = true ∧ isOfferer b a = false) ∨
      (isOfferer a b = false ∧ isOfferer b a = true)) ∧
    (isOfferer a b = !isOfferer b a) ∧
    (isOfferer a b = true ↔ List.Lex (· < ·) a b) ∧
    (isOfferer b a = true ↔ List.Lex (· < ·) b a) := by
  have hx : (isOfferer a b = true ∧ isOfferer b a = false) ∨
      (isOfferer a b = false ∧ isOfferer b a = true) := by
    rcases jsLt_total a b h with h1 | h1
    · exact Or.inl ⟨h1, jsLt_asymm a b h1⟩
    · exact Or.inr ⟨jsLt_asymm b a h1, h1⟩
  refine ⟨hx, ?_, jsLt_iff_lex a b, jsLt_iff_lex b a⟩
  rcases hx with ⟨h1, h2⟩ | ⟨h1, h2⟩ <;> simp [h1, h2]

theorem offerer_deterministic_witness :
    (([97, 49] : Uid) ≠ [97, 50]) ∧
    (isOfferer [97, 49] [97, 50] = true ∧ isOfferer [97, 50] [97, 49] = false) := by
  have h : ([97, 49] : Uid) ≠ [97, 50] := by decide
  refine ⟨h, ?_⟩
  rcases (offerer_deterministic [97, 49] [97, 50] h).1 with h1 | h1
  · exact h1
  · exact absurd h1.1 (by decide)

/-! ## Objects as maps -/

theorem objGet_objSet_same {α : Type} (o : Obj α) (k : Uid) (v : α) :
    objGet (objSet o k v) k = some v := by
  induction o with
  | nil => simp [objSet, objGet]
  | cons p rest ih =>
    obtain ⟨k', v'⟩ := p
    by_cases h : k' = k
    · simp [objSet, objGet, h]
    · simp [objSet, objGet, h, ih]

theorem objGet_objSet_ne {α : Type} (o : Obj α) (k k' : Uid) (v : α) (hne : k' ≠ k) :
    objGet (objSet o k v) k' = objGet o k' := by
  induction o with
  | nil =>
    have : ¬ k = k' := fun e => hne e.symm
    simp [objSet, objGet, this]
  | cons p rest ih =>
    obtain ⟨k1, v1⟩ := p
    by_cases h : k1 = k
    · subst h
      have : ¬ k1 = k' := fun e => hne e.symm
      simp [objSet, objGet, this]
    · by_cases h2 : k1 = k'
      · subst h2; simp [objSet, objGet, h]
      · simp [objSet, objGet, h, h2, ih]

theorem objGet_objDel_same {α : Type} (o : Obj α) (k : Uid) :
    objGet (objDel o k) k = none := by
  induction o with
  | nil => simp [objDel, objGet]
  | cons p rest ih =>
    obtain ⟨k1, v1⟩ := p
    by_cases h : k1 = k
    · simp [objDel, h, ih]
    · simp [objDel, objGet, h, ih]

theorem objGet_objDel_ne {α : Type} (o : Obj α) (k k' : Uid) (hne : k' ≠ k) :
    objGet (objDel o k) k' = objGet o k' := by
  induction o with
  | nil => simp [objDel, objGet]
  | cons p rest ih =>
    obtain ⟨k1, v1⟩ := p
    by_cases h : k1 = k
    · subst h
      have : ¬ k1 = k' := fun e => hne e.symm
      simp [objDel, objGet, this, ih]
    · by_cases h2 : k1 = k'
      · subst h2; simp [objDel, objGet, h]
      · simp [objDel, objGet, h, h2, ih]

theorem objGet_objDel_none {α : Type} (o : Obj α) (k k' : Uid) (h : objGet o k' = none) :
    objGet (objDel o k) k' = none := by
  by_cases hk : k' = k
  · subst hk; exact objGet_objDel_same o k'
  · rw [objGet_objDel_ne o k k' hk]; exact h

theorem mem_objKeys_iff {α : Type} (o : Obj α) (k : Uid) :
    k ∈ objKeys o ↔ objGet o k ≠ none := by
  induction o with
  | nil => simp [objKeys, objGet]
  | cons p rest ih =>
    obtain ⟨k1, v1⟩ := p
    by_cases h : k1 = k
    · simp [objKeys, objGet, h]
    · have h' : ¬ k = k1 := fun e => h e.symm
      simp only [objKeys, List.map_cons, List.mem_cons, objGet, h, if_false, h', false_or]
      exact ih

/-! ## The record only grows -/

theorem LogExt.refl (P : Effect → Bool) (w : World) : LogExt P w w :=
  ⟨[], by simp, by simp⟩

theorem LogExt.of_log_eq (P : Effect → Bool) {w w' : World} (h : w'.log = w.log) :
    LogExt P w w' :=
  ⟨[], by simp [h], by simp⟩

theorem LogExt.trans {P : Effect → Bool} {a b c : World} (h1 : LogExt P a b)
    (h2 : LogExt P b c) : LogExt P a c := by
  obtain ⟨s1, e1, p1⟩ := h1
  obtain ⟨s2, e2, p2⟩ := h2
  refine ⟨s1 ++ s2, by rw [e2, e1, List.append_assoc], ?_⟩
  intro e he
  rcases List.mem_append.mp he with h | h
  · exact p1 e h
  · exact p2 e h

theorem LogExt.emit (P : Effect → Bool) (w : World) (e : Effect) (h : P e = true) :
    LogExt P w (w.emit e) :=
  ⟨[e], rfl, by simpa using h⟩

theorem LogExt.foldl {β : Type} (P : Effect → Bool) (f : World → β → World)
    (hf : ∀ w b, LogExt P w (f w b)) (l : List β) (w : World) :
    LogExt P w (l.foldl f w) := by
  induction l generalizing w with
  | nil => exact LogExt.refl P w
  | cons b rest ih => exact LogExt.trans (hf w b) (ih (f w b))

theorem LogExt.mono {P Q : Effect → Bool} {w w' : World} (h : LogExt P w w')
    (hpq : ∀ e, P e = true → Q e = true) : LogExt Q w w' := by
  obtain ⟨s, e, p⟩ := h
  exact ⟨s, e, fun x hx => hpq x (p x hx)⟩

/-! ## Projections of the store and engine operations -/

theorem setSpeaking_eq (w : World) (u : Uid) (b : Bool) :
    setSpeaking w u b =
      { w with store := { w.store with speakingUsers := (setSpeaking w u b).store.speakingUsers } } := by
  unfold setSpeaking
  by_cases hb : b = true <;> by_cases hs : objGet w.store.speakingUsers u = some true <;>
    simp [hb, hs]

theorem setSpeaking_log (w : World) (u : Uid) (b : Bool) : (setSpeaking w u b).log = w.log := by
  rw [setSpeaking_eq]

theorem setSpeaking_eng (w : World) (u : Uid) (b : Bool) : (setSpeaking w u b).eng = w.eng := by
  rw [setSpeaking_eq]

theorem setSpeaking_browser (w : World) (u : Uid) (b : Bool) :
    (setSpeaking w u b).browser = w.browser := by
  rw [setSpeaking_eq]

theorem setSpeaking_authUid (w : World) (u : Uid) (b : Bool) :
    (setSpeaking w u b).authUid = w.authUid := by
  rw [setSpeaking_eq]

theorem setSpeaking_peerConnections (w : World) (u : Uid) (b : Bool) :
    (setSpeaking w u b).store.peerConnections = w.store.peerConnections := by
  rw [setSpeaking_eq]

theorem removePeer_log (w : World) (p : Uid) :
    (removePeer w p).log = w.log ++
      (match objGet w.store.peerConnections p with
        | some pc => [Effect.closePeerConnection p pc.pcId]
        | none => []) ++
      (match objGet w.eng.speakingDetectors p with
        | some d => [Effect.detectorStopped d.onSpeaking]
        | none => []) := by
  unfold removePeer
  simp only [setSpeaking_log]
  cases h1 : objGet w.store.peerConnections p <;>
    cases h2 : objGet w.eng.speakingDetectors p <;> simp [World.emit, h2]

theorem removePeer_peerConnections (w : World) (p : Uid) :
    (removePeer w p).store.peerConnections = objDel w.store.peerConnections p := by
  unfold removePeer
  simp only [setSpeaking_peerConnections]

theorem removePeer_pending (w : World) (p : Uid) :
    (removePeer w p).eng.pendingIceCandidates = objDel w.eng.pendingIceCandidates p := by
  unfold removePeer
  simp only [setSpeaking_eng]
  cases h1 : objGet w.store.peerConnections p <;>
    cases h2 : objGet w.eng.speakingDetectors p <;> simp [World.emit, h2]

theorem removePeer_voiceActive (w : World) (p : Uid) :
    (removePeer w p).eng.voiceActive = w.eng.voiceActive := by
  unfold removePeer
  simp only [setSpeaking_eng]
  cases h1 : objGet w.store.peerConnections p <;>
    cases h2 : objGet w.eng.speakingDetectors p <;> simp [World.emit, h2]

theorem removePeer_logExt (w : World) (p : Uid) : LogExt notEarly w (removePeer w p) := by
  refine ⟨_, by rw [removePeer_log, List.append_assoc], ?_⟩
  intro e he
  cases h1 : objGet w.store.peerConnections p <;>
    cases h2 : objGet w.eng.speakingDetectors p <;>
    simp [h1, h2] at he <;>
    first
      | (rcases he with he | he <;> subst he <;> rfl)
      | (subst he; rfl)

/-! ## No candidate before the remote description -/

theorem addIceCandidate_logExt (w : World) (p : Uid) (pc : RTCPeerConnection) (c : Candidate)
    (env : SigEnv) (h : pc.remoteDescription.isSome = true) :
    LogExt notEarly w (addIceCandidate w p pc c env).1 := by
  unfold addIceCandidate
  apply LogExt.emit
  simp [notEarly, Effect.isEarlyCandidate, h]

theorem flushIceCandidates_logExt (w : World) (p : Uid) (pc : RTCPeerConnection)
    (env : SigEnv) (h : pc.remoteDescription.isSome = true) :
    LogExt notEarly w (flushIceCandidates w p pc env) := by
  unfold flushIceCandidates
  split
  · exact LogExt.refl _ _
  · exact LogExt.refl _ _
  · rename_i c cs _
    have hf := LogExt.foldl notEarly
      (fun acc cand => (addIceCandidate acc p pc cand env).1)
      (fun a b => addIceCandidate_logExt a p pc b env h) (c :: cs) w
    exact LogExt.trans hf (LogExt.of_log_eq _ rfl)

theorem setRemoteDescription_logExt (w : World) (p : Uid) (pc : RTCPeerConnection)
    (t : SdpType) (sdp : Sdp) (env : SigEnv) :
    LogExt notEarly w (setRemoteDescription w p pc t sdp env).1 := by
  unfold setRemoteDescription
  have h := LogExt.emit notEarly w (Effect.setRemoteDescription p pc.pcId env.setRemoteOk) rfl
  split
  · exact LogExt.trans h (LogExt.of_log_eq _ rfl)
  · exact h

theorem setRemoteDescription_isSome (w : World) (p : Uid) (pc : RTCPeerConnection)
    (t : SdpType) (sdp : Sdp) (env : SigEnv)
    (h : (setRemoteDescription w p pc t sdp env).2.2 = true) :
    (setRemoteDescription w p pc t sdp env).2.1.remoteDescription = some sdp := by
  unfold setRemoteDescription at h ⊢
  split
  · rfl
  · rename_i hok
    simp [hok] at h

theorem setLocalDescription_log (w : World) (p : Uid) (pc : RTCPeerConnection)
    (t : SdpType) (env : SigEnv) :
    (setLocalDescription w p pc t env).1.log = w.log := by
  unfold setLocalDescription
  split <;> rfl

theorem addDoc_logExt (w : World) (t : DocType) (r : Uid) (env : SigEnv) :
    LogExt notEarly w (addDoc w t r env).1 := by
  unfold addDoc
  split
  · exact LogExt.emit _ _ _ rfl
  · exact LogExt.refl _ _

theorem answerOffer_logExt (w : World) (p : Uid) (pc : RTCPeerConnection) (sdp : Sdp)
    (env : SigEnv) : LogExt notEarly w (answerOffer w p pc sdp env).1 := by
  unfold answerOffer
  have h1 := setRemoteDescription_logExt w p pc SdpType.offer sdp env
  by_cases hok : (setRemoteDescription w p pc SdpType.offer sdp env).2.2 = true
  · have hs := setRemoteDescription_isSome w p pc SdpType.offer sdp env hok
    have h2 := flushIceCandidates_logExt (setRemoteDescription w p pc SdpType.offer sdp env).1 p
      (setRemoteDescription w p pc SdpType.offer sdp env).2.1 env (by rw [hs]; rfl)
    have h3 : LogExt notEarly w
        (setLocalDescription
          (flushIceCandidates (setRemoteDescription w p pc SdpType.offer sdp env).1 p
            (setRemoteDescription w p pc SdpType.offer sdp env).2.1 env) p
          (setRemoteDescription w p pc SdpType.offer sdp env).2.1 SdpType.answer env).1 :=
      LogExt.trans (LogExt.trans h1 h2) (LogExt.of_log_eq _ (setLocalDescription_log _ _ _ _ _))
    simp only [hok, Bool.not_true, Bool.false_eq_true, if_false]
    split
    · exact h3
    · exact LogExt.trans h3 (addDoc_logExt _ _ _ _)
  · simp only [hok, Bool.not_false, if_true]
    simpa [hok] using h1

theorem newPeerConnection_logExt (w : World) (p : Uid) (ls : Option MediaStream)
    (isOff : Bool) : LogExt notEarly w (newPeerConnection w p ls isOff).1 := by
  unfold newPeerConnection
  exact LogExt.trans
    (LogExt.emit notEarly w (Effect.newPeerConnection p w.browser.nextId isOff) rfl)
    (LogExt.of_log_eq _ rfl)

theorem newPeerConnection_remote (w : World) (p : Uid) (ls : Option MediaStream)
    (isOff : Bool) : (newPeerConnection w p ls isOff).2.remoteDescription = none := rfl

theorem peerSetup_logExt (w : World) (p : Uid) (pc : RTCPeerConnection) (isOff : Bool)
    (sdp : Option Sdp) (env : SigEnv) : LogExt notEarly w (peerSetup w p pc isOff sdp env).1 := by
  unfold peerSetup
  split
  · have h1 : LogExt notEarly w (setLocalDescription w p pc SdpType.offer env).1 :=
      LogExt.of_log_eq _ (setLocalDescription_log _ _ _ _ _)
    simp only []
    split
    · exact h1
    · exact LogExt.trans h1 (addDoc_logExt _ _ _ _)
  · split
    · exact answerOffer_logExt _ _ _ _ _
    · exact LogExt.refl _ _

theorem addScreenTracks_logExt (w : World) (p : Uid) (pcId : Nat) (isOff : Bool) :
    LogExt notEarly w (addScreenTracks w p pcId isOff) := by
  unfold addScreenTracks
  split
  · split
    · exact LogExt.refl _ _
    · cases hq : objGet w.store.peerConnections p <;>
        exact ⟨[Effect.setTimeout _], rfl, by simp [notEarly, Effect.isEarlyCandidate]⟩
  · exact LogExt.refl _ _

theorem createPeerConnection_logExt (w : World) (p : Uid) (ls : Option MediaStream)
    (isOff : Bool) (sdp : Option Sdp) (env : SigEnv) :
    LogExt notEarly w (createPeerConnection w p ls isOff sdp env).1 := by
  unfold createPeerConnection
  have h1 := newPeerConnection_logExt w p ls isOff
  have h2 := peerSetup_logExt (newPeerConnection w p ls isOff).1 p
    (newPeerConnection w p ls isOff).2 isOff sdp env
  simp only []
  split
  · exact LogExt.trans (LogExt.trans h1 h2) (removePeer_logExt _ _)
  · exact LogExt.trans (LogExt.trans h1 h2) (addScreenTracks_logExt _ _ _ _)

theorem handleSignal_logExt (w : World) (data : SignalingDoc) (env : SigEnv) :
    LogExt notEarly w (handleSignal w data env) := by
  unfold handleSignal
  simp only []
  split
  · -- offer
    split
    · split
      · exact answerOffer_logExt _ _ _ _ _
      · exact createPeerConnection_logExt _ _ _ _ _ _
    · exact createPeerConnection_logExt _ _ _ _ _ _
  · -- answer
    split
    · rename_i pc _
      split
      · have h1 := setRemoteDescription_logExt w data.sender pc SdpType.answer data.sdp env
        by_cases hok : (setRemoteDescription w data.sender pc SdpType.answer data.sdp env).2.2 = true
        · have hs := setRemoteDescription_isSome w data.sender pc SdpType.answer data.sdp env hok
          simp only [hok, Bool.not_true, Bool.false_eq_true, if_false]
          exact LogExt.trans h1 (flushIceCandidates_logExt _ _ _ _ (by rw [hs]; rfl))
        · simp only [hok, Bool.not_false, if_true]
          simpa [hok] using h1
      · exact LogExt.refl _ _
    · exact LogExt.refl _ _
  · -- ice-candidate
    split
    · split
      · rename_i h
        exact addIceCandidate_logExt _ _ _ _ _ h
      · exact LogExt.of_log_eq _ rfl
    · exact LogExt.refl _ _
  · exact LogExt.refl _ _

theorem handleDocChange_logExt (uid : Uid) (w : World) (c : DocChange) (env : SigEnv) :
    LogExt notEarly w (handleDocChange uid w c env) := by
  unfold handleDocChange
  split
  · exact LogExt.refl _ _
  · split
    · exact LogExt.refl _ _
    · exact LogExt.trans (handleSignal_logExt _ _ _) (LogExt.emit _ _ _ rfl)

theorem onSignalingSnapshot_logExt (uid : Uid) (w : World) (cs : List (DocChange × SigEnv)) :
    LogExt notEarly w (onSignalingSnapshot uid w cs) := by
  unfold onSignalingSnapshot
  split
  · exact LogExt.refl _ _
  · exact LogExt.foldl notEarly _ (fun a c => handleDocChange_logExt uid a c.1 c.2) cs w

theorem onSignalingSnapshots_logExt (uid : Uid) (w : World)
    (snaps : List (List (DocChange × SigEnv))) :
    LogExt notEarly w (onSignalingSnapshots uid w snaps) :=
  LogExt.foldl notEarly _ (fun a cs => onSignalingSnapshot_logExt uid a cs) snaps w

theorem iceCalls_append (l1 l2 : List Effect) : iceCalls (l1 ++ l2) = iceCalls l1 ++ iceCalls l2 := by
  induction l1 with
  | nil => rfl
  | cons e rest ih => cases e <;> simp [iceCalls, ih]

theorem handleDocChange_queues (uid : Uid) (w : World) (ch : DocChange) (env : SigEnv)
    (pc : RTCPeerConnection) (h1 : ch.type = ChangeType.added) (h2 : ch.doc.recipient = uid)
    (h3 : ch.doc.type = DocType.iceCandidate)
    (h4 : objGet w.store.peerConnections ch.doc.sender = some pc)
    (h5 : pc.remoteDescription = none) :
    objGet (handleDocChange uid w ch env).eng.pendingIceCandidates ch.doc.sender =
      some ((objGet w.eng.pendingIceCandidates ch.doc.sender).getD [] ++ [ch.doc.candidate]) ∧
    iceCalls (handleDocChange uid w ch env).log = iceCalls w.log ∧
    (handleDocChange uid w ch env).store = w.store ∧
    (handleDocChange uid w ch env).eng.voiceActive = w.eng.voiceActive := by
  simp [handleDocChange, handleSignal, h1, h2, h3, h4, h5, World.emit, objGet_objSet_same,
    iceCalls_append, iceCalls]

/-- Over any sequence of signaling snapshots, from any state, every
`addIceCandidate` call the handler makes is made while the remote description of
that connection is set; and a candidate from a peer that has a connection
without remote description is appended to that peer's queue and not applied.
(A candidate from a peer without a connection is not covered.) -/
theorem no_candidate_before_description (uid : Uid) (w : World)
    (snaps : List (List (DocChange × SigEnv))) :
    (∃ suffix, (onSignalingSnapshots uid w snaps).log = w.log ++ suffix ∧
      ∀ p i c r ok, Effect.addIceCandidate p i c r ok ∈ suffix → r = true) ∧
    (∀ (ch : DocChange) (env : SigEnv) (pc : RTCPeerConnection),
      ch.type = ChangeType.added → ch.doc.recipient = uid →
      ch.doc.type = DocType.iceCandidate →
      objGet w.store.peerConnections ch.doc.sender = some pc →
      pc.remoteDescription = none →
      objGet (handleDocChange uid w ch env).eng.pendingIceCandidates ch.doc.sender =
        some ((objGet w.eng.pendingIceCandidates ch.doc.sender).getD [] ++
          [ch.doc.candidate]) ∧
      iceCalls (handleDocChange uid w ch env).log = iceCalls w.log) := by
  constructor
  · obtain ⟨suffix, hs, hp⟩ := onSignalingSnapshots_logExt uid w snaps
    refine ⟨suffix, hs, ?_⟩
    intro p i c r ok hmem
    have := hp _ hmem
    cases r with
    | true => rfl
    | false => simp [notEarly, Effect.isEarlyCandidate] at this
  · intro ch env pc h1 h2 h3 h4 h5
    have := handleDocChange_queues uid w ch env pc h1 h2 h3 h4 h5
    exact ⟨this.1, this.2.1⟩

theorem no_candidate_before_description_witness :
    objGet (handleDocChange uidA offeringWorldA
        (addedDoc 1 DocType.iceCandidate uidB uidA [] 7).1 okSigEnv).eng.pendingIceCandidates
        uidB = some [7] ∧
    iceCalls (handleDocChange uidA offeringWorldA
        (addedDoc 1 DocType.iceCandidate uidB uidA [] 7).1 okSigEnv).log = [] := by
  have h := (no_candidate_before_description uidA offeringWorldA []).2
    (addedDoc 1 DocType.iceCandidate uidB uidA [] 7).1 okSigEnv
    ⟨10, none, some [], SignalingState.haveLocalOffer, ConnectionState.new,
      [⟨some ⟨3, TrackKind.audio⟩⟩], true⟩
    rfl rfl rfl (by decide) rfl
  exact h

/-! ## The candidate queue -/

theorem foldl_addIceCandidate (p : Uid) (pc : RTCPeerConnection) (env : SigEnv)
    (q : List Candidate) (w : World) :
    (q.foldl (fun acc c => (addIceCandidate acc p pc c env).1) w).log =
      w.log ++ q.map (fun c => Effect.addIceCandidate p pc.pcId c pc.remoteDescription.isSome
        (pc.remoteDescription.isSome && decide (c ∉ env.badCandidates))) ∧
    (q.foldl (fun acc c => (addIceCandidate acc p pc c env).1) w).eng = w.eng ∧
    (q.foldl (fun acc c => (addIceCandidate acc p pc c env).1) w).store = w.store := by
  induction q generalizing w with
  | nil => simp
  | cons c cs ih =>
    obtain ⟨h1, h2, h3⟩ := ih (addIceCandidate w p pc c env).1
    simp only [List.foldl_cons, h1, h2, h3]
    simp [addIceCandidate, World.emit]

theorem iceCalls_map_addIce (p : Uid) (i : Nat) (r : Bool) (f : Candidate → Bool)
    (q : List Candidate) :
    iceCalls (q.map (fun c => Effect.addIceCandidate p i c r (f c))) =
      q.map (fun c => (p, i, c)) := by
  induction q with
  | nil => rfl
  | cons c cs ih => simp [iceCalls, ih]

theorem flushIceCandidates_spec (w : World) (p : Uid) (pc : RTCPeerConnection) (env : SigEnv) :
    iceCalls (flushIceCandidates w p pc env).log =
      iceCalls w.log ++ ((objGet w.eng.pendingIceCandidates p).getD []).map
        (fun c => (p, pc.pcId, c)) ∧
    (objGet (flushIceCandidates w p pc env).eng.pendingIceCandidates p).getD [] = [] ∧
    (flushIceCandidates w p pc env).store = w.store := by
  unfold flushIceCandidates
  split
  · rename_i h; simp [h]
  · rename_i h; simp [h]
  · rename_i c cs h
    obtain ⟨h1, h2, h3⟩ := foldl_addIceCandidate p pc env (c :: cs) w
    refine ⟨?_, ?_, ?_⟩
    · simp only [h1, iceCalls_append, iceCalls_map_addIce, h, Option.getD_some]
    · simp only [objGet_objDel_same, Option.getD_none]
    · simp only [h3]

theorem handleDocChange_answer_flushes (uid : Uid) (w : World) (ch : DocChange) (env : SigEnv)
    (pc : RTCPeerConnection) (h1 : ch.type = ChangeType.added) (h2 : ch.doc.recipient = uid)
    (h3 : ch.doc.type = DocType.answer)
    (h4 : objGet w.store.peerConnections ch.doc.sender = some pc)
    (h5 : pc.signalingState = SignalingState.haveLocalOffer)
    (h6 : env.setRemoteOk = true) :
    iceCalls (handleDocChange uid w ch env).log =
      iceCalls w.log ++ ((objGet w.eng.pendingIceCandidates ch.doc.sender).getD []).map
        (fun c => (ch.doc.sender, pc.pcId, c)) ∧
    (objGet (handleDocChange uid w ch env).eng.pendingIceCandidates ch.doc.sender).getD [] = [] ∧
    (∃ pc', objGet (handleDocChange uid w ch env).store.peerConnections ch.doc.sender = some pc' ∧
      pc'.remoteDescription = some ch.doc.sdp) := by
  have hf := flushIceCandidates_spec
    (setRemoteDescription w ch.doc.sender pc SdpType.answer ch.doc.sdp env).1 ch.doc.sender
    (setRemoteDescription w ch.doc.sender pc SdpType.answer ch.doc.sdp env).2.1 env
  have hr : (setRemoteDescription w ch.doc.sender pc SdpType.answer ch.doc.sdp env).2.2 = true := by
    simp [setRemoteDescription, h6]
  have hpcid : (setRemoteDescription w ch.doc.sender pc SdpType.answer ch.doc.sdp env).2.1.pcId
      = pc.pcId := by
    simp [setRemoteDescription, h6]
  have hlog : iceCalls (setRemoteDescription w ch.doc.sender pc SdpType.answer ch.doc.sdp env).1.log
      = iceCalls w.log := by
    simp [setRemoteDescription, h6, World.emit, iceCalls_append, iceCalls]
  have hpend : (setRemoteDescription w ch.doc.sender pc SdpType.answer ch.doc.sdp env).1.eng
      = w.eng := by
    simp [setRemoteDescription, h6, World.emit]
  have hstore : objGet (setRemoteDescription w ch.doc.sender pc SdpType.answer ch.doc.sdp
      env).1.store.peerConnections ch.doc.sender =
        some (setRemoteDescription w ch.doc.sender pc SdpType.answer ch.doc.sdp env).2.1 := by
    simp [setRemoteDescription, h6, World.emit, objGet_objSet_same]
  have hrd := setRemoteDescription_isSome w ch.doc.sender pc SdpType.answer ch.doc.sdp env hr
  obtain ⟨f1, f2, f3⟩ := hf
  rw [hlog, hpend, hpcid] at f1
  simp only [handleDocChange, h1, h2, handleSignal, h3, h4, h5, hr, ne_eq, not_true_eq_false,
    if_false, if_true, Bool.not_true, Bool.false_eq_true, World.emit, iceCalls_append]
  refine ⟨?_, f2, ?_⟩
  · rw [f1]; simp [iceCalls]
  · refine ⟨_, ?_, hrd⟩
    rw [f3]; exact hstore

theorem answerOffer_flushes (w : World) (p : Uid) (pc : RTCPeerConnection) (sdp : Sdp)
    (env : SigEnv) (h6 : env.setRemoteOk = true) :
    iceCalls (answerOffer w p pc sdp env).1.log =
      iceCalls w.log ++ ((objGet w.eng.pendingIceCandidates p).getD []).map
        (fun c => (p, pc.pcId, c)) ∧
    (objGet (answerOffer w p pc sdp env).1.eng.pendingIceCandidates p).getD [] = [] := by
  have hf := flushIceCandidates_spec (setRemoteDescription w p pc SdpType.offer sdp env).1 p
    (setRemoteDescription w p pc SdpType.offer sdp env).2.1 env
  have hr : (setRemoteDescription w p pc SdpType.offer sdp env).2.2 = true := by
    simp [setRemoteDescription, h6]
  have hpcid : (setRemoteDescription w p pc SdpType.offer sdp env).2.1.pcId = pc.pcId := by
    simp [setRemoteDescription, h6]
  have hlog : iceCalls (setRemoteDescription w p pc SdpType.offer sdp env).1.log
      = iceCalls w.log := by
    simp [setRemoteDescription, h6, World.emit, iceCalls_append, iceCalls]
  have hpend : (setRemoteDescription w p pc SdpType.offer sdp env).1.eng = w.eng := by
    simp [setRemoteDescription, h6, World.emit]
  obtain ⟨f1, f2, _⟩ := hf
  rw [hlog, hpend, hpcid] at f1
  unfold answerOffer
  simp only [hr, Bool.not_true, Bool.false_eq_true, if_false]
  generalize flushIceCandidates (setRemoteDescription w p pc SdpType.offer sdp env).1 p
    (setRemoteDescription w p pc SdpType.offer sdp env).2.1 env = wf at f1 f2 ⊢
  generalize (setRemoteDescription w p pc SdpType.offer sdp env).2.1 = pc1
  by_cases hl : env.localDescriptionOk = true <;> by_cases ha : env.addDocOk = true <;>
    simp [setLocalDescription, addDoc, hl, ha, World.emit, iceCalls_append, iceCalls, f1, f2]

theorem handleDocChange_offer_flushes (uid : Uid) (w : World) (ch : DocChange) (env : SigEnv)
    (pc : RTCPeerConnection) (h1 : ch.type = ChangeType.added) (h2 : ch.doc.recipient = uid)
    (h3 : ch.doc.type = DocType.offer)
    (h4 : objGet w.store.peerConnections ch.doc.sender = some pc)
    (h5 : pc.connectionState ≠ ConnectionState.closed)
    (h6 : env.setRemoteOk = true) :
    iceCalls (handleDocChange uid w ch env).log =
      iceCalls w.log ++ ((objGet w.eng.pendingIceCandidates ch.doc.sender).getD []).map
        (fun c => (ch.doc.sender, pc.pcId, c)) ∧
    (objGet (handleDocChange uid w ch env).eng.pendingIceCandidates ch.doc.sender).getD [] = [] := by
  obtain ⟨f1, f2⟩ := answerOffer_flushes w ch.doc.sender pc ch.doc.sdp env h6
  simp only [handleDocChange, h1, h2, handleSignal, h3, h4, h5, ne_eq, not_true_eq_false,
    not_false_eq_true, if_false, if_true, World.emit, iceCalls_append]
  exact ⟨by rw [f1]; simp [iceCalls], f2⟩

theorem handle_ice_docs (uid : Uid) (p : Uid) (pc : RTCPeerConnection)
    (ices : List (DocChange × SigEnv)) (w : World)
    (hall : ∀ d ∈ ices, d.1.type = ChangeType.added ∧ d.1.doc.recipient = uid ∧
      d.1.doc.type = DocType.iceCandidate ∧ d.1.doc.sender = p)
    (h4 : objGet w.store.peerConnections p = some pc) (h5 : pc.remoteDescription = none) :
    (ices.foldl (fun acc c => handleDocChange uid acc c.1 c.2) w).store = w.store ∧
    iceCalls (ices.foldl (fun acc c => handleDocChange uid acc c.1 c.2) w).log = iceCalls w.log ∧
    (objGet (ices.foldl (fun acc c => handleDocChange uid acc c.1 c.2) w).eng.pendingIceCandidates
        p).getD [] =
      (objGet w.eng.pendingIceCandidates p).getD [] ++ ices.map (fun d => d.1.doc.candidate) := by
  induction ices generalizing w with
  | nil => simp
  | cons d rest ih =>
    obtain ⟨a1, a2, a3, a4⟩ := hall d (List.mem_cons_self _ _)
    have hq := handleDocChange_queues uid w d.1 d.2 pc a1 a2 a3 (by rw [a4]; exact h4) h5
    rw [a4] at hq
    obtain ⟨q1, q2, q3, _⟩ := hq
    have ih' := ih (handleDocChange uid w d.1 d.2)
      (fun x hx => hall x (List.mem_cons_of_mem _ hx)) (by rw [q3]; exact h4)
    obtain ⟨i1, i2, i3⟩ := ih'
    simp only [List.foldl_cons, List.map_cons]
    refine ⟨by rw [i1, q3], by rw [i2, q2], ?_⟩
    rw [i3, q1]
    simp

/-- C3 (as stated, refuted): received candidates are dropped. At `b`, candidate 7
of `a` arrives before the offer of `a` has created a connection: afterwards the
connection to `a` has its remote description set, the queue of `a` is empty,
and only candidate 9 was ever applied. At `a`, candidate 7 of `b` is queued, the
connection then fails and is removed with its queue: after the reconnection and
the answer of `b` nothing was ever applied and nothing is queued. -/
theorem received_candidate_dropped :
    (objGet earlyCandidateWorldB.store.peerConnections uidA).map
      RTCPeerConnection.remoteDescription = some (some [1]) ∧
    objGet earlyCandidateWorldB.eng.pendingIceCandidates uidA = none ∧
    iceCalls earlyCandidateWorldB.log = [(uidA, 10, 9)] ∧
    objGet (onSignalingSnapshot uidA offeringWorldA
      [addedDoc 1 DocType.iceCandidate uidB uidA [] 7]).eng.pendingIceCandidates uidB
        = some [7] ∧
    (objGet reconnectedWorldA.store.peerConnections uidB).map
      RTCPeerConnection.remoteDescription = some (some [1]) ∧
    objGet reconnectedWorldA.eng.pendingIceCandidates uidB = none ∧
    iceCalls reconnectedWorldA.log = [] := by
  refine ⟨by decide, by decide, by decide, by decide, by decide, by decide, by decide⟩

/-- C3 (amended): candidates that arrive from `p` while a connection to `p`
exists without remote description are appended to the queue of `p`; when then
an answer (in state have-local-offer) or an offer (connection not closed) of `p`
sets the remote description, exactly the queued candidates are handed to that
connection, in arrival order, and the queue is empty afterwards; `removePeer`
discards the queue of the removed peer. -/
theorem queued_candidates_flushed_in_order (uid p : Uid) (w : World) (pc : RTCPeerConnection)
    (ices : List (DocChange × SigEnv)) (last : DocChange) (env : SigEnv)
    (hactive : w.eng.voiceActive = true)
    (hall : ∀ d ∈ ices, d.1.type = ChangeType.added ∧ d.1.doc.recipient = uid ∧
      d.1.doc.type = DocType.iceCandidate ∧ d.1.doc.sender = p)
    (h4 : objGet w.store.peerConnections p = some pc) (h5 : pc.remoteDescription = none)
    (hlast : last.type = ChangeType.added ∧ last.doc.recipient = uid ∧ last.doc.sender = p ∧
      ((last.doc.type = DocType.answer ∧ pc.signalingState = SignalingState.haveLocalOffer) ∨
       (last.doc.type = DocType.offer ∧ pc.connectionState ≠ ConnectionState.closed)))
    (hok : env.setRemoteOk = true) :
    (iceCalls (onSignalingSnapshot uid w (ices ++ [(last, env)])).log =
      iceCalls w.log ++
        ((objGet w.eng.pendingIceCandidates p).getD [] ++
          ices.map (fun d => d.1.doc.candidate)).map (fun c => (p, pc.pcId, c))) ∧
    (objGet (onSignalingSnapshot uid w (ices ++ [(last, env)])).eng.pendingIceCandidates
      p).getD [] = [] ∧
    objGet (removePeer w p).eng.pendingIceCandidates p = none := by
  obtain ⟨i1, i2, i3⟩ := handle_ice_docs uid p pc ices w hall h4 h5
  obtain ⟨l1, l2, l3, l4⟩ := hlast
  have hpc : objGet (ices.foldl (fun acc c => handleDocChange uid acc c.1 c.2)
      w).store.peerConnections last.doc.sender = some pc := by
    rw [i1, l3]; exact h4
  refine ⟨?_, ?_, ?_⟩
  · simp only [onSignalingSnapshot, hactive, Bool.not_true, Bool.false_eq_true, if_false,
      List.foldl_append, List.foldl_cons, List.foldl_nil]
    rcases l4 with ⟨t, st⟩ | ⟨t, st⟩
    · have := (handleDocChange_answer_flushes uid _ last env pc l1 l2 t hpc st hok).1
      rw [this, i2, l3, i3]
    · have := (handleDocChange_offer_flushes uid _ last env pc l1 l2 t hpc st hok).1
      rw [this, i2, l3, i3]
  · simp only [onSignalingSnapshot, hactive, Bool.not_true, Bool.false_eq_true, if_false,
      List.foldl_append, List.foldl_cons, List.foldl_nil]
    rcases l4 with ⟨t, st⟩ | ⟨t, st⟩
    · have := (handleDocChange_answer_flushes uid _ last env pc l1 l2 t hpc st hok).2.1
      rw [l3] at this; exact this
    · have := (handleDocChange_offer_flushes uid _ last env pc l1 l2 t hpc st hok).2
      rw [l3] at this; exact this
  · rw [removePeer_pending]; exact objGet_objDel_same _ _

theorem queued_candidates_flushed_in_order_witness :
    iceCalls (onSignalingSnapshot uidA offeringWorldA
      ([addedDoc 1 DocType.iceCandidate uidB uidA [] 7,
        addedDoc 2 DocType.iceCandidate uidB uidA [] 8] ++
        [((addedDoc 3 DocType.answer uidB uidA [1] 0).1, okSigEnv)])).log =
      [(uidB, 10, 7), (uidB, 10, 8)] := by
  have h := (queued_candidates_flushed_in_order uidA uidB offeringWorldA
    ⟨10, none, some [], SignalingState.haveLocalOffer, ConnectionState.new,
      [⟨some ⟨3, TrackKind.audio⟩⟩], true⟩
    [addedDoc 1 DocType.iceCandidate uidB uidA [] 7,
      addedDoc 2 DocType.iceCandidate uidB uidA [] 8]
    (addedDoc 3 DocType.answer uidB uidA [1] 0).1 okSigEnv (by decide) (by decide) (by decide)
    rfl (by decide) rfl).1
  exact h

/-! ## Reconnection -/

theorem timersScheduled_append (l1 l2 : List Effect) :
    timersScheduled (l1 ++ l2) = timersScheduled l1 ++ timersScheduled l2 := by
  induction l1 with
  | nil => rfl
  | cons e rest ih => cases e <;> simp [timersScheduled, ih]

theorem removePeer_timersScheduled (w : World) (p : Uid) :
    timersScheduled (removePeer w p).log = timersScheduled w.log := by
  rw [removePeer_log]
  cases objGet w.store.peerConnections p <;> cases objGet w.eng.speakingDetectors p <;>
    simp [timersScheduled_append, timersScheduled]

theorem removePeer_browser (w : World) (p : Uid) : (removePeer w p).browser = w.browser := by
  unfold removePeer
  simp only [setSpeaking_browser]
  cases h1 : objGet w.store.peerConnections p <;>
    cases h2 : objGet w.eng.speakingDetectors p <;> simp [World.emit, h2]

theorem removePeer_reconnectAttempts (w : World) (p : Uid) :
    (removePeer w p).eng.reconnectAttempts = w.eng.reconnectAttempts := by
  unfold removePeer
  simp only [setSpeaking_eng]
  cases h1 : objGet w.store.peerConnections p <;>
    cases h2 : objGet w.eng.speakingDetectors p <;> simp [World.emit, h2]

theorem handlePeerReconnect_step (w : World) (p : Uid) (k : Nat) (hk : 1 ≤ k)
    (hc : (objGet w.eng.reconnectAttempts p).getD 0 = k - 1) :
    objGet (handlePeerReconnect w p).eng.reconnectAttempts p = some k ∧
    objGet (handlePeerReconnect w p).store.peerConnections p = none ∧
    (k ≤ 3 →
      timersScheduled (handlePeerReconnect w p).log = timersScheduled w.log ++
        [⟨w.browser.nextId, TimerKind.reconnect p, 2000 * k⟩] ∧
      (handlePeerReconnect w p).browser.timers = w.browser.timers ++
        [⟨w.browser.nextId, TimerKind.reconnect p, 2000 * k⟩]) ∧
    (3 < k →
      timersScheduled (handlePeerReconnect w p).log = timersScheduled w.log ∧
      (handlePeerReconnect w p).browser.timers = w.browser.timers) := by
  have hk' : (objGet w.eng.reconnectAttempts p).getD 0 + 1 = k := by omega
  unfold handlePeerReconnect
  simp only [hk', MAX_RECONNECT_ATTEMPTS, RECONNECT_DELAY_MS]
  by_cases h3 : 3 < k
  · have hn : ¬ k ≤ 3 := by omega
    simp only [gt_iff_lt, h3, if_true, removePeer_reconnectAttempts, removePeer_peerConnections,
      removePeer_timersScheduled, removePeer_browser, objGet_objSet_same, objGet_objDel_same,
      hn, false_implies, true_implies, and_self]
  · have hle : k ≤ 3 := by omega
    have hmin : min (2000 * k) 10000 = 2000 * k := by omega
    simp only [gt_iff_lt, h3, if_false, hmin, World.emit, removePeer_reconnectAttempts,
      removePeer_peerConnections, removePeer_timersScheduled, removePeer_browser,
      objGet_objSet_same, objGet_objDel_same, timersScheduled_append, timersScheduled,
      hle, true_implies, false_implies, and_self]

theorem failRepeatedly_delays (p : Uid) (n : Nat) (w : World) (a : Nat)
    (hc : (objGet w.eng.reconnectAttempts p).getD 0 = a) :
    (timersScheduled (failRepeatedly p n w).log).map Timer.delayMs =
      (timersScheduled w.log).map Timer.delayMs ++
        ((List.range' (a + 1) n).filter (fun k => decide (k ≤ 3))).map (fun k => 2000 * k) := by
  induction n generalizing w a with
  | zero => simp [failRepeatedly]
  | succ n ih =>
    obtain ⟨s1, _, s3, s4⟩ := handlePeerReconnect_step w p (a + 1) (by omega) (by simpa using hc)
    have hc' : (objGet (handlePeerReconnect w p).eng.reconnectAttempts p).getD 0 = a + 1 := by
      rw [s1]; rfl
    rw [failRepeatedly, ih (handlePeerReconnect w p) (a + 1) hc', List.range'_succ]
    by_cases h3 : a + 1 ≤ 3
    · rw [(s3 h3).1]
      simp [List.filter_cons, h3]
    · rw [(s4 (by omega)).1]
      simp [List.filter_cons, h3]

/-- C4: with the attempt counter of `p` reset, the `k`-th consecutive failure
sets the counter to `k` and removes the connection; for `k ≤ 3` it schedules
exactly one reconnect timer, with delay `min(2000*k, 10000) = 2000*k` ms, and for
`k > 3` it schedules none. Over any number `n` of consecutive failures the
delays scheduled are the first `n` of 2000, 4000, 6000. -/
theorem reconnect_bound (w : World) (p : Uid)
    (hreset : (objGet w.eng.reconnectAttempts p).getD 0 = 0) :
    (∀ k, 1 ≤ k →
      let wk := failRepeatedly p (k - 1) w
      objGet (handlePeerReconnect wk p).eng.reconnectAttempts p = some k ∧
      objGet (handlePeerReconnect wk p).store.peerConnections p = none ∧
      (k ≤ 3 → min (RECONNECT_DELAY_MS * k) 10000 = 2000 * k ∧
        timersScheduled (handlePeerReconnect wk p).log = timersScheduled wk.log ++
          [⟨wk.browser.nextId, TimerKind.reconnect p, min (RECONNECT_DELAY_MS * k) 10000⟩]) ∧
      (3 < k → timersScheduled (handlePeerReconnect wk p).log = timersScheduled wk.log ∧
        (handlePeerReconnect wk p).browser.timers = wk.browser.timers)) ∧
    (∀ n, (timersScheduled (failRepeatedly p n w).log).map Timer.delayMs =
      (timersScheduled w.log).map Timer.delayMs ++ [2000, 4000, 6000].take n) := by
  have hcount : ∀ n (v : World) (a : Nat), (objGet v.eng.reconnectAttempts p).getD 0 = a →
      (objGet (failRepeatedly p n v).eng.reconnectAttempts p).getD 0 = a + n := by
    intro n
    induction n with
    | zero => intro v a h; simpa [failRepeatedly] using h
    | succ n ih =>
      intro v a h
      have s1 := (handlePeerReconnect_step v p (a + 1) (by omega) (by simpa using h)).1
      have := ih (handlePeerReconnect v p) (a + 1) (by rw [s1]; rfl)
      rw [failRepeatedly, this]; omega
  constructor
  · intro k hk
    have hc := hcount (k - 1) w 0 hreset
    obtain ⟨s1, s2, s3, s4⟩ :=
      handlePeerReconnect_step (failRepeatedly p (k - 1) w) p k hk (by omega)
    refine ⟨s1, s2, ?_, s4⟩
    intro hle
    have hmin : min (RECONNECT_DELAY_MS * k) 10000 = 2000 * k := by
      simp only [RECONNECT_DELAY_MS]; omega
    rw [hmin]
    exact ⟨rfl, (s3 hle).1⟩
  · intro n
    rw [failRepeatedly_delays p n w 0 hreset]
    congr 1
    match n with
    | 0 => rfl
    | 1 => rfl
    | 2 => rfl
    | 3 => rfl
    | n + 4 =>
      have : ∀ m s, 4 ≤ s → (List.range' s m).filter (fun k => decide (k ≤ 3)) = [] := by
        intro m
        induction m with
        | zero => intro s _; rfl
        | succ m ih =>
          intro s hs
          rw [List.range'_succ, List.filter_cons]
          have : ¬ s ≤ 3 := by omega
          simp [this, ih (s + 1) (by omega)]
      have h4 : List.range' (0 + 1) (n + 4) = 1 :: 2 :: 3 :: List.range' 4 (n + 1) := by
        simp [List.range'_succ]
      rw [h4]
      simp [List.filter_cons, this (n + 1) 4 (by omega)]

theorem reconnect_bound_witness :
    (timersScheduled (failRepeatedly uidB 4 offeringWorldA).log).map Timer.delayMs =
      [2000, 4000, 6000] ∧
    objGet (failRepeatedly uidB 4 offeringWorldA).store.peerConnections uidB = none := by
  have h := reconnect_bound offeringWorldA uidB (by decide)
  exact ⟨by simpa using h.2 4, by decide⟩

/-! ## Mute and deafen -/

theorem clearOwnSpeaking_frame (w : World) :
    (clearOwnSpeaking w).eng = w.eng ∧ (clearOwnSpeaking w).browser = w.browser ∧
    (clearOwnSpeaking w).log = w.log ∧ (clearOwnSpeaking w).authUid = w.authUid ∧
    (clearOwnSpeaking w).store.isMuted = w.store.isMuted ∧
    (clearOwnSpeaking w).store.isDeafened = w.store.isDeafened ∧
    (clearOwnSpeaking w).store._wasMutedBeforeDeafen = w.store._wasMutedBeforeDeafen ∧
    (clearOwnSpeaking w).store._muteCallback = w.store._muteCallback ∧
    (clearOwnSpeaking w).store.localStream = w.store.localStream := by
  unfold clearOwnSpeaking setSpeaking
  cases truthyUid w.authUid with
  | none => simp
  | some u =>
    by_cases hs : objGet w.store.speakingUsers u = some true <;> simp [hs]

theorem applyMute_store (w : World) (cb : Option MuteCallback) (ls : Option MediaStream)
    (m : Bool) : (applyMute w cb ls m).store = w.store ∧
      (applyMute w cb ls m).eng = w.eng ∧ (applyMute w cb ls m).authUid = w.authUid := by
  unfold applyMute
  cases cb with
  | none => cases ls <;> simp
  | some f =>
    simp only [MuteCallback.call, World.emit]
    cases w.eng.micMuteGain <;> simp

theorem applyMute_log_some (w : World) (f : MuteCallback) (ls : Option MediaStream)
    (m : Bool) : (applyMute w (some f) ls m).log = w.log ++ [Effect.muteCallback m] := by
  simp only [applyMute, MuteCallback.call, World.emit]
  cases w.eng.micMuteGain <;> simp

theorem setGainValue_length (gains : List GainNode) (n v : Nat) :
    (setGainValue gains n v).length = gains.length := by
  unfold setGainValue
  cases h : gains.get? n <;> simp

theorem setGainValue_same (gains : List GainNode) (n v : Nat) (hn : n < gains.length) :
    ((setGainValue gains n v).get? n).map GainNode.value = some v := by
  unfold setGainValue
  cases h : gains.get? n with
  | none =>
    rw [List.get?_eq_none] at h
    omega
  | some g => simp [List.getElem?_set, hn]

theorem applyMute_gain_some (w : World) (f : MuteCallback) (ls : Option MediaStream)
    (m : Bool) (n : Nat) (hg : w.eng.micMuteGain = some n) (hn : n < w.browser.gains.length) :
    ((applyMute w (some f) ls m).browser.gains.get? n).map GainNode.value =
      some (if m then 0 else 1) := by
  simp only [applyMute, MuteCallback.call, World.emit, hg]
  exact setGainValue_same _ _ _ hn

theorem applyMute_gains_length (w : World) (cb : Option MuteCallback)
    (ls : Option MediaStream) (m : Bool) :
    (applyMute w cb ls m).browser.gains.length = w.browser.gains.length := by
  unfold applyMute
  cases cb with
  | none =>
    cases ls with
    | none => rfl
    | some l => simp only [setTracksEnabled]; split <;> rfl
  | some f =>
    simp only [MuteCallback.call, World.emit]
    cases w.eng.micMuteGain <;> simp [setGainValue_length]

theorem toggleDeafen_deafen (w : World) (h : w.store.isDeafened = false) :
    (toggleDeafen w).store.isDeafened = true ∧
    (toggleDeafen w).store.isMuted = true ∧
    (toggleDeafen w).store._wasMutedBeforeDeafen = w.store.isMuted ∧
    (toggleDeafen w).store._muteCallback = w.store._muteCallback ∧
    (toggleDeafen w).eng = w.eng ∧
    (toggleDeafen w).browser.gains.length = w.browser.gains.length := by
  obtain ⟨c1, c2, _, _, _, _, _, c8, _⟩ :=
    clearOwnSpeaking_frame (applyMute w w.store._muteCallback w.store.localStream true)
  obtain ⟨a1, a2, _⟩ := applyMute_store w w.store._muteCallback w.store.localStream true
  refine ⟨by simp [toggleDeafen, h], by simp [toggleDeafen, h], by simp [toggleDeafen, h],
    ?_, ?_, ?_⟩
  · simp [toggleDeafen, h, c8, a1]
  · simp [toggleDeafen, h, c1, a2]
  · simp [toggleDeafen, h, c2, applyMute_gains_length]

theorem toggleDeafen_undeafen (w : World) (h : w.store.isDeafened = true) :
    (toggleDeafen w).store.isDeafened = false ∧
    (toggleDeafen w).store.isMuted = w.store._wasMutedBeforeDeafen ∧
    (toggleDeafen w).store._wasMutedBeforeDeafen = false ∧
    (∀ f, w.store._muteCallback = some f →
      (toggleDeafen w).log = w.log ++ [Effect.muteCallback w.store._wasMutedBeforeDeafen]) ∧
    (∀ f n, w.store._muteCallback = some f → w.eng.micMuteGain = some n →
      n < w.browser.gains.length →
      ((toggleDeafen w).browser.gains.get? n).map GainNode.value =
        some (if w.store._wasMutedBeforeDeafen then 0 else 1)) := by
  refine ⟨by simp [toggleDeafen, h], by simp [toggleDeafen, h], by simp [toggleDeafen, h],
    ?_, ?_⟩
  · intro f hf
    simp [toggleDeafen, h, hf, applyMute_log_some]
  · intro f n hf hg hn
    have := applyMute_gain_some w f w.store.localStream w.store._wasMutedBeforeDeafen n hg hn
    simp only [toggleDeafen, h, if_true, hf]
    exact this

/-- C5: from any non-deafened state with mute flag `m`, deafening and then
undeafening gives `isDeafened = false` and `isMuted = m`; when a mute callback is
registered the last observable action is a call of it with argument `m`, and
the mute gain node it drives ends with gain `0` if `m` and `1` otherwise. -/
theorem toggleDeafen_twice_restores_mute (w : World) (h : w.store.isDeafened = false) :
    (toggleDeafen (toggleDeafen w)).store.isDeafened = false ∧
    (toggleDeafen (toggleDeafen w)).store.isMuted = w.store.isMuted ∧
    (toggleDeafen (toggleDeafen w)).store._wasMutedBeforeDeafen = false ∧
    (w.store._muteCallback ≠ none →
      (toggleDeafen (toggleDeafen w)).log.getLast? =
        some (Effect.muteCallback w.store.isMuted)) ∧
    (∀ n, w.store._muteCallback ≠ none → w.eng.micMuteGain = some n →
      n < w.browser.gains.length →
      ((toggleDeafen (toggleDeafen w)).browser.gains.get? n).map GainNode.value =
        some (if w.store.isMuted then 0 else 1)) := by
  obtain ⟨hd, _, hm, hcb, heng, hlen⟩ := toggleDeafen_deafen w h
  obtain ⟨u1, u2, u3, u4, u5⟩ := toggleDeafen_undeafen (toggleDeafen w) hd
  refine ⟨u1, by rw [u2, hm], u3, ?_, ?_⟩
  · intro hne
    obtain ⟨f, hf⟩ := Option.ne_none_iff_exists'.mp hne
    rw [u4 f (by rw [hcb]; exact hf), hm]
    simp
  · intro n hne hg hn
    obtain ⟨f, hf⟩ := Option.ne_none_iff_exists'.mp hne
    have := u5 f n (by rw [hcb]; exact hf) (by rw [heng]; exact hg) (by rw [hlen]; exact hn)
    rw [hm] at this
    exact this

theorem toggleDeafen_twice_restores_mute_witness :
    (toggleDeafen (toggleDeafen mutedWorld)).store.isDeafened = false ∧
    (toggleDeafen (toggleDeafen mutedWorld)).store.isMuted = true ∧
    (toggleDeafen (toggleDeafen mutedWorld)).log.getLast? =
      some (Effect.muteCallback true) := by
  have h := toggleDeafen_twice_restores_mute mutedWorld (by decide)
  exact ⟨h.1, h.2.1, h.2.2.2.1 (by decide)⟩

/-- C6 (as stated, refuted): in the deafened state `deafenedWorld` the deafen flag
is set, and after `toggleMute` it is cleared, so `toggleMute` is not a no-op on
the deafen flag. -/
theorem toggleMute_deafened_changes_deafen_flag :
    deafenedWorld.store.isDeafened = true ∧
    (toggleMute deafenedWorld).store.isDeafened = false ∧
    (toggleMute deafenedWorld).store.isDeafened ≠ deafenedWorld.store.isDeafened := by
  decide

/-- C6 (amended): in every deafened state `toggleMute` undeafens and unmutes:
afterwards `isDeafened`, `isMuted` and `_wasMutedBeforeDeafen` are all false, and
a registered mute callback has last been called with `false`. -/
theorem toggleMute_deafened_undeafens (w : World) (h : w.store.isDeafened = true) :
    (toggleMute w).store.isDeafened = false ∧
    (toggleMute w).store.isMuted = false ∧
    (toggleMute w).store._wasMutedBeforeDeafen = false ∧
    (w.store._muteCallback ≠ none →
      (toggleMute w).log.getLast? = some (Effect.muteCallback false)) := by
  refine ⟨by simp [toggleMute, h], by simp [toggleMute, h], by simp [toggleMute, h], ?_⟩
  intro hne
  obtain ⟨f, hf⟩ := Option.ne_none_iff_exists'.mp hne
  have hl := (clearOwnSpeaking_frame (applyMute w (some f) w.store.localStream false)).2.2.1
  simp [toggleMute, h, hf, hl, applyMute_log_some]

theorem toggleMute_deafened_undeafens_witness :
    deafenedWorld.store.isDeafened = true ∧
    (toggleMute deafenedWorld).store.isDeafened = false ∧
    (toggleMute deafenedWorld).store.isMuted = false := by
  have h := toggleMute_deafened_undeafens deafenedWorld (by decide)
  exact ⟨by decide, h.1, h.2.1⟩

/-! ## Gate and mute gain are independent -/

theorem gateRamps_append (l1 l2 : List Effect) :
    gateRamps (l1 ++ l2) = gateRamps l1 ++ gateRamps l2 := by
  induction l1 with
  | nil => rfl
  | cons e rest ih => cases e <;> simp [gateRamps, ih]

theorem setSpeaking_spec (w : World) (u : Uid) (b : Bool) :
    ∃ su, setSpeaking w u b = { w with store := { w.store with speakingUsers := su } } :=
  ⟨_, setSpeaking_eq w u b⟩

theorem notifySpeaking_spec (cb : SpeakingCallback) (w : World) (o : Option Bool) :
    ∃ su l, notifySpeaking w cb o =
      { w with store := { w.store with speakingUsers := su }, log := w.log ++ l } ∧
      gateRamps l = [] := by
  cases o with
  | none => exact ⟨w.store.speakingUsers, [], by simp [notifySpeaking], rfl⟩
  | some b =>
    simp only [notifySpeaking, SpeakingCallback.call]
    cases cb with
    | localMic uid =>
      simp only []
      split
      · obtain ⟨su, h⟩ := setSpeaking_spec
          (w.emit (Effect.onSpeaking (SpeakingCallback.localMic uid) b)) (keyOf uid) false
        exact ⟨su, [Effect.onSpeaking (SpeakingCallback.localMic uid) b], by rw [h]; rfl, rfl⟩
      · obtain ⟨su, h⟩ := setSpeaking_spec
          (w.emit (Effect.onSpeaking (SpeakingCallback.localMic uid) b)) (keyOf uid) b
        exact ⟨su, [Effect.onSpeaking (SpeakingCallback.localMic uid) b], by rw [h]; rfl, rfl⟩
    | remote peerId =>
      simp only []
      obtain ⟨su, h⟩ := setSpeaking_spec
        (w.emit (Effect.onSpeaking (SpeakingCallback.remote peerId) b)) peerId b
      exact ⟨su, [Effect.onSpeaking (SpeakingCallback.remote peerId) b], by rw [h]; rfl, rfl⟩

/-- One run of `check` leaves the module variables alone, changes nothing in
the store but `speakingUsers`, changes nothing in the browser but the gains,
and there only appends the ramp to the gate node of the detector. -/
theorem runCheck_eq (w : World) (d : Detector) (data : List Nat) :
    (runCheck w d data).2 = (d.check (d.readThreshold w) data).1 ∧
    (runCheck w d data).1.eng = w.eng ∧
    (runCheck w d data).1.authUid = w.authUid ∧
    (∃ su, (runCheck w d data).1.store = { w.store with speakingUsers := su }) ∧
    (runCheck w d data).1.browser = { w.browser with gains := (runCheck w d data).1.browser.gains } ∧
    (runCheck w d data).1.browser.gains =
      (match d.gateNode, (d.check (d.readThreshold w) data).2.ramp with
        | some n, some rp => rampGain w.browser.gains n rp
        | _, _ => w.browser.gains) ∧
    gateRamps (runCheck w d data).1.log = gateRamps w.log ++
      (match d.gateNode, (d.check (d.readThreshold w) data).2.ramp with
        | some n, some rp => [(n, rp)]
        | _, _ => []) := by
  unfold runCheck
  simp only []
  generalize (d.check (d.readThreshold w) data) = r
  obtain ⟨d', o, rp⟩ := r
  obtain ⟨su, l, hn, hl⟩ := notifySpeaking_spec d.onSpeaking w o
  rw [hn]
  cases d.gateNode <;> cases rp <;>
    simp [applyRamp, World.emit, gateRamps_append, gateRamps, hl]

theorem rampGain_value (gains : List GainNode) (n : Nat) (rp : Ramp) (m : Nat) :
    ((rampGain gains n rp).get? m).map GainNode.value = (gains.get? m).map GainNode.value := by
  unfold rampGain
  cases h : gains.get? n with
  | none => rfl
  | some g =>
    by_cases hm : n = m
    · subst hm
      have hlt : n < gains.length := by
        by_contra hc
        rw [List.get?_eq_none.mpr (by omega)] at h
        exact Option.noConfusion h
      rw [List.get?_eq_getElem?] at h
      simp [List.getElem?_set, hlt, h]
    · simp [List.getElem?_set, hm]

theorem rampGain_other (gains : List GainNode) (n : Nat) (rp : Ramp) (m : Nat) (h : n ≠ m) :
    (rampGain gains n rp).get? m = gains.get? m := by
  unfold rampGain
  cases gains.get? n with
  | none => rfl
  | some g => simp [List.getElem?_set, h]

theorem setGainValue_ramps (gains : List GainNode) (n v : Nat) (m : Nat) :
    ((setGainValue gains n v).get? m).map GainNode.ramps = (gains.get? m).map GainNode.ramps := by
  unfold setGainValue
  cases h : gains.get? n with
  | none => rfl
  | some g =>
    by_cases hm : n = m
    · subst hm
      have hlt : n < gains.length := by
        by_contra hc
        rw [List.get?_eq_none.mpr (by omega)] at h
        exact Option.noConfusion h
      rw [List.get?_eq_getElem?] at h
      simp [List.getElem?_set, hlt, h]
    · simp [List.getElem?_set, hm]

theorem setGainValue_other (gains : List GainNode) (n v : Nat) (m : Nat) (h : n ≠ m) :
    (setGainValue gains n v).get? m = gains.get? m := by
  unfold setGainValue
  cases gains.get? n with
  | none => rfl
  | some g => simp [List.getElem?_set, h]

theorem localDetectorFrame_spec (w : World) (d : Detector) (data : List Nat)
    (hd : w.eng.localSpeakingDetector = some d) :
    (localDetectorFrame w data).eng =
      { w.eng with localSpeakingDetector := some (d.check (d.readThreshold w) data).1 } ∧
    (∃ su, (localDetectorFrame w data).store = { w.store with speakingUsers := su }) ∧
    (localDetectorFrame w data).browser.gains =
      (match d.gateNode, (d.check (d.readThreshold w) data).2.ramp with
        | some n, some rp => rampGain w.browser.gains n rp
        | _, _ => w.browser.gains) ∧
    gateRamps (localDetectorFrame w data).log = gateRamps w.log ++
      (match d.gateNode, (d.check (d.readThreshold w) data).2.ramp with
        | some n, some rp => [(n, rp)]
        | _, _ => []) := by
  obtain ⟨r1, r2, _, r4, _, r6, r7⟩ := runCheck_eq w d data
  unfold localDetectorFrame
  simp only [hd]
  refine ⟨?_, ?_, ?_, ?_⟩
  · simp only [r1, r2]
  · exact r4
  · exact r6
  · exact r7

theorem applyMute_gates (w : World) (cb : Option MuteCallback) (ls : Option MediaStream)
    (b : Bool) :
    gateRamps (applyMute w cb ls b).log = gateRamps w.log ∧
    (∀ m, ((applyMute w cb ls b).browser.gains.get? m).map GainNode.ramps =
      (w.browser.gains.get? m).map GainNode.ramps) ∧
    (∀ m, w.eng.micMuteGain ≠ some m →
      (applyMute w cb ls b).browser.gains.get? m = w.browser.gains.get? m) := by
  unfold applyMute
  cases cb with
  | none =>
    cases ls with
    | none => simp
    | some l =>
      simp only [setTracksEnabled]
      split <;> simp
  | some f =>
    simp only [MuteCallback.call, World.emit]
    cases hg : w.eng.micMuteGain with
    | none => simp [gateRamps_append, gateRamps]
    | some n =>
      refine ⟨by simp [gateRamps_append, gateRamps], ?_, ?_⟩
      · intro m; exact setGainValue_ramps _ _ _ _
      · intro m hm
        exact setGainValue_other _ _ _ _ (fun e => hm (by rw [e]))

/-- What `toggleMute` and `toggleDeafen` leave alone: the module variables (so
the detector state), the threshold, the gate commands issued so far, the ramps
of every gain node, and every gain node but the mute gain. -/
theorem toggle_frame (w : World) :
    ((toggleMute w).eng = w.eng ∧ (toggleMute w).store.vadThreshold = w.store.vadThreshold ∧
      gateRamps (toggleMute w).log = gateRamps w.log ∧
      (∀ m, ((toggleMute w).browser.gains.get? m).map GainNode.ramps =
        (w.browser.gains.get? m).map GainNode.ramps) ∧
      (∀ m, w.eng.micMuteGain ≠ some m →
        (toggleMute w).browser.gains.get? m = w.browser.gains.get? m)) ∧
    ((toggleDeafen w).eng = w.eng ∧ (toggleDeafen w).store.vadThreshold = w.store.vadThreshold ∧
      gateRamps (toggleDeafen w).log = gateRamps w.log ∧
      (∀ m, ((toggleDeafen w).browser.gains.get? m).map GainNode.ramps =
        (w.browser.gains.get? m).map GainNode.ramps) ∧
      (∀ m, w.eng.micMuteGain ≠ some m →
        (toggleDeafen w).browser.gains.get? m = w.browser.gains.get? m)) := by
  have key : ∀ b, let x := applyMute w w.store._muteCallback w.store.localStream b
      (clearOwnSpeaking x).eng = w.eng ∧ x.eng = w.eng ∧
      (clearOwnSpeaking x).store.vadThreshold = w.store.vadThreshold ∧
      x.store.vadThreshold = w.store.vadThreshold ∧
      (clearOwnSpeaking x).log = x.log ∧ (clearOwnSpeaking x).browser = x.browser := by
    intro b
    obtain ⟨c1, c2, c3, _⟩ :=
      clearOwnSpeaking_frame (applyMute w w.store._muteCallback w.store.localStream b)
    obtain ⟨a1, a2, _⟩ := applyMute_store w w.store._muteCallback w.store.localStream b
    refine ⟨by rw [c1, a2], a2, ?_, by rw [a1], c3, c2⟩
    unfold clearOwnSpeaking
    cases truthyUid (applyMute w w.store._muteCallback w.store.localStream b).authUid with
    | none => simp only []; rw [a1]
    | some u =>
      simp only []
      obtain ⟨su, h⟩ := setSpeaking_spec
        (applyMute w w.store._muteCallback w.store.localStream b) u false
      rw [h]; simp only []; rw [a1]
  constructor
  · unfold toggleMute
    simp only []
    split
    · obtain ⟨k1, _, k3, _, k5, k6⟩ := key false
      obtain ⟨g1, g2, g3⟩ := applyMute_gates w w.store._muteCallback w.store.localStream false
      simp only [k1, k3, k5, k6, g1]
      exact ⟨trivial, trivial, trivial, g2, g3⟩
    · obtain ⟨k1, k2, k3, k4, k5, k6⟩ := key (!w.store.isMuted)
      obtain ⟨g1, g2, g3⟩ :=
        applyMute_gates w w.store._muteCallback w.store.localStream (!w.store.isMuted)
      split
      · simp only [k1, k3, k5, k6, g1]
        exact ⟨trivial, trivial, trivial, g2, g3⟩
      · simp only [k2, k4, g1]
        exact ⟨trivial, trivial, trivial, g2, g3⟩
  · unfold toggleDeafen
    simp only []
    split
    · obtain ⟨_, k2, _, k4, _, _⟩ := key w.store._wasMutedBeforeDeafen
      obtain ⟨g1, g2, g3⟩ := applyMute_gates w w.store._muteCallback w.store.localStream
        w.store._wasMutedBeforeDeafen
      simp only [k2, k4, g1]
      exact ⟨trivial, trivial, trivial, g2, g3⟩
    · obtain ⟨k1, _, k3, _, k5, k6⟩ := key true
      obtain ⟨g1, g2, g3⟩ := applyMute_gates w w.store._muteCallback w.store.localStream true
      simp only [k1, k3, k5, k6, g1]
      exact ⟨trivial, trivial, trivial, g2, g3⟩

theorem runMicActions_gateRamps (as : List MicAction) (w : World) (d : Detector)
    (hd : w.eng.localSpeakingDetector = some d) :
    gateRamps (runMicActions w as).log = gateRamps w.log ++ detectorGateCommands d as := by
  induction as generalizing w d with
  | nil => simp [runMicActions, detectorGateCommands]
  | cons a rest ih =>
    simp only [runMicActions, List.foldl_cons] at ih ⊢
    cases a with
    | frame t data =>
      have hd' : (setVadThreshold w t).eng.localSpeakingDetector = some d := hd
      obtain ⟨f1, _, _, f4⟩ := localDetectorFrame_spec (setVadThreshold w t) d data hd'
      have hthr : d.readThreshold (setVadThreshold w t) = if d.hasGetThreshold then t else 15 := rfl
      rw [hthr] at f1 f4
      have := ih (MicAction.step w (MicAction.frame t data))
        (d.check (if d.hasGetThreshold then t else 15) data).1 (by
          simp only [MicAction.step]; rw [f1])
      rw [this]
      simp only [MicAction.step, detectorGateCommands]
      rw [f4]
      have hlog : (setVadThreshold w t).log = w.log := rfl
      rw [hlog, List.append_assoc]
    | toggleMute =>
      obtain ⟨t1, _, t3, _, _⟩ := (toggle_frame w).1
      have := ih (MicAction.step w MicAction.toggleMute) d (by
        simp only [MicAction.step]; rw [t1]; exact hd)
      rw [this]
      simp only [MicAction.step, detectorGateCommands, t3]
    | toggleDeafen =>
      obtain ⟨t1, _, t3, _, _⟩ := (toggle_frame w).2
      have := ih (MicAction.step w MicAction.toggleDeafen) d (by
        simp only [MicAction.step]; rw [t1]; exact hd)
      rw [this]
      simp only [MicAction.step, detectorGateCommands, t3]

theorem localDetectorFrame_mute (w : World) (data : List Nat) :
    (localDetectorFrame w data).store.isMuted = w.store.isMuted ∧
    (localDetectorFrame w data).store.isDeafened = w.store.isDeafened ∧
    (localDetectorFrame w data).store._wasMutedBeforeDeafen = w.store._wasMutedBeforeDeafen ∧
    (localDetectorFrame w data).store._muteCallback = w.store._muteCallback ∧
    (localDetectorFrame w data).eng.micMuteGain = w.eng.micMuteGain ∧
    (∀ m, ((localDetectorFrame w data).browser.gains.get? m).map GainNode.value =
      (w.browser.gains.get? m).map GainNode.value) ∧
    (∀ d m, w.eng.localSpeakingDetector = some d → d.gateNode ≠ some m →
      (localDetectorFrame w data).browser.gains.get? m = w.browser.gains.get? m) := by
  cases hd : w.eng.localSpeakingDetector with
  | none => simp [localDetectorFrame, hd]
  | some d =>
    obtain ⟨f1, ⟨su, f2⟩, f3, _⟩ := localDetectorFrame_spec w d data hd
    refine ⟨by rw [f2], by rw [f2], by rw [f2], by rw [f2], by rw [f1], ?_, ?_⟩
    · intro m
      rw [f3]
      cases d.gateNode <;> cases (d.check (d.readThreshold w) data).2.ramp <;>
        simp only [rampGain_value]
    · intro d' m hd' hne
      have hdd : d' = d := (Option.some.inj hd').symm
      subst hdd
      rw [f3]
      cases hg : d'.gateNode with
      | none => rfl
      | some n =>
        cases (d'.check (d'.readThreshold w) data).2.ramp with
        | none => rfl
        | some rp =>
          exact rampGain_other _ _ _ _ (fun e => hne (by rw [hg, e]))

theorem check_gateNode (d : Detector) (t : Nat) (data : List Nat) :
    (d.check t data).1.gateNode = d.gateNode := by
  unfold Detector.check
  split
  · rfl
  · split
    · simp only []
      split <;> rfl
    · simp only []
      split <;> rfl

theorem createAudioPipeline_nodes (w : World) (ctx : Nat) (o : PipelineOutcome)
    (res : PipelineResult) (h : (createAudioPipeline w ctx o).2 = some res) :
    res.muteGain = res.gateNode + 1 ∧
    (createAudioPipeline w ctx o).1.eng.micMuteGain = w.eng.micMuteGain := by
  unfold createAudioPipeline at h ⊢
  by_cases h1 : o.sourceOk = true
  · by_cases h2 : w.eng.workletLoaded = true
    · by_cases h4 : o.workletNodeOk = true
      · simp [h1, h2, h4] at h ⊢
        subst h; simp
      · simp [h1, h2, h4] at h
    · by_cases h3 : o.addModuleOk = true
      · by_cases h4 : o.workletNodeOk = true
        · simp [h1, h2, h3, h4, World.emit] at h ⊢
          subst h; simp
        · simp [h1, h2, h3, h4] at h
      · simp [h1, h2, h3] at h
  · simp [h1] at h

theorem startVoice_nodes_distinct (w : World) (g c : JsString) (env : StartEnv)
    (h : (startVoice w g c env).1 = true) :
    ∃ d gate m, (startVoice w g c env).2.eng.localSpeakingDetector = some d ∧
      d.gateNode = some gate ∧ (startVoice w g c env).2.eng.micMuteGain = some m ∧
      gate ≠ m := by
  unfold startVoice at h ⊢
  cases h1 : startVoiceEnter w g c with
  | none => simp [h1] at h
  | some w1 =>
    simp only [h1] at h ⊢
    cases h2 : (startVoiceMic (fetchTurnCredentials w1 env.now env.turn)
        w.store.selectedInput env).2 with
    | none => simp [h2] at h
    | some rc =>
      obtain ⟨rawStream, ctx⟩ := rc
      simp only [h2] at h ⊢
      unfold startVoicePipeline at h ⊢
      cases h3 : (createAudioPipeline (startVoiceMic (fetchTurnCredentials w1 env.now env.turn)
          w.store.selectedInput env).1 ctx env.pipeline).2 with
      | none => simp [h3] at h
      | some res =>
        obtain ⟨n1, _⟩ := createAudioPipeline_nodes _ _ _ res h3
        simp only [h3]
        refine ⟨_, res.gateNode, res.muteGain, rfl, ?_, ?_, by omega⟩
        · simp only [createSpeakingDetector, (runCheck_eq _ _ _).1, check_gateNode]
        · simp only [listenSignaling, registerMuteCallback, createSpeakingDetector,
            (runCheck_eq _ _ _).2.1, World.emit]

/-- C7: the gate and the mute gain are separate stages. (1) A frame of the
local detector changes neither the mute flags, nor `micMuteGain`, nor the
`gain.value` of any node, nor any node other than its gate. (2) `toggleMute` and
`toggleDeafen` change no module variable (so not the detector state), issue no
gate command, change the ramps of no node and change no node other than the
mute gain. (3) Over any interleaving of frames and toggles the gate commands
issued are those computed from the frames and thresholds alone. (4) After a
successful `startVoice` the gate of the local detector and the mute gain are
different nodes. -/
theorem gate_and_mute_gain_independent :
    (∀ (w : World) (data : List Nat),
      (localDetectorFrame w data).store.isMuted = w.store.isMuted ∧
      (localDetectorFrame w data).store.isDeafened = w.store.isDeafened ∧
      (localDetectorFrame w data).eng.micMuteGain = w.eng.micMuteGain ∧
      (∀ m, ((localDetectorFrame w data).browser.gains.get? m).map GainNode.value =
        (w.browser.gains.get? m).map GainNode.value) ∧
      (∀ d m, w.eng.localSpeakingDetector = some d → d.gateNode ≠ some m →
        (localDetectorFrame w data).browser.gains.get? m = w.browser.gains.get? m)) ∧
    (∀ (w : World),
      ((toggleMute w).eng = w.eng ∧ gateRamps (toggleMute w).log = gateRamps w.log ∧
        (∀ m, ((toggleMute w).browser.gains.get? m).map GainNode.ramps =
          (w.browser.gains.get? m).map GainNode.ramps) ∧
        (∀ m, w.eng.micMuteGain ≠ some m →
          (toggleMute w).browser.gains.get? m = w.browser.gains.get? m)) ∧
      ((toggleDeafen w).eng = w.eng ∧ gateRamps (toggleDeafen w).log = gateRamps w.log ∧
        (∀ m, ((toggleDeafen w).browser.gains.get? m).map GainNode.ramps =
          (w.browser.gains.get? m).map GainNode.ramps) ∧
        (∀ m, w.eng.micMuteGain ≠ some m →
          (toggleDeafen w).browser.gains.get? m = w.browser.gains.get? m))) ∧
    (∀ (w : World) (d : Detector) (as : List MicAction),
      w.eng.localSpeakingDetector = some d →
      gateRamps (runMicActions w as).log = gateRamps w.log ++ detectorGateCommands d as) ∧
    (∀ (w : World) (g c : JsString) (env : StartEnv), (startVoice w g c env).1 = true →
      ∃ d gate m, (startVoice w g c env).2.eng.localSpeakingDetector = some d ∧
        d.gateNode = some gate ∧ (startVoice w g c env).2.eng.micMuteGain = some m ∧
        gate ≠ m) := by
  refine ⟨?_, ?_, ?_, startVoice_nodes_distinct⟩
  · intro w data
    obtain ⟨h1, h2, _, _, h5, h6, h7⟩ := localDetectorFrame_mute w data
    exact ⟨h1, h2, h5, h6, h7⟩
  · intro w
    obtain ⟨⟨a1, _, a3, a4, a5⟩, ⟨b1, _, b3, b4, b5⟩⟩ := toggle_frame w
    exact ⟨⟨a1, a3, a4, a5⟩, ⟨b1, b3, b4, b5⟩⟩
  · intro w d as hd
    exact runMicActions_gateRamps as w d hd

theorem gate_and_mute_gain_independent_witness :
    mutedSpeakingWorldA.store.isMuted = true ∧
    (mutedSpeakingWorldA.browser.gains.get? 1).map GainNode.value = some 0 ∧
    gateRamps mutedSpeakingWorldA.log = [(0, ⟨1, 5⟩)] ∧
    (mutedSpeakingWorldA.browser.gains.get? 0).map GainNode.ramps = some [⟨1, 5⟩] := by
  have h := gate_and_mute_gain_independent.2.2.1 startedWorldA
    ⟨false, 1, 0, false, some 0, true, 48000, 512, SpeakingCallback.localMic (some uidA)⟩
    [MicAction.toggleMute, MicAction.frame 20 loudFrame, MicAction.frame 20 loudFrame,
     MicAction.frame 20 loudFrame] (by decide)
  refine ⟨by decide, by decide, ?_, by decide⟩
  rw [mutedSpeakingWorldA, h]
  decide

/-! ## Stream classification -/

/-- C8: an audio track whose stream carries at least one video track leaves
the whole state unchanged (so `remoteStreams` is unchanged and no detector is
attached or stopped), whatever the state before; an audio track whose stream
carries no video track makes `remoteStreams[peerId]` that stream, whatever was
there before, and leaves the entries of the other peers alone. -/
theorem ontrack_classifies_streams (w : World) (peerId : Uid) (track : Track)
    (st : MediaStream) (firstFrame : List Nat) (haudio : track.kind = TrackKind.audio) :
    (st.getVideoTracks.length > 0 → ontrack w peerId track (some st) firstFrame = w) ∧
    (st.getVideoTracks.length = 0 →
      objGet (ontrack w peerId track (some st) firstFrame).store.remoteStreams peerId
        = some (some st) ∧
      ∀ q, q ≠ peerId →
        objGet (ontrack w peerId track (some st) firstFrame).store.remoteStreams q
          = objGet w.store.remoteStreams q) := by
  constructor
  · intro hv
    simp [ontrack, haudio, hv]
  · intro hv
    have hv' : ¬ (st.getVideoTracks.length > 0) := by omega
    unfold ontrack
    simp only [haudio, hv', decide_False, Bool.false_eq_true, if_false]
    cases hctx : w.eng.audioContext with
    | none =>
      cases hdet : objGet w.eng.speakingDetectors peerId with
      | none =>
        simp only [hctx]
        exact ⟨objGet_objSet_same _ _ _, fun q hq => objGet_objSet_ne _ _ _ _ hq⟩
      | some d =>
        simp only [World.emit, hctx]
        exact ⟨objGet_objSet_same _ _ _, fun q hq => objGet_objSet_ne _ _ _ _ hq⟩
    | some ctx =>
      cases hdet : objGet w.eng.speakingDetectors peerId with
      | none =>
        simp only [hctx]
        exact ⟨objGet_objSet_same _ _ _, fun q hq => objGet_objSet_ne _ _ _ _ hq⟩
      | some d =>
        simp only [World.emit, hctx]
        exact ⟨objGet_objSet_same _ _ _, fun q hq => objGet_objSet_ne _ _ _ _ hq⟩

theorem ontrack_classifies_streams_witness :
    ontrack offeringWorldA uidB ⟨201, TrackKind.audio⟩
      (some ⟨200, [⟨201, TrackKind.audio⟩, ⟨202, TrackKind.video⟩]⟩) [] = offeringWorldA ∧
    objGet (ontrack offeringWorldA uidB ⟨301, TrackKind.audio⟩
      (some ⟨300, [⟨301, TrackKind.audio⟩]⟩) []).store.remoteStreams uidB
        = some (some ⟨300, [⟨301, TrackKind.audio⟩]⟩) :=
  ⟨(ontrack_classifies_streams offeringWorldA uidB ⟨201, TrackKind.audio⟩
      ⟨200, [⟨201, TrackKind.audio⟩, ⟨202, TrackKind.video⟩]⟩ [] rfl).1 (by decide),
   ((ontrack_classifies_streams offeringWorldA uidB ⟨301, TrackKind.audio⟩
      ⟨300, [⟨301, TrackKind.audio⟩]⟩ [] rfl).2 (by decide)).1⟩

/-! ## Presence reconciliation -/

theorem offersInitiated_append (l1 l2 : List Effect) :
    offersInitiated (l1 ++ l2) = offersInitiated l1 ++ offersInitiated l2 := by
  induction l1 with
  | nil => rfl
  | cons e rest ih =>
    cases e with
    | newPeerConnection p i o => cases o <;> simp [offersInitiated, ih]
    | _ => simp [offersInitiated, ih]

theorem removePeer_offers (w : World) (p : Uid) :
    offersInitiated (removePeer w p).log = offersInitiated w.log := by
  rw [removePeer_log]
  cases objGet w.store.peerConnections p <;> cases objGet w.eng.speakingDetectors p <;>
    simp [offersInitiated_append, offersInitiated]

theorem addScreenTracks_spec (w : World) (p : Uid) (pcId : Nat) (isOff : Bool) :
    offersInitiated (addScreenTracks w p pcId isOff).log = offersInitiated w.log ∧
    ∀ k, k ≠ p → objGet (addScreenTracks w p pcId isOff).store.peerConnections k =
      objGet w.store.peerConnections k := by
  unfold addScreenTracks
  split
  · split
    · exact ⟨rfl, fun _ _ => rfl⟩
    · cases hq : objGet w.store.peerConnections p with
      | none =>
        exact ⟨by simp [World.emit, offersInitiated_append, offersInitiated], fun _ _ => rfl⟩
      | some q =>
        exact ⟨by simp [World.emit, offersInitiated_append, offersInitiated],
          fun k hk => objGet_objSet_ne _ _ _ _ hk⟩
  · exact ⟨rfl, fun _ _ => rfl⟩

theorem setLocalDescription_pcs (w : World) (p : Uid) (pc : RTCPeerConnection) (t : SdpType)
    (env : SigEnv) (k : Uid) (hk : k ≠ p) :
    objGet (setLocalDescription w p pc t env).1.store.peerConnections k =
      objGet w.store.peerConnections k := by
  unfold setLocalDescription
  split
  · exact objGet_objSet_ne _ _ _ _ hk
  · rfl

theorem addDoc_spec (w : World) (t : DocType) (r : Uid) (env : SigEnv) :
    offersInitiated (addDoc w t r env).1.log = offersInitiated w.log ∧
    (addDoc w t r env).1.store = w.store := by
  unfold addDoc
  split
  · simp [World.emit, offersInitiated_append, offersInitiated]
  · exact ⟨rfl, rfl⟩

theorem peerSetup_offerer_spec (w : World) (p : Uid) (pc : RTCPeerConnection)
    (sdp : Option Sdp) (env : SigEnv) :
    offersInitiated (peerSetup w p pc true sdp env).1.log = offersInitiated w.log ∧
    ∀ k, k ≠ p → objGet (peerSetup w p pc true sdp env).1.store.peerConnections k =
      objGet w.store.peerConnections k := by
  unfold peerSetup
  simp only [if_true]
  split
  · exact ⟨by rw [setLocalDescription_log], fun k hk => setLocalDescription_pcs _ _ _ _ _ k hk⟩
  · obtain ⟨a1, a2⟩ := addDoc_spec (setLocalDescription w p pc SdpType.offer env).1
      DocType.offer p env
    exact ⟨by rw [a1, setLocalDescription_log],
      fun k hk => by rw [a2]; exact setLocalDescription_pcs _ _ _ _ _ k hk⟩

theorem createPeerConnection_offerer_spec (w : World) (p : Uid) (ls : Option MediaStream)
    (sdp : Option Sdp) (env : SigEnv) :
    offersInitiated (createPeerConnection w p ls true sdp env).1.log =
      offersInitiated w.log ++ [p] ∧
    ∀ k, k ≠ p → objGet (createPeerConnection w p ls true sdp env).1.store.peerConnections k =
      objGet w.store.peerConnections k := by
  have hn : offersInitiated (newPeerConnection w p ls true).1.log = offersInitiated w.log ++ [p] ∧
      ∀ k, k ≠ p → objGet (newPeerConnection w p ls true).1.store.peerConnections k =
        objGet w.store.peerConnections k := by
    unfold newPeerConnection
    exact ⟨by simp [World.emit, offersInitiated_append, offersInitiated],
      fun k hk => objGet_objSet_ne _ _ _ _ hk⟩
  obtain ⟨s1, s2⟩ := peerSetup_offerer_spec (newPeerConnection w p ls true).1 p
    (newPeerConnection w p ls true).2 sdp env
  unfold createPeerConnection
  simp only []
  split
  · refine ⟨by rw [removePeer_offers, s1, hn.1], fun k hk => ?_⟩
    rw [removePeer_peerConnections, objGet_objDel_ne _ _ _ hk, s2 k hk, hn.2 k hk]
  · obtain ⟨t1, t2⟩ := addScreenTracks_spec
      (peerSetup (newPeerConnection w p ls true).1 p (newPeerConnection w p ls true).2 true sdp
        env).1 p (newPeerConnection w p ls true).2.pcId true
    exact ⟨by rw [t1, s1, hn.1], fun k hk => by rw [t2 k hk, s2 k hk, hn.2 k hk]⟩

theorem presenceConnect_spec (uid : Uid) (pcs : Obj RTCPeerConnection) (env : Uid → SigEnv)
    (others : List PresenceEntry) (w : World) :
    offersInitiated (presenceConnect uid pcs env w others).log =
      offersInitiated w.log ++
        (others.filter (fun u => !objHas pcs u.uid && isOfferer uid u.uid)).map
          PresenceEntry.uid ∧
    ∀ k, (∀ u ∈ others, u.uid ≠ k) →
      objGet (presenceConnect uid pcs env w others).store.peerConnections k =
        objGet w.store.peerConnections k := by
  induction others generalizing w with
  | nil => exact ⟨by simp [presenceConnect], fun _ _ => rfl⟩
  | cons u rest ih =>
    simp only [presenceConnect, List.foldl_cons] at ih ⊢
    by_cases h1 : objHas pcs u.uid = true
    · obtain ⟨i1, i2⟩ := ih w
      simp only [h1, Bool.not_true, Bool.false_eq_true, if_false, List.filter_cons,
        Bool.false_and]
      exact ⟨i1, fun k hk => i2 k (fun x hx => hk x (List.mem_cons_of_mem _ hx))⟩
    · by_cases h2 : isOfferer uid u.uid = true
      · obtain ⟨c1, c2⟩ := createPeerConnection_offerer_spec w u.uid w.store.localStream none
          (env u.uid)
        obtain ⟨i1, i2⟩ := ih (createPeerConnection w u.uid w.store.localStream true none
          (env u.uid)).1
        simp only [h1, h2, Bool.not_false, if_true, List.filter_cons, Bool.and_self,
          List.map_cons]
        refine ⟨by rw [i1, c1]; simp, fun k hk => ?_⟩
        rw [i2 k (fun x hx => hk x (List.mem_cons_of_mem _ hx))]
        exact c2 k (fun e => hk u (List.mem_cons_self _ _) e.symm)
      · obtain ⟨i1, i2⟩ := ih w
        simp only [h1, h2, Bool.not_false, if_true, Bool.false_eq_true, if_false,
          List.filter_cons, Bool.and_false]
        exact ⟨i1, fun k hk => i2 k (fun x hx => hk x (List.mem_cons_of_mem _ hx))⟩

theorem presenceRemove_spec (others : List PresenceEntry) (keys : List Uid) (w : World) :
    offersInitiated (presenceRemove others w keys).log = offersInitiated w.log ∧
    (∀ k, objGet w.store.peerConnections k = none →
      objGet (presenceRemove others w keys).store.peerConnections k = none) ∧
    (∀ k, k ∈ keys → others.any (fun u => decide (u.uid = k)) = false →
      objGet (presenceRemove others w keys).store.peerConnections k = none) ∧
    (∀ k, others.any (fun u => decide (u.uid = k)) = true →
      objGet (presenceRemove others w keys).store.peerConnections k =
        objGet w.store.peerConnections k) := by
  induction keys generalizing w with
  | nil => simp [presenceRemove]
  | cons key rest ih =>
    simp only [presenceRemove, List.foldl_cons] at ih ⊢
    by_cases hany : others.any (fun u => decide (u.uid = key)) = true
    · obtain ⟨i1, i2, i3, i4⟩ := ih w
      simp only [hany, Bool.not_true, Bool.false_eq_true, if_false]
      refine ⟨i1, i2, ?_, i4⟩
      intro k hk hno
      rcases List.mem_cons.mp hk with e | hmem
      · subst e; rw [hany] at hno; exact absurd hno (by decide)
      · exact i3 k hmem hno
    · have hany' : others.any (fun u => decide (u.uid = key)) = false := by
        simpa using hany
      obtain ⟨i1, i2, i3, i4⟩ := ih (removePeer w key)
      simp only [hany', Bool.not_false, if_true]
      refine ⟨by rw [i1, removePeer_offers], ?_, ?_, ?_⟩
      · intro k hk
        exact i2 k (by rw [removePeer_peerConnections]; exact objGet_objDel_none _ _ _ hk)
      · intro k hk hno
        rcases List.mem_cons.mp hk with e | hmem
        · subst e
          exact i2 k (by rw [removePeer_peerConnections]; exact objGet_objDel_same _ _)
        · exact i3 k hmem hno
      · intro k hk
        have hne : k ≠ key := fun e => by subst e; rw [hk] at hany'; exact absurd hany' (by decide)
        rw [i4 k hk, removePeer_peerConnections, objGet_objDel_ne _ _ _ hne]

theorem mem_otherUsers (uid : Uid) (users : List PresenceEntry) (u : PresenceEntry) :
    u ∈ otherUsers uid users ↔
      u ∈ users ∧ u.uid ≠ uid ∧ u.uid ≠ eveUid ∧ u.isBot = false := by
  simp [otherUsers, List.mem_filter, and_assoc]

theorem any_uid_iff (others : List PresenceEntry) (k : Uid) :
    others.any (fun u => decide (u.uid = k)) = true ↔ ∃ u ∈ others, u.uid = k := by
  simp [List.any_eq_true]

/-- A presence snapshot handled while the session is active, with no other
code running at the awaits of the handler. The peers to
which a connection is initiated are exactly those present (not the local user,
not `'eve'`, not bot-flagged) without a connection and with an identifier larger
than the local one; every existing connection whose peer is not among the
present non-agent other participants is removed; afterwards every remaining
connection belongs to a present, non-agent, other participant, and there is
none for `'eve'`. -/
theorem presence_reconciliation (uid : Uid) (w : World) (users : List PresenceEntry)
    (env : Uid → SigEnv) (hactive : w.eng.voiceActive = true) :
    (∃ added, offersInitiated (onPresenceSnapshot uid w users env).log =
        offersInitiated w.log ++ added ∧
      ∀ p, p ∈ added ↔
        ((∃ u ∈ users, u.uid = p ∧ u.isBot = false) ∧ p ≠ uid ∧ p ≠ eveUid ∧
          objGet w.store.peerConnections p = none ∧ isOfferer uid p = true)) ∧
    (∀ k, objGet w.store.peerConnections k ≠ none →
      (¬ ∃ u ∈ users, u.uid = k ∧ k ≠ uid ∧ k ≠ eveUid ∧ u.isBot = false) →
      objGet (onPresenceSnapshot uid w users env).store.peerConnections k = none) ∧
    (∀ k, objGet (onPresenceSnapshot uid w users env).store.peerConnections k ≠ none →
      ∃ u ∈ users, u.uid = k ∧ k ≠ uid ∧ k ≠ eveUid ∧ u.isBot = false) ∧
    objGet (onPresenceSnapshot uid w users env).store.peerConnections eveUid = none := by
  obtain ⟨c1, c2⟩ := presenceConnect_spec uid w.store.peerConnections env
    (otherUsers uid users) w
  obtain ⟨r1, r2, r3, r4⟩ := presenceRemove_spec (otherUsers uid users)
    (objKeys w.store.peerConnections)
    (presenceConnect uid w.store.peerConnections env w (otherUsers uid users))
  have hunfold : onPresenceSnapshot uid w users env =
      presenceRemove (otherUsers uid users)
        (presenceConnect uid w.store.peerConnections env w (otherUsers uid users))
        (objKeys w.store.peerConnections) := by
    simp [onPresenceSnapshot, hactive]
  rw [hunfold]
  -- membership among the other users, by identifier
  have hother : ∀ k, (∃ u ∈ otherUsers uid users, u.uid = k) ↔
      ∃ u ∈ users, u.uid = k ∧ k ≠ uid ∧ k ≠ eveUid ∧ u.isBot = false := by
    intro k
    constructor
    · rintro ⟨u, hu, rfl⟩
      obtain ⟨m1, m2, m3, m4⟩ := (mem_otherUsers uid users u).mp hu
      exact ⟨u, m1, rfl, m2, m3, m4⟩
    · rintro ⟨u, hu, rfl, m2, m3, m4⟩
      exact ⟨u, (mem_otherUsers uid users u).mpr ⟨hu, m2, m3, m4⟩, rfl⟩
  have hpost : ∀ k, objGet (presenceRemove (otherUsers uid users)
      (presenceConnect uid w.store.peerConnections env w (otherUsers uid users))
      (objKeys w.store.peerConnections)).store.peerConnections k ≠ none →
      ∃ u ∈ users, u.uid = k ∧ k ≠ uid ∧ k ≠ eveUid ∧ u.isBot = false := by
    intro k hk
    by_contra hno
    have hno' : ¬ ∃ u ∈ otherUsers uid users, u.uid = k := fun h => hno ((hother k).mp h)
    have hany : (otherUsers uid users).any (fun u => decide (u.uid = k)) = false := by
      cases h : (otherUsers uid users).any (fun u => decide (u.uid = k)) with
      | false => rfl
      | true => exact absurd ((any_uid_iff _ k).mp h) hno'
    have hsame := c2 k (fun u hu e => hno' ⟨u, hu, e⟩)
    by_cases hw : objGet w.store.peerConnections k = none
    · exact hk (r2 k (by rw [hsame]; exact hw))
    · exact hk (r3 k ((mem_objKeys_iff _ k).mpr hw) hany)
  refine ⟨⟨_, by rw [r1, c1], ?_⟩, ?_, hpost, ?_⟩
  · intro p
    have hsome : ∀ q : Uid, (objGet w.store.peerConnections q).isSome = false ↔
        objGet w.store.peerConnections q = none := by
      intro q; cases objGet w.store.peerConnections q <;> simp
    simp only [List.mem_map, List.mem_filter, mem_otherUsers, objHas, Bool.and_eq_true,
      Bool.not_eq_true']
    constructor
    · rintro ⟨u, ⟨⟨m1, m2, m3, m4⟩, m5, m6⟩, rfl⟩
      exact ⟨⟨u, m1, rfl, m4⟩, m2, m3, (hsome _).mp m5, m6⟩
    · rintro ⟨⟨u, m1, rfl, m4⟩, m2, m3, m5, m6⟩
      exact ⟨u, ⟨⟨m1, m2, m3, m4⟩, (hsome _).mpr m5, m6⟩, rfl⟩
  · intro k hk hno
    have hno' : ¬ ∃ u ∈ otherUsers uid users, u.uid = k := fun h => hno ((hother k).mp h)
    have hany : (otherUsers uid users).any (fun u => decide (u.uid = k)) = false := by
      cases h : (otherUsers uid users).any (fun u => decide (u.uid = k)) with
      | false => rfl
      | true => exact absurd ((any_uid_iff _ k).mp h) hno'
    exact r3 k ((mem_objKeys_iff _ k).mpr hk) hany
  · by_contra h
    obtain ⟨u, _, _, _, h3, _⟩ := hpost eveUid h
    exact h3 rfl

theorem presence_reconciliation_witness :
    offersInitiated (onPresenceSnapshot uidA startedWorldA
      [presenceOf uidA, presenceOf uidB, ⟨eveUid, true, false⟩] (fun _ => okSigEnv)).log = [uidB] ∧
    objGet (onPresenceSnapshot uidA offeringWorldA [presenceOf uidA]
      (fun _ => okSigEnv)).store.peerConnections uidB = none := by
  have h := presence_reconciliation uidA offeringWorldA [presenceOf uidA] (fun _ => okSigEnv)
    (by decide)
  exact ⟨by decide, h.2.1 uidB (by decide) (by decide)⟩

/-! ## One session at a time -/

theorem startVoice_of_active (w : World) (g c : JsString) (env : StartEnv)
    (h : w.eng.voiceActive = true) : startVoice w g c env = (false, w) := by
  simp [startVoice, startVoiceEnter, h]

theorem fetchTurnCredentials_voiceActive (w : World) (now : Nat) (o : TurnOutcome) :
    (fetchTurnCredentials w now o).eng.voiceActive = w.eng.voiceActive := by
  unfold fetchTurnCredentials
  split
  · rfl
  · cases o with
    | failed => rfl
    | returned ts n =>
      simp only []
      split <;> rfl

theorem acquireMic_eng (w : World) (dev : Option JsString) (o : MicOutcome) :
    (acquireMic w dev o).1.eng = w.eng := by
  unfold acquireMic
  simp only []
  cases truthyString dev <;> cases o.exact <;> cases o.default <;>
    simp [World.emit] <;> (repeat' split) <;> simp [World.emit]

theorem startVoiceMic_voiceActive (w : World) (dev : Option JsString) (env : StartEnv)
    (r : MediaStream × Nat) (h : (startVoiceMic w dev env).2 = some r) :
    (startVoiceMic w dev env).1.eng.voiceActive = w.eng.voiceActive := by
  unfold startVoiceMic at h ⊢
  cases hm : (acquireMic w dev env.mic).2 with
  | none => simp [hm] at h
  | some st =>
    simp only [hm, setupAudioResilience, World.emit]
    rw [acquireMic_eng]

/-- The guard of `startVoice`: called while `voiceActive` is set it returns
false and leaves the whole state as it is; and in every state in which an
earlier `startVoice` call is suspended at an `await`, with nothing else run
since, the flag is set, so a second call made there is rejected in the same
way. -/
theorem startVoice_rejected_while_active (w : World) (g c : JsString) (env : StartEnv) :
    (w.eng.voiceActive = true → startVoice w g c env = (false, w)) ∧
    (∀ (g2 c2 : JsString) (env2 : StartEnv), ∀ s ∈ startVoiceSuspended w g c env,
      s.eng.voiceActive = true ∧ startVoice s g2 c2 env2 = (false, s)) := by
  refine ⟨startVoice_of_active w g c env, ?_⟩
  intro g2 c2 env2 s hs
  suffices h : s.eng.voiceActive = true from ⟨h, startVoice_of_active s g2 c2 env2 h⟩
  unfold startVoiceSuspended at hs
  cases h1 : startVoiceEnter w g c with
  | none => simp [h1] at hs
  | some w1 =>
    have hw1 : w1.eng.voiceActive = true := by
      unfold startVoiceEnter at h1
      split at h1
      · exact absurd h1 (by simp)
      · split at h1
        · exact absurd h1 (by simp)
        · have := Option.some.inj h1
          rw [← this]
    have hw2 : (fetchTurnCredentials w1 env.now env.turn).eng.voiceActive = true := by
      rw [fetchTurnCredentials_voiceActive]; exact hw1
    simp only [h1] at hs
    cases h2 : (startVoiceMic (fetchTurnCredentials w1 env.now env.turn)
        w.store.selectedInput env).2 with
    | none =>
      simp only [h2, List.mem_cons, List.mem_singleton, List.not_mem_nil, or_false] at hs
      rcases hs with rfl | rfl
      · exact hw1
      · exact hw2
    | some r =>
      simp only [h2, List.mem_cons, List.mem_singleton, List.not_mem_nil, or_false] at hs
      rcases hs with rfl | rfl | rfl
      · exact hw1
      · exact hw2
      · rw [startVoiceMic_voiceActive _ _ _ r h2]; exact hw2

theorem startVoice_rejected_while_active_witness :
    startVoice startedWorldA [103] [99] goodStartEnv = (false, startedWorldA) ∧
    (startVoiceSuspended (joinedWorld uidA []) [103] [99] goodStartEnv).length = 3 :=
  ⟨(startVoice_rejected_while_active startedWorldA [103] [99] goodStartEnv).1 (by decide),
   by decide⟩

/-! ## Onset of speech -/

theorem check_above_notSpeaking (d : Detector) (t : Nat) (data : List Nat)
    (hrun : d.stopped = false) (hs : d.speaking = false)
    (ha : aboveThreshold d.sampleRate d.fftSize data t = true) :
    d.check t data =
      if ONSET_DELAY d.gateNode ≤ d.onsetFrames + 1 then
        ({ d with silenceFrames := 0, onsetFrames := d.onsetFrames + 1, speaking := true },
          onsetOutput d.gateNode)
      else ({ d with silenceFrames := 0, onsetFrames := d.onsetFrames + 1 }, quietOutput) := by
  unfold Detector.check
  by_cases h : ONSET_DELAY d.gateNode ≤ d.onsetFrames + 1
  · simp [hrun, hs, ha, h, onsetOutput]
  · simp [hrun, hs, ha, h, quietOutput]

theorem check_above_speaking (d : Detector) (t : Nat) (data : List Nat)
    (hrun : d.stopped = false) (hs : d.speaking = true)
    (ha : aboveThreshold d.sampleRate d.fftSize data t = true) :
    d.check t data =
      ({ d with silenceFrames := 0, onsetFrames := d.onsetFrames + 1 }, quietOutput) := by
  unfold Detector.check
  simp [hrun, hs, ha, quietOutput]

theorem check_below_notSpeaking (d : Detector) (t : Nat) (data : List Nat)
    (hrun : d.stopped = false) (hs : d.speaking = false)
    (ha : aboveThreshold d.sampleRate d.fftSize data t = false) :
    d.check t data =
      ({ d with onsetFrames := 0, silenceFrames := d.silenceFrames + 1 }, quietOutput) := by
  unfold Detector.check
  simp [hrun, hs, ha, quietOutput]

theorem run_above_speaking (fs : List (Nat × List Nat)) (d : Detector)
    (hrun : d.stopped = false) (hs : d.speaking = true)
    (habove : ∀ f ∈ fs, aboveThreshold d.sampleRate d.fftSize f.2 f.1 = true) :
    (d.run fs).1.speaking = true ∧ ∀ i, i < fs.length → (d.run fs).2.get? i = some quietOutput := by
  induction fs generalizing d with
  | nil => exact ⟨hs, fun i hi => absurd hi (by simp)⟩
  | cons f rest ih =>
    have hc := check_above_speaking d f.1 f.2 hrun hs (habove f (List.mem_cons_self _ _))
    have ih' := ih (d.check f.1 f.2).1 (by rw [hc]; exact hrun) (by rw [hc]; exact hs)
      (by rw [hc]; exact fun x hx => habove x (List.mem_cons_of_mem _ hx))
    refine ⟨ih'.1, ?_⟩
    intro i hi
    cases i with
    | zero => simp [Detector.run, hc]
    | succ j =>
      have := ih'.2 j (by simpa using hi)
      simpa [Detector.run] using this

theorem run_above_notSpeaking (fs : List (Nat × List Nat)) (d : Detector)
    (hrun : d.stopped = false) (hs : d.speaking = false)
    (habove : ∀ f ∈ fs, aboveThreshold d.sampleRate d.fftSize f.2 f.1 = true) :
    ((d.run fs).1.speaking = decide (ONSET_DELAY d.gateNode - (d.onsetFrames + 1) < fs.length)) ∧
    ∀ i, i < fs.length → (d.run fs).2.get? i =
      some (if i = ONSET_DELAY d.gateNode - (d.onsetFrames + 1) then onsetOutput d.gateNode
        else quietOutput) := by
  induction fs generalizing d with
  | nil => exact ⟨by simp [Detector.run, hs], fun i hi => absurd hi (by simp)⟩
  | cons f rest ih =>
    have hc := check_above_notSpeaking d f.1 f.2 hrun hs (habove f (List.mem_cons_self _ _))
    by_cases h : ONSET_DELAY d.gateNode ≤ d.onsetFrames + 1
    · rw [if_pos h] at hc
      have hz : ONSET_DELAY d.gateNode - (d.onsetFrames + 1) = 0 := by omega
      have sp := run_above_speaking rest (d.check f.1 f.2).1 (by rw [hc]; exact hrun)
        (by rw [hc]) (by rw [hc]; exact fun x hx => habove x (List.mem_cons_of_mem _ hx))
      refine ⟨by simp [Detector.run, sp.1, hz], ?_⟩
      intro i hi
      cases i with
      | zero => simp [Detector.run, hc, hz]
      | succ j =>
        have := sp.2 j (by simpa using hi)
        simpa [Detector.run, hz] using this
    · rw [if_neg h] at hc
      have ih' := ih (d.check f.1 f.2).1 (by rw [hc]; exact hrun) (by rw [hc]; exact hs)
        (by rw [hc]; exact fun x hx => habove x (List.mem_cons_of_mem _ hx))
      have hg : (d.check f.1 f.2).1.gateNode = d.gateNode := by rw [hc]
      have ho : (d.check f.1 f.2).1.onsetFrames = d.onsetFrames + 1 := by rw [hc]
      rw [hg, ho] at ih'
      have hsucc : ONSET_DELAY d.gateNode - (d.onsetFrames + 1) =
          (ONSET_DELAY d.gateNode - (d.onsetFrames + 1 + 1)) + 1 := by omega
      refine ⟨?_, ?_⟩
      · simp only [Detector.run, ih'.1, List.length_cons]
        rw [hsucc]; simp
      · intro i hi
        cases i with
        | zero =>
          have : ¬ (0 = ONSET_DELAY d.gateNode - (d.onsetFrames + 1)) := by omega
          simp [Detector.run, hc, this]
        | succ j =>
          have := ih'.2 j (by simpa using hi)
          simp only [Detector.run, List.get?_cons_succ, this]
          rw [hsucc]; simp

theorem check_static (d : Detector) (t : Nat) (data : List Nat) :
    (d.check t data).1.stopped = d.stopped ∧ (d.check t data).1.sampleRate = d.sampleRate ∧
    (d.check t data).1.fftSize = d.fftSize ∧ (d.check t data).1.gateNode = d.gateNode ∧
    (d.check t data).1.hasGetThreshold = d.hasGetThreshold ∧
    (d.check t data).1.onSpeaking = d.onSpeaking := by
  unfold Detector.check
  split
  · simp
  · split
    · simp only []
      split <;> simp
    · simp only []
      split <;> simp

theorem run_static (fs : List (Nat × List Nat)) (d : Detector) :
    (d.run fs).1.stopped = d.stopped ∧ (d.run fs).1.sampleRate = d.sampleRate ∧
    (d.run fs).1.fftSize = d.fftSize ∧ (d.run fs).1.gateNode = d.gateNode ∧
    (d.run fs).2.length = fs.length := by
  induction fs generalizing d with
  | nil => simp [Detector.run]
  | cons f rest ih =>
    obtain ⟨c1, c2, c3, c4, _⟩ := check_static d f.1 f.2
    obtain ⟨i1, i2, i3, i4, i5⟩ := ih (d.check f.1 f.2).1
    simp only [Detector.run, List.length_cons]
    exact ⟨by rw [i1, c1], by rw [i2, c2], by rw [i3, c3], by rw [i4, c4], by rw [i5]⟩

theorem run_append (a b : List (Nat × List Nat)) (d : Detector) :
    (d.run (a ++ b)).1 = ((d.run a).1.run b).1 ∧
    (d.run (a ++ b)).2 = (d.run a).2 ++ ((d.run a).1.run b).2 := by
  induction a generalizing d with
  | nil => simp [Detector.run]
  | cons f rest ih =>
    obtain ⟨i1, i2⟩ := ih (d.check f.1 f.2).1
    constructor
    · simpa [Detector.run] using i1
    · simpa [Detector.run] using i2

/-- C20: a running detector that is not speaking and has counted no
above-threshold frame yet (as right after creation or after any
below-threshold frame). Over a run of above-threshold frames it calls
`onSpeaking(true)` (and ramps the gate open when one is attached) on exactly one
frame: the third when a gate is attached, the first when none is. A
below-threshold frame after fewer than `ONSET_DELAY` above-threshold frames
leaves every frame of the run without a report, the detector not speaking and
the count reset, so a run of one or two frames with a gate never switches. -/
theorem onset_after_onset_delay (d : Detector) (hrun : d.stopped = false)
    (hs : d.speaking = false) (h0 : d.onsetFrames = 0) :
    (ONSET_DELAY d.gateNode = if d.gateNode.isSome then 3 else 0) ∧
    (∀ fs : List (Nat × List Nat),
      (∀ f ∈ fs, aboveThreshold d.sampleRate d.fftSize f.2 f.1 = true) →
      (∀ i, i < fs.length → (d.run fs).2.get? i =
        some (if i + 1 = max 1 (ONSET_DELAY d.gateNode) then onsetOutput d.gateNode
          else quietOutput)) ∧
      ((d.run fs).1.speaking = decide (max 1 (ONSET_DELAY d.gateNode) ≤ fs.length))) ∧
    (∀ (fs : List (Nat × List Nat)) (t : Nat) (data : List Nat),
      (∀ f ∈ fs, aboveThreshold d.sampleRate d.fftSize f.2 f.1 = true) →
      fs.length < ONSET_DELAY d.gateNode →
      aboveThreshold d.sampleRate d.fftSize data t = false →
      (∀ o ∈ (d.run (fs ++ [(t, data)])).2, o = quietOutput) ∧
      (d.run (fs ++ [(t, data)])).1.speaking = false ∧
      (d.run (fs ++ [(t, data)])).1.onsetFrames = 0 ∧
      (d.run (fs ++ [(t, data)])).1.stopped = false) := by
  refine ⟨rfl, ?_, ?_⟩
  · intro fs habove
    obtain ⟨r1, r2⟩ := run_above_notSpeaking fs d hrun hs habove
    rw [h0] at r1 r2
    constructor
    · intro i hi
      rw [r2 i hi]
      have : (i = ONSET_DELAY d.gateNode - (0 + 1)) ↔ (i + 1 = max 1 (ONSET_DELAY d.gateNode)) := by
        omega
      by_cases hc : i = ONSET_DELAY d.gateNode - (0 + 1)
      · rw [if_pos hc, if_pos (this.mp hc)]
      · rw [if_neg hc, if_neg (fun e => hc (this.mpr e))]
    · rw [r1]
      have : (ONSET_DELAY d.gateNode - (0 + 1) < fs.length) ↔
          (max 1 (ONSET_DELAY d.gateNode) ≤ fs.length) := by omega
      simp only [this]
  · intro fs t data habove hlen hbelow
    obtain ⟨r1, r2⟩ := run_above_notSpeaking fs d hrun hs habove
    rw [h0] at r1 r2
    obtain ⟨s1, s2, s3, _, s5⟩ := run_static fs d
    obtain ⟨a1, a2⟩ := run_append fs [(t, data)] d
    have hns : (d.run fs).1.speaking = false := by
      rw [r1]; simp; omega
    have hb := check_below_notSpeaking (d.run fs).1 t data (by rw [s1]; exact hrun) hns
      (by rw [s2, s3]; exact hbelow)
    have hl1 : ((d.run fs).1.run [(t, data)]).1 = ((d.run fs).1.check t data).1 := rfl
    have hl2 : ((d.run fs).1.run [(t, data)]).2 = [((d.run fs).1.check t data).2] := rfl
    rw [a1, a2, hl1, hl2, hb]
    refine ⟨?_, hns, rfl, by rw [← hrun, ← s1]⟩
    intro o ho
    rcases List.mem_append.mp ho with h | h
    · obtain ⟨i, hi, rfl⟩ := List.getElem_of_mem h
      have hi' : i < fs.length := by rw [← s5]; exact hi
      have := r2 i hi'
      rw [List.get?_eq_getElem?, List.getElem?_eq_getElem hi] at this
      have hne : ¬ (i = ONSET_DELAY d.gateNode - (0 + 1)) := by omega
      rw [if_neg hne] at this
      exact Option.some.inj this
    · simpa using h

/-- A fresh local detector (gate node 0): not speaking, nothing counted. -/
theorem onset_after_onset_delay_witness :
    ((Detector.run ⟨false, 0, 0, false, some 0, true, 48000, 512,
        SpeakingCallback.localMic (some uidA)⟩
      [(20, loudFrame), (20, loudFrame), (20, loudFrame), (20, loudFrame)]).2.get? 2 =
        some (onsetOutput (some 0))) ∧
    ((Detector.run ⟨false, 0, 0, false, some 0, true, 48000, 512,
        SpeakingCallback.localMic (some uidA)⟩
      [(20, loudFrame), (20, loudFrame), (20, loudFrame), (20, loudFrame)]).2.get? 1 =
        some quietOutput) := by
  have h := (onset_after_onset_delay ⟨false, 0, 0, false, some 0, true, 48000, 512,
    SpeakingCallback.localMic (some uidA)⟩ rfl rfl rfl).2.1
    [(20, loudFrame), (20, loudFrame), (20, loudFrame), (20, loudFrame)] (by decide)
  exact ⟨by simpa using h.1 2 (by decide), by simpa using h.1 1 (by decide)⟩

/-! ## Deafen implies mute -/

theorem toggleMute_flags (w : World) :
    (toggleMute w).store.isDeafened = false ∧
    (toggleMute w).store.isMuted = (if w.store.isDeafened then false else !w.store.isMuted) := by
  by_cases hd : w.store.isDeafened = true
  · simp [toggleMute, hd]
  · have hd' : w.store.isDeafened = false := by simpa using hd
    obtain ⟨_, _, _, _, _, c6, _⟩ := clearOwnSpeaking_frame
      (applyMute w w.store._muteCallback w.store.localStream (!w.store.isMuted))
    obtain ⟨a1, _, _⟩ := applyMute_store w w.store._muteCallback w.store.localStream
      (!w.store.isMuted)
    unfold toggleMute
    simp only [hd', Bool.false_eq_true, if_false]
    refine ⟨?_, trivial⟩
    split
    · simp only [c6, a1, hd']
    · simp only [a1, hd']

theorem toggleDeafen_flags (w : World) :
    (toggleDeafen w).store.isDeafened = true → (toggleDeafen w).store.isMuted = true := by
  by_cases hd : w.store.isDeafened = true
  · intro h
    rw [(toggleDeafen_undeafen w hd).1] at h
    exact absurd h (by decide)
  · intro _
    exact (toggleDeafen_deafen w (by simpa using hd)).2.1

theorem joinVoiceChannel_flags (w : World) (g c : JsString) (ok : Bool) :
    joinVoiceChannel w g c ok = w ∨
    ((joinVoiceChannel w g c ok).store.isMuted = false ∧
      (joinVoiceChannel w g c ok).store.isDeafened = false ∧
      (joinVoiceChannel w g c ok).store.inVoice = true) := by
  unfold joinVoiceChannel
  cases truthyUid w.authUid with
  | none => exact Or.inl rfl
  | some uid =>
    cases ok with
    | false => exact Or.inl rfl
    | true => exact Or.inr ⟨rfl, rfl, rfl⟩

theorem leaveVoiceChannel_flags (w : World) :
    (leaveVoiceChannel w).store.isMuted = false ∧
    (leaveVoiceChannel w).store.isDeafened = false ∧
    (leaveVoiceChannel w).store.inVoice = false := ⟨rfl, rfl, rfl⟩

theorem voiceAction_preserves (w : World) (a : VoiceAction)
    (h : w.store.isDeafened = true → w.store.isMuted = true) :
    (a.step w).store.isDeafened = true → (a.step w).store.isMuted = true := by
  cases a with
  | toggleMute =>
    intro hd
    rw [show VoiceAction.toggleMute.step w = toggleMute w from rfl, (toggleMute_flags w).1] at hd
    exact absurd hd (by decide)
  | toggleDeafen => exact toggleDeafen_flags w
  | joinVoiceChannel g c ok =>
    show (joinVoiceChannel w g c ok).store.isDeafened = true →
      (joinVoiceChannel w g c ok).store.isMuted = true
    rcases joinVoiceChannel_flags w g c ok with e | ⟨_, e2, _⟩
    · rw [e]; exact h
    · intro hd; rw [e2] at hd; exact absurd hd (by decide)
  | leaveVoiceChannel =>
    intro hd
    rw [show VoiceAction.leaveVoiceChannel.step w = leaveVoiceChannel w from rfl,
      (leaveVoiceChannel_flags w).2.1] at hd
    exact absurd hd (by decide)

/-- C18: a freshly joined session has both flags cleared, and from every state
in which deafened implies muted, every sequence of `toggleMute`, `toggleDeafen`,
`joinVoiceChannel` and `leaveVoiceChannel` leads to a state in which deafened
implies muted. -/
theorem deafen_implies_mute (w : World) (g c : JsString) (as : List VoiceAction)
    (huid : truthyUid w.authUid ≠ none) :
    ((joinVoiceChannel w g c true).store.inVoice = true ∧
      (joinVoiceChannel w g c true).store.isMuted = false ∧
      (joinVoiceChannel w g c true).store.isDeafened = false) ∧
    ((runVoiceActions (joinVoiceChannel w g c true) as).store.isDeafened = true →
      (runVoiceActions (joinVoiceChannel w g c true) as).store.isMuted = true) := by
  have hfresh : (joinVoiceChannel w g c true).store.inVoice = true ∧
      (joinVoiceChannel w g c true).store.isMuted = false ∧
      (joinVoiceChannel w g c true).store.isDeafened = false := by
    unfold joinVoiceChannel
    cases hu : truthyUid w.authUid with
    | none => exact absurd hu huid
    | some uid => exact ⟨rfl, rfl, rfl⟩
  refine ⟨hfresh, ?_⟩
  have hinv : ∀ (l : List VoiceAction) (v : World),
      (v.store.isDeafened = true → v.store.isMuted = true) →
      (runVoiceActions v l).store.isDeafened = true →
        (runVoiceActions v l).store.isMuted = true := by
    intro l
    induction l with
    | nil => intro v hv; exact hv
    | cons a rest ih =>
      intro v hv
      exact ih (a.step v) (voiceAction_preserves v a hv)
  exact hinv as _ (fun hd => by rw [hfresh.2.2] at hd; exact absurd hd (by decide))

theorem deafen_implies_mute_witness :
    (runVoiceActions (joinVoiceChannel (initialWorld (some uidA)) [103] [99] true)
      [VoiceAction.toggleMute, VoiceAction.toggleDeafen]).store.isDeafened = true ∧
    (runVoiceActions (joinVoiceChannel (initialWorld (some uidA)) [103] [99] true)
      [VoiceAction.toggleMute, VoiceAction.toggleDeafen]).store.isMuted = true :=
  ⟨by decide, (deafen_implies_mute (initialWorld (some uidA)) [103] [99]
    [VoiceAction.toggleMute, VoiceAction.toggleDeafen] (by decide)).2 (by decide)⟩

/-! ## A muted user never shows as speaking -/

theorem setSpeaking_entry (w : World) (u : Uid) (b : Bool) :
    (b = true → objGet (setSpeaking w u b).store.speakingUsers u = some true) ∧
    (b = false → objGet (setSpeaking w u b).store.speakingUsers u ≠ some true) ∧
    (setSpeaking w u b).store.isMuted = w.store.isMuted ∧
    (setSpeaking w u b).store.isDeafened = w.store.isDeafened := by
  unfold setSpeaking
  by_cases hs : objGet w.store.speakingUsers u = some true
  · cases b with
    | true => simp [hs]
    | false => simp [hs, objGet_objDel_same]
  · cases b with
    | true => simp [hs, objGet_objSet_same]
    | false => simp [hs]

theorem clearOwnSpeaking_entry (w : World) (uid : Uid) (huid : truthyUid w.authUid = some uid) :
    objGet (clearOwnSpeaking w).store.speakingUsers uid ≠ some true := by
  unfold clearOwnSpeaking
  rw [huid]
  exact (setSpeaking_entry w uid false).2.1 rfl

theorem localMic_call_entry (w : World) (uid : Uid) (b : Bool) :
    ((SpeakingCallback.localMic (some uid)).call w b).store.isMuted = w.store.isMuted ∧
    ((SpeakingCallback.localMic (some uid)).call w b).store.isDeafened = w.store.isDeafened ∧
    ((w.store.isMuted = true ∨ w.store.isDeafened = true) →
      objGet ((SpeakingCallback.localMic (some uid)).call w b).store.speakingUsers uid
        ≠ some true) := by
  unfold SpeakingCallback.call
  simp only [keyOf]
  have he : (w.emit (Effect.onSpeaking (SpeakingCallback.localMic (some uid)) b)).store
      = w.store := rfl
  by_cases hm : (w.store.isMuted || w.store.isDeafened) = true
  · obtain ⟨_, s2, s3, s4⟩ := setSpeaking_entry
      (w.emit (Effect.onSpeaking (SpeakingCallback.localMic (some uid)) b)) uid false
    simp only [he, hm, if_true]
    exact ⟨by rw [s3, he], by rw [s4, he], fun _ => s2 rfl⟩
  · obtain ⟨_, _, s3, s4⟩ := setSpeaking_entry
      (w.emit (Effect.onSpeaking (SpeakingCallback.localMic (some uid)) b)) uid b
    simp only [he, hm, Bool.false_eq_true, if_false]
    refine ⟨by rw [s3, he], by rw [s4, he], fun h => ?_⟩
    exfalso
    apply hm
    rcases h with h | h <;> simp [h]

theorem applyRamp_store (w : World) (g : Option Nat) (r : Option Ramp) :
    (applyRamp w g r).store = w.store ∧ (applyRamp w g r).authUid = w.authUid := by
  cases g <;> cases r <;> exact ⟨rfl, rfl⟩

theorem localDetectorFrame_store (w : World) (d : Detector) (data : List Nat)
    (hd : w.eng.localSpeakingDetector = some d) :
    (localDetectorFrame w data).store =
      (notifySpeaking w d.onSpeaking (d.check (d.readThreshold w) data).2.onSpeaking).store ∧
    (localDetectorFrame w data).authUid = w.authUid ∧
    (∃ d', (localDetectorFrame w data).eng.localSpeakingDetector = some d' ∧
      d'.onSpeaking = d.onSpeaking) := by
  obtain ⟨f1, _⟩ := localDetectorFrame_spec w d data hd
  refine ⟨?_, ?_, ⟨_, by rw [f1], (check_static d _ _).2.2.2.2.2⟩⟩
  · unfold localDetectorFrame runCheck
    simp only [hd, (applyRamp_store _ _ _).1]
  · unfold localDetectorFrame
    simp only [hd, (runCheck_eq w d data).2.2.1]

/-- One step keeps the invariant of the signed-in user `uid`: the toggles and
the local detector refer to `uid`, and the speaking entry of `uid` is set only
while the user is neither muted nor deafened. -/
theorem micAction_preserves (uid : Uid) (w : World) (a : MicAction)
    (huid : truthyUid w.authUid = some uid)
    (hdet : ∀ d, w.eng.localSpeakingDetector = some d →
      d.onSpeaking = SpeakingCallback.localMic (some uid))
    (hinv : objGet w.store.speakingUsers uid = some true →
      w.store.isMuted = false ∧ w.store.isDeafened = false) :
    truthyUid (a.step w).authUid = some uid ∧
    (∀ d, (a.step w).eng.localSpeakingDetector = some d →
      d.onSpeaking = SpeakingCallback.localMic (some uid)) ∧
    (objGet (a.step w).store.speakingUsers uid = some true →
      (a.step w).store.isMuted = false ∧ (a.step w).store.isDeafened = false) := by
  cases a with
  | frame t data =>
    show truthyUid (localDetectorFrame (setVadThreshold w t) data).authUid = some uid ∧ _ ∧ _
    cases hd : w.eng.localSpeakingDetector with
    | none =>
      have hsame : localDetectorFrame (setVadThreshold w t) data = setVadThreshold w t := by
        unfold localDetectorFrame
        have : (setVadThreshold w t).eng.localSpeakingDetector = none := hd
        simp only [this]
      simp only [MicAction.step, hsame]
      exact ⟨huid, fun d h => hdet d h, hinv⟩
    | some d =>
      have hd' : (setVadThreshold w t).eng.localSpeakingDetector = some d := hd
      obtain ⟨s1, s2, ⟨d', s3, s4⟩⟩ := localDetectorFrame_store (setVadThreshold w t) d data hd'
      have hcb : d.onSpeaking = SpeakingCallback.localMic (some uid) := hdet d hd
      simp only [MicAction.step]
      refine ⟨by rw [s2]; exact huid, ?_, ?_⟩
      · intro x hx
        rw [s3] at hx
        rw [← Option.some.inj hx, s4, hcb]
      · rw [s1, hcb]
        cases ho : (d.check (d.readThreshold (setVadThreshold w t)) data).2.onSpeaking with
        | none => exact hinv
        | some b =>
          simp only [notifySpeaking]
          obtain ⟨c1, c2, c3⟩ := localMic_call_entry (setVadThreshold w t) uid b
          intro hsp
          rw [c1, c2]
          have hm : (setVadThreshold w t).store.isMuted = w.store.isMuted := rfl
          have hdf : (setVadThreshold w t).store.isDeafened = w.store.isDeafened := rfl
          rw [hm, hdf] at c3 ⊢
          by_cases hmu : w.store.isMuted = true
          · exact absurd hsp (c3 (Or.inl hmu))
          · by_cases hde : w.store.isDeafened = true
            · exact absurd hsp (c3 (Or.inr hde))
            · exact ⟨by simpa using hmu, by simpa using hde⟩
  | toggleMute =>
    show truthyUid (toggleMute w).authUid = some uid ∧ _ ∧ _
    obtain ⟨t1, _⟩ := (toggle_frame w).1
    obtain ⟨f1, f2⟩ := toggleMute_flags w
    have hauth : ∀ b, (clearOwnSpeaking (applyMute w w.store._muteCallback w.store.localStream
        b)).authUid = w.authUid ∧
        (applyMute w w.store._muteCallback w.store.localStream b).authUid = w.authUid := by
      intro b
      obtain ⟨_, _, _, c4, _⟩ := clearOwnSpeaking_frame
        (applyMute w w.store._muteCallback w.store.localStream b)
      have a3 := (applyMute_store w w.store._muteCallback w.store.localStream b).2.2
      exact ⟨by rw [c4, a3], a3⟩
    have hclear : ∀ b, objGet (clearOwnSpeaking (applyMute w w.store._muteCallback
        w.store.localStream b)).store.speakingUsers uid ≠ some true := by
      intro b
      exact clearOwnSpeaking_entry _ uid (by rw [(hauth b).2]; exact huid)
    simp only [MicAction.step]
    refine ⟨?_, fun d h => hdet d (by rw [← t1]; exact h), ?_⟩
    · unfold toggleMute
      simp only []
      split
      · simp only [(hauth false).1]; exact huid
      · split
        · simp only [(hauth _).1]; exact huid
        · simp only [(hauth _).2]; exact huid
    · intro hsp
      by_cases hd : w.store.isDeafened = true
      · exfalso
        apply hclear false
        simpa [toggleMute, hd] using hsp
      · have hd' : w.store.isDeafened = false := by simpa using hd
        rw [f1, f2]
        simp only [hd', Bool.false_eq_true, if_false]
        refine ⟨?_, trivial⟩
        by_cases hm : w.store.isMuted = true
        · -- unmuting: the entry is as before, and was not set
          exfalso
          have hst := (applyMute_store w w.store._muteCallback w.store.localStream false).1
          have : objGet w.store.speakingUsers uid = some true := by
            simpa [toggleMute, hd', hm, hst] using hsp
          have := (hinv this).1
          rw [hm] at this
          exact absurd this (by decide)
        · exfalso
          have hm' : w.store.isMuted = false := by simpa using hm
          apply hclear true
          simpa [toggleMute, hd', hm'] using hsp
  | toggleDeafen =>
    show truthyUid (toggleDeafen w).authUid = some uid ∧ _ ∧ _
    obtain ⟨t1, _⟩ := (toggle_frame w).2
    simp only [MicAction.step]
    have hauth : ∀ b, (clearOwnSpeaking (applyMute w w.store._muteCallback w.store.localStream
        b)).authUid = w.authUid ∧
        (applyMute w w.store._muteCallback w.store.localStream b).authUid = w.authUid := by
      intro b
      obtain ⟨_, _, _, c4, _⟩ := clearOwnSpeaking_frame
        (applyMute w w.store._muteCallback w.store.localStream b)
      have a3 := (applyMute_store w w.store._muteCallback w.store.localStream b).2.2
      exact ⟨by rw [c4, a3], a3⟩
    refine ⟨?_, fun d h => hdet d (by rw [← t1]; exact h), ?_⟩
    · unfold toggleDeafen
      simp only []
      split
      · simp only [(hauth _).2]; exact huid
      · simp only [(hauth _).1]; exact huid
    · intro hsp
      exfalso
      by_cases hd : w.store.isDeafened = true
      · have hst := (applyMute_store w w.store._muteCallback w.store.localStream
          w.store._wasMutedBeforeDeafen).1
        have : objGet w.store.speakingUsers uid = some true := by
          simpa [toggleDeafen, hd, hst] using hsp
        have := (hinv this).2
        rw [hd] at this
        exact absurd this (by decide)
      · have hd' : w.store.isDeafened = false := by simpa using hd
        apply clearOwnSpeaking_entry (applyMute w w.store._muteCallback w.store.localStream true)
          uid (by rw [(hauth true).2]; exact huid)
        simpa [toggleDeafen, hd'] using hsp

/-- C19: for the signed-in user `uid` whose local detector reports for `uid`,
from a state in which the speaking entry of `uid` is set only while neither
muted nor deafened, every sequence of detector frames, `toggleMute` and
`toggleDeafen` leads to such a state; muting and deafening leave the entry
cleared; and a detector report made while muted or deafened, whatever it
reports, leaves the entry cleared. -/
theorem muted_user_never_speaking (uid : Uid) (w : World) (as : List MicAction)
    (huid : truthyUid w.authUid = some uid)
    (hdet : ∀ d, w.eng.localSpeakingDetector = some d →
      d.onSpeaking = SpeakingCallback.localMic (some uid))
    (hinv : objGet w.store.speakingUsers uid = some true →
      w.store.isMuted = false ∧ w.store.isDeafened = false) :
    (objGet (runMicActions w as).store.speakingUsers uid = some true →
      (runMicActions w as).store.isMuted = false ∧
      (runMicActions w as).store.isDeafened = false) ∧
    (w.store.isDeafened = false → w.store.isMuted = false →
      (toggleMute w).store.isMuted = true ∧
      objGet (toggleMute w).store.speakingUsers uid ≠ some true) ∧
    (w.store.isDeafened = false →
      (toggleDeafen w).store.isDeafened = true ∧
      objGet (toggleDeafen w).store.speakingUsers uid ≠ some true) ∧
    ((w.store.isMuted = true ∨ w.store.isDeafened = true) → ∀ b,
      objGet ((SpeakingCallback.localMic (some uid)).call w b).store.speakingUsers uid
        ≠ some true) := by
  have hrun : ∀ (l : List MicAction) (v : World), truthyUid v.authUid = some uid →
      (∀ d, v.eng.localSpeakingDetector = some d →
        d.onSpeaking = SpeakingCallback.localMic (some uid)) →
      (objGet v.store.speakingUsers uid = some true →
        v.store.isMuted = false ∧ v.store.isDeafened = false) →
      (objGet (runMicActions v l).store.speakingUsers uid = some true →
        (runMicActions v l).store.isMuted = false ∧
        (runMicActions v l).store.isDeafened = false) := by
    intro l
    induction l with
    | nil => intro v _ _ h; exact h
    | cons a rest ih =>
      intro v h1 h2 h3
      obtain ⟨p1, p2, p3⟩ := micAction_preserves uid v a h1 h2 h3
      exact ih (a.step v) p1 p2 p3
  refine ⟨hrun as w huid hdet hinv, ?_, ?_, fun h b => (localMic_call_entry w uid b).2.2 h⟩
  · intro hd hm
    obtain ⟨_, f2⟩ := toggleMute_flags w
    obtain ⟨_, _, p3⟩ := micAction_preserves uid w MicAction.toggleMute huid hdet hinv
    have hmu : (toggleMute w).store.isMuted = true := by rw [f2, hd, hm]; rfl
    refine ⟨hmu, fun hsp => ?_⟩
    have := (p3 hsp).1
    rw [show MicAction.toggleMute.step w = toggleMute w from rfl, hmu] at this
    exact absurd this (by decide)
  · intro hd
    obtain ⟨d1, _⟩ := toggleDeafen_deafen w hd
    obtain ⟨_, _, p3⟩ := micAction_preserves uid w MicAction.toggleDeafen huid hdet hinv
    refine ⟨d1, fun hsp => ?_⟩
    have := (p3 hsp).2
    rw [show MicAction.toggleDeafen.step w = toggleDeafen w from rfl, d1] at this
    exact absurd this (by decide)

theorem muted_user_never_speaking_witness :
    objGet (runMicActions startedWorldA
      [MicAction.frame 20 loudFrame, MicAction.frame 20 loudFrame,
       MicAction.frame 20 loudFrame]).store.speakingUsers uidA = some true ∧
    objGet (runMicActions startedWorldA
      [MicAction.frame 20 loudFrame, MicAction.frame 20 loudFrame,
       MicAction.frame 20 loudFrame, MicAction.toggleMute]).store.speakingUsers uidA = none ∧
    (objGet mutedSpeakingWorldA.store.speakingUsers uidA = some true →
      mutedSpeakingWorldA.store.isMuted = false ∧
      mutedSpeakingWorldA.store.isDeafened = false) :=
  ⟨by decide, by decide,
   (muted_user_never_speaking uidA startedWorldA
    [MicAction.toggleMute, MicAction.frame 20 loudFrame, MicAction.frame 20 loudFrame,
     MicAction.frame 20 loudFrame] (by decide) (by decide) (by decide)).1⟩

/-! ## Failure of `startVoice` -/

theorem stopTracks_spec (w : World) (st : MediaStream) :
    (stopTracks w st).eng = w.eng ∧ (stopTracks w st).store = w.store ∧
    (stopTracks w st).browser.resilience = w.browser.resilience ∧
    (stopTracks w st).browser.closedContexts = w.browser.closedContexts ∧
    (stopTracks w st).browser.stoppedTracks = w.browser.stoppedTracks ++ st.tracks.map Track.id :=
  ⟨rfl, rfl, rfl, rfl, rfl⟩

theorem createAudioPipeline_failure (w : World) (ctx : Nat) (o : PipelineOutcome)
    (h : (createAudioPipeline w ctx o).2 = none) :
    (createAudioPipeline w ctx o).1.browser = w.browser ∧
    (createAudioPipeline w ctx o).1.store = w.store ∧
    (createAudioPipeline w ctx o).1.eng.cleanupResilience = w.eng.cleanupResilience ∧
    (createAudioPipeline w ctx o).1.eng.currentRawStream = w.eng.currentRawStream := by
  unfold createAudioPipeline at h ⊢
  by_cases h1 : o.sourceOk = true
  · by_cases h2 : w.eng.workletLoaded = true
    · by_cases h4 : o.workletNodeOk = true
      · simp [h1, h2, h4] at h
      · simp [h1, h2, h4]
    · by_cases h3 : o.addModuleOk = true
      · by_cases h4 : o.workletNodeOk = true
        · simp [h1, h2, h3, h4] at h
        · simp [h1, h2, h3, h4, World.emit]
      · simp [h1, h2, h3, World.emit]
  · simp [h1]

/-- On a pipeline failure `startVoice` returns false with the active flag
cleared, the raw tracks stopped and the context closed, and leaves the
registrations of `setupAudioResilience` and the variables `cleanupResilience`
and `currentRawStream` exactly as they were before the pipeline was built. -/
theorem startVoicePipeline_failure (w : World) (uid : Uid) (raw : MediaStream) (ctx : Nat)
    (env : StartEnv) (h : (createAudioPipeline w ctx env.pipeline).2 = none) :
    (startVoicePipeline w uid raw ctx env).1 = false ∧
    (startVoicePipeline w uid raw ctx env).2.eng.voiceActive = false ∧
    (startVoicePipeline w uid raw ctx env).2.eng.audioContext = none ∧
    (startVoicePipeline w uid raw ctx env).2.browser.closedContexts =
      w.browser.closedContexts ++ [ctx] ∧
    (startVoicePipeline w uid raw ctx env).2.browser.stoppedTracks =
      w.browser.stoppedTracks ++ raw.tracks.map Track.id ∧
    (startVoicePipeline w uid raw ctx env).2.browser.resilience = w.browser.resilience ∧
    (startVoicePipeline w uid raw ctx env).2.eng.cleanupResilience = w.eng.cleanupResilience ∧
    (startVoicePipeline w uid raw ctx env).2.eng.currentRawStream = w.eng.currentRawStream := by
  obtain ⟨f1, _, f3, f4⟩ := createAudioPipeline_failure w ctx env.pipeline h
  unfold startVoicePipeline
  simp only [h, stopTracks, World.emit, f1, f3, f4]
  exact ⟨trivial, trivial, trivial, trivial, trivial, trivial, trivial, trivial⟩

/-- C11 (the code at the failing input): user `a` has joined, the microphone is
granted, and loading the worklet module fails. `startVoice` returns false with
the active flag cleared, the raw track 101 stopped and the audio context 1
closed, but the resilience registration of context 1 (three document listeners
and the interval) is still active and `cleanupResilience` still set. When the
microphone is refused nothing is left. -/
theorem startVoice_pipeline_failure_leaks_resilience :
    (startVoice (joinedWorld uidA [presenceOf uidA]) [103] [99] failingPipelineEnv).1 = false ∧
    (startVoice (joinedWorld uidA [presenceOf uidA]) [103] [99]
      failingPipelineEnv).2.eng.voiceActive = false ∧
    (startVoice (joinedWorld uidA [presenceOf uidA]) [103] [99]
      failingPipelineEnv).2.browser.stoppedTracks = [101] ∧
    (startVoice (joinedWorld uidA [presenceOf uidA]) [103] [99]
      failingPipelineEnv).2.browser.closedContexts = [1] ∧
    (startVoice (joinedWorld uidA [presenceOf uidA]) [103] [99]
      failingPipelineEnv).2.eng.audioContext = none ∧
    (startVoice (joinedWorld uidA [presenceOf uidA]) [103] [99]
      failingPipelineEnv).2.browser.resilience = [1] ∧
    (startVoice (joinedWorld uidA [presenceOf uidA]) [103] [99]
      failingPipelineEnv).2.eng.cleanupResilience = some 1 ∧
    (startVoice (joinedWorld uidA [presenceOf uidA]) [103] [99] failingMicEnv).1 = false ∧
    (startVoice (joinedWorld uidA [presenceOf uidA]) [103] [99]
      failingMicEnv).2.eng.voiceActive = false ∧
    (startVoice (joinedWorld uidA [presenceOf uidA]) [103] [99]
      failingMicEnv).2.browser = (joinedWorld uidA [presenceOf uidA]).browser := by
  decide

/-! ## The reconnect timer -/

theorem connectionsCreated_append (l1 l2 : List Effect) :
    connectionsCreated (l1 ++ l2) = connectionsCreated l1 ++ connectionsCreated l2 := by
  induction l1 with
  | nil => rfl
  | cons e rest ih => cases e <;> simp [connectionsCreated, ih]

theorem docsWritten_append (l1 l2 : List Effect) :
    docsWritten (l1 ++ l2) = docsWritten l1 ++ docsWritten l2 := by
  induction l1 with
  | nil => rfl
  | cons e rest ih => cases e <;> simp [docsWritten, ih]

theorem removePeer_created (w : World) (p : Uid) :
    connectionsCreated (removePeer w p).log = connectionsCreated w.log := by
  rw [removePeer_log]
  cases objGet w.store.peerConnections p <;> cases objGet w.eng.speakingDetectors p <;>
    simp [connectionsCreated_append, connectionsCreated]

theorem addScreenTracks_created (w : World) (p : Uid) (pcId : Nat) (isOff : Bool) :
    connectionsCreated (addScreenTracks w p pcId isOff).log = connectionsCreated w.log := by
  unfold addScreenTracks
  split
  · split
    · rfl
    · cases hq : objGet w.store.peerConnections p <;>
        simp [World.emit, connectionsCreated_append, connectionsCreated]
  · rfl

theorem addDoc_created (w : World) (t : DocType) (r : Uid) (env : SigEnv) :
    connectionsCreated (addDoc w t r env).1.log = connectionsCreated w.log := by
  unfold addDoc
  split
  · simp [World.emit, connectionsCreated_append, connectionsCreated]
  · rfl

theorem peerSetup_offerer_created (w : World) (p : Uid) (pc : RTCPeerConnection)
    (sdp : Option Sdp) (env : SigEnv) :
    connectionsCreated (peerSetup w p pc true sdp env).1.log = connectionsCreated w.log := by
  unfold peerSetup
  simp only [if_true]
  split
  · rw [setLocalDescription_log]
  · rw [addDoc_created, setLocalDescription_log]

theorem createPeerConnection_offerer_created (w : World) (p : Uid) (ls : Option MediaStream)
    (sdp : Option Sdp) (env : SigEnv) :
    connectionsCreated (createPeerConnection w p ls true sdp env).1.log =
      connectionsCreated w.log ++ [p] := by
  have hn : connectionsCreated (newPeerConnection w p ls true).1.log =
      connectionsCreated w.log ++ [p] := by
    unfold newPeerConnection
    simp [World.emit, connectionsCreated_append, connectionsCreated]
  have s1 := peerSetup_offerer_created (newPeerConnection w p ls true).1 p
    (newPeerConnection w p ls true).2 sdp env
  unfold createPeerConnection
  simp only []
  split
  · rw [removePeer_created, s1, hn]
  · rw [addScreenTracks_created, s1, hn]

/-- C15: when the reconnect timer of `p` fires, exactly one connection to `p`
is created if the session is active, the store says the user is in voice, `p`
is in the store's list of present users and the local identifier is smaller
than `p`; otherwise no connection object is created, no document is written
and the store is unchanged. So a connection is created only if the session is
active, `p` is still listed and the local identifier is smaller. -/
theorem reconnect_timer_creates_only_if_present (w : World) (t : Nat) (p : Uid)
    (env : SigEnv) :
    (connectionsCreated (reconnectTimerFired w t p env).log =
      connectionsCreated w.log ++
        (if w.eng.voiceActive && w.store.inVoice &&
            w.store.voiceUsers.any (fun u => decide (u.uid = p)) && offersTo w.authUid p
          then [p] else [])) ∧
    (connectionsCreated (reconnectTimerFired w t p env).log ≠ connectionsCreated w.log →
      w.eng.voiceActive = true ∧ (∃ u ∈ w.store.voiceUsers, u.uid = p) ∧
      ∃ uid, w.authUid = some uid ∧ isOfferer uid p = true) ∧
    ((w.eng.voiceActive = false ∨ (¬ ∃ u ∈ w.store.voiceUsers, u.uid = p) ∨
        offersTo w.authUid p = false) →
      (reconnectTimerFired w t p env).log = w.log ∧
      (reconnectTimerFired w t p env).store = w.store) := by
  have hmain : connectionsCreated (reconnectTimerFired w t p env).log =
      connectionsCreated w.log ++
        (if w.eng.voiceActive && w.store.inVoice &&
            w.store.voiceUsers.any (fun u => decide (u.uid = p)) && offersTo w.authUid p
          then [p] else []) := by
    unfold reconnectTimerFired
    simp only []
    by_cases h1 : w.eng.voiceActive = true
    · by_cases h2 : w.store.inVoice = true
      · by_cases h3 : w.store.voiceUsers.any (fun u => decide (u.uid = p)) = true
        · by_cases h4 : offersTo w.authUid p = true
          · simp only [h1, h2, h3, h4, Bool.not_true, Bool.or_self, Bool.false_eq_true, if_false,
              if_true, Bool.and_self]
            rw [createPeerConnection_offerer_created]
          · simp [h1, h2, h3, h4]
        · simp [h1, h2, h3]
      · simp [h1, h2]
    · simp [h1]
  refine ⟨hmain, ?_, ?_⟩
  · intro hne
    rw [hmain] at hne
    by_cases hc : (w.eng.voiceActive && w.store.inVoice &&
        w.store.voiceUsers.any (fun u => decide (u.uid = p)) && offersTo w.authUid p) = true
    · simp only [Bool.and_eq_true] at hc
      obtain ⟨⟨⟨c1, _⟩, c3⟩, c4⟩ := hc
      refine ⟨c1, (any_uid_iff _ p).mp c3, ?_⟩
      cases ha : w.authUid with
      | none => rw [ha] at c4; simp [offersTo] at c4
      | some uid => rw [ha] at c4; exact ⟨uid, rfl, by simpa [offersTo] using c4⟩
    · rw [if_neg hc] at hne
      exact absurd (List.append_nil _) hne
  · intro hcase
    unfold reconnectTimerFired
    simp only []
    by_cases h1 : w.eng.voiceActive = true
    · by_cases h2 : w.store.inVoice = true
      · by_cases h3 : w.store.voiceUsers.any (fun u => decide (u.uid = p)) = true
        · by_cases h4 : offersTo w.authUid p = true
          · exfalso
            rcases hcase with c | c | c
            · rw [h1] at c; exact absurd c (by decide)
            · exact c ((any_uid_iff _ p).mp h3)
            · rw [h4] at c; exact absurd c (by decide)
          · simp [h1, h2, h3, h4]
        · simp [h1, h2, h3]
      · simp [h1, h2]
    · simp [h1]

/-- User `a` after the connection to `b` failed once: the reconnect timer 11
is pending. -/
theorem reconnect_timer_creates_only_if_present_witness :
    connectionsCreated (reconnectTimerFired
      (onconnectionstatechange offeringWorldA uidB 10 ConnectionState.failed) 11 uidB
      okSigEnv).log ≠
      connectionsCreated
        (onconnectionstatechange offeringWorldA uidB 10 ConnectionState.failed).log ∧
    (onconnectionstatechange offeringWorldA uidB 10 ConnectionState.failed).eng.voiceActive
      = true :=
  ⟨by decide,
   ((reconnect_timer_creates_only_if_present
      (onconnectionstatechange offeringWorldA uidB 10 ConnectionState.failed) 11 uidB
      okSigEnv).2.1 (by decide)).1⟩

/-! ## Giving up on a peer -/

theorem isOfferer_ne (a b : Uid) (h : isOfferer a b = true) : b ≠ a := by
  intro e
  subst e
  have := jsLt_irrefl b
  simp [isOfferer, this] at h

theorem handlePeerReconnect_giveUp (w : World) (p : Uid)
    (h : 3 ≤ (objGet w.eng.reconnectAttempts p).getD 0) :
    (handlePeerReconnect w p).eng.voiceActive = w.eng.voiceActive ∧
    offersInitiated (handlePeerReconnect w p).log = offersInitiated w.log := by
  have h3 : (objGet w.eng.reconnectAttempts p).getD 0 + 1 > MAX_RECONNECT_ATTEMPTS := by
    simp only [MAX_RECONNECT_ATTEMPTS]; omega
  unfold handlePeerReconnect
  simp only [h3, if_true]
  exact ⟨by rw [removePeer_voiceActive], by rw [removePeer_offers]⟩

/-- C16 (the code at a concrete run): user `a` offered to `b`, the connection
failed four times (recreated by the reconnect timer in between), so the fourth
failure exceeded the limit: the attempt counter is 4, the connection is removed
and no timer is pending. The next presence snapshot that still lists `b` makes
`a` initiate a connection to `b` again. -/
theorem abandoned_peer_offered_again :
    objGet abandonedWorldA.eng.reconnectAttempts uidB = some 4 ∧
    objGet abandonedWorldA.store.peerConnections uidB = none ∧
    abandonedWorldA.browser.timers = [] ∧
    abandonedWorldA.eng.voiceActive = true ∧
    offersInitiated (onPresenceSnapshot uidA abandonedWorldA
      [presenceOf uidA, presenceOf uidB] (fun _ => okSigEnv)).log =
      offersInitiated abandonedWorldA.log ++ [uidB] := by
  decide

/-- C16 (amended): a failure of the connection to `p` that brings the attempt
counter above 3 removes the connection, schedules no reconnect timer and
initiates nothing. There is no record of the abandonment: a later presence
snapshot handled in the active session that lists `p` (not bot-flagged, not
`'eve'`), with the local identifier smaller than `p`, initiates a new
connection to `p`. -/
theorem abandoned_peer_reinitiated_by_presence (uid : Uid) (w : World) (p : Uid)
    (users : List PresenceEntry) (env : Uid → SigEnv)
    (hactive : w.eng.voiceActive = true)
    (hatt : 3 ≤ (objGet w.eng.reconnectAttempts p).getD 0)
    (hpres : ∃ u ∈ users, u.uid = p ∧ u.isBot = false) (heve : p ≠ eveUid)
    (hoff : isOfferer uid p = true) :
    objGet (handlePeerReconnect w p).store.peerConnections p = none ∧
    timersScheduled (handlePeerReconnect w p).log = timersScheduled w.log ∧
    (handlePeerReconnect w p).browser.timers = w.browser.timers ∧
    offersInitiated (handlePeerReconnect w p).log = offersInitiated w.log ∧
    ∃ added, offersInitiated (onPresenceSnapshot uid (handlePeerReconnect w p) users env).log =
        offersInitiated (handlePeerReconnect w p).log ++ added ∧ p ∈ added := by
  obtain ⟨_, s2, _, s4⟩ := handlePeerReconnect_step w p
    ((objGet w.eng.reconnectAttempts p).getD 0 + 1) (by omega) (by omega)
  obtain ⟨t1, t2⟩ := s4 (by omega)
  obtain ⟨g1, g2⟩ := handlePeerReconnect_giveUp w p hatt
  refine ⟨s2, t1, t2, g2, ?_⟩
  obtain ⟨c1, _⟩ := presenceConnect_spec uid (handlePeerReconnect w p).store.peerConnections env
    (otherUsers uid users) (handlePeerReconnect w p)
  obtain ⟨r1, _⟩ := presenceRemove_spec (otherUsers uid users)
    (objKeys (handlePeerReconnect w p).store.peerConnections)
    (presenceConnect uid (handlePeerReconnect w p).store.peerConnections env
      (handlePeerReconnect w p) (otherUsers uid users))
  have hunfold : onPresenceSnapshot uid (handlePeerReconnect w p) users env =
      presenceRemove (otherUsers uid users)
        (presenceConnect uid (handlePeerReconnect w p).store.peerConnections env
          (handlePeerReconnect w p) (otherUsers uid users))
        (objKeys (handlePeerReconnect w p).store.peerConnections) := by
    simp [onPresenceSnapshot, g1, hactive]
  rw [hunfold, r1, c1]
  refine ⟨_, rfl, ?_⟩
  obtain ⟨u, hu, hup, hbot⟩ := hpres
  rw [List.mem_map]
  refine ⟨u, ?_, hup⟩
  rw [List.mem_filter]
  refine ⟨(mem_otherUsers uid users u).mpr
    ⟨hu, by rw [hup]; exact isOfferer_ne uid p hoff, by rw [hup]; exact heve, hbot⟩, ?_⟩
  simp [objHas, hup, s2, hoff]

/-- User `a` after three failed attempts to reach `b`; the fourth failure gives
up, and the next presence snapshot listing `b` offers again. -/
theorem abandoned_peer_reinitiated_by_presence_witness :
    objGet (handlePeerReconnect (failRepeatedly uidB 3 offeringWorldA) uidB).store.peerConnections
      uidB = none ∧
    timersScheduled (handlePeerReconnect (failRepeatedly uidB 3 offeringWorldA) uidB).log =
      timersScheduled (failRepeatedly uidB 3 offeringWorldA).log :=
  have h := abandoned_peer_reinitiated_by_presence uidA (failRepeatedly uidB 3 offeringWorldA)
    uidB [presenceOf uidA, presenceOf uidB] (fun _ => okSigEnv) (by decide) (by decide)
    ⟨presenceOf uidB, by decide, by decide, by decide⟩ (by decide) (by decide)
  ⟨h.1, h.2.1⟩

/-! ## Teardown -/

theorem foldl_objDel_nil {α : Type} (ks : List Uid) (o : Obj α)
    (h : ∀ k, objGet o k ≠ none → k ∈ ks) : ks.foldl objDel o = [] := by
  induction ks generalizing o with
  | nil =>
    cases o with
    | nil => rfl
    | cons e rest =>
      have := h e.1 (by simp [objGet])
      cases this
  | cons k ks ih =>
    rw [List.foldl_cons]
    apply ih
    intro k' hk'
    have h1 : objGet o k' ≠ none := fun e => hk' (objGet_objDel_none o k k' e)
    have h2 : k' ≠ k := by
      intro e
      subst e
      exact hk' (objGet_objDel_same o k')
    rcases List.mem_cons.mp (h k' h1) with e | e
    · exact absurd e h2
    · exact e

theorem objClear_eq {α : Type} (o : Obj α) : objClear o = [] :=
  foldl_objDel_nil _ _ (fun k hk => (mem_objKeys_iff o k).mpr hk)

theorem sendRenegotiationOffer_inactive (w : World) (p : Uid) (pc : RTCPeerConnection)
    (env : SigEnv) (h : w.eng.voiceActive = false) : sendRenegotiationOffer w p pc env = w := by
  simp [sendRenegotiationOffer, h]

theorem sendRenegotiationOffer_frame (w : World) (p : Uid) (pc : RTCPeerConnection)
    (env : SigEnv) :
    (sendRenegotiationOffer w p pc env).eng = w.eng ∧
    (sendRenegotiationOffer w p pc env).browser = w.browser ∧
    (sendRenegotiationOffer w p pc env).authUid = w.authUid := by
  unfold sendRenegotiationOffer setLocalDescription addDoc
  by_cases h1 : w.eng.voiceActive = true <;> by_cases h2 : env.localDescriptionOk = true <;>
    by_cases h3 : env.addDocOk = true <;> simp [h1, h2, h3, World.emit]

theorem stopSharingTo_frame (mic : Option Nat) (env : Uid → SigEnv) (acc : World)
    (e : Uid × RTCPeerConnection) :
    (stopSharingTo mic env acc e).eng = acc.eng ∧
    (stopSharingTo mic env acc e).browser = acc.browser ∧
    (stopSharingTo mic env acc e).authUid = acc.authUid := by
  unfold stopSharingTo
  simp only []
  split
  · exact ⟨rfl, rfl, rfl⟩
  · split
    · obtain ⟨a, b, c⟩ := sendRenegotiationOffer_frame
        { acc with
          store := { acc.store with
            peerConnections := objSet acc.store.peerConnections e.1 (removeScreenTracks mic e.2) }
          log := acc.log ++ (removedTracks mic e.2).map (Effect.removeTrack e.1 e.2.pcId) }
        e.1 (removeScreenTracks mic e.2) (env e.1)
      exact ⟨a, b, c⟩
    · exact ⟨rfl, rfl, rfl⟩

theorem foldl_stopSharingTo_frame (mic : Option Nat) (env : Uid → SigEnv)
    (es : List (Uid × RTCPeerConnection)) (acc : World) :
    (es.foldl (stopSharingTo mic env) acc).eng = acc.eng ∧
    (es.foldl (stopSharingTo mic env) acc).browser = acc.browser ∧
    (es.foldl (stopSharingTo mic env) acc).authUid = acc.authUid := by
  induction es generalizing acc with
  | nil => exact ⟨rfl, rfl, rfl⟩
  | cons e es ih =>
    obtain ⟨a, b, c⟩ := stopSharingTo_frame mic env acc e
    obtain ⟨a1, b1, c1⟩ := ih (stopSharingTo mic env acc e)
    rw [List.foldl_cons]
    exact ⟨a1.trans a, b1.trans b, c1.trans c⟩

theorem stopSharingTo_inactive (mic : Option Nat) (env : Uid → SigEnv) (acc : World)
    (e : Uid × RTCPeerConnection) (h : acc.eng.voiceActive = false) :
    ∃ pcs, stopSharingTo mic env acc e =
      { acc with store := { acc.store with peerConnections := pcs }
                 log := acc.log ++ sharingStops mic e } := by
  unfold stopSharingTo sharingStops
  by_cases hc : e.2.connectionState = ConnectionState.closed
  · exact ⟨acc.store.peerConnections, by simp [hc]⟩
  · exact ⟨objSet acc.store.peerConnections e.1 (removeScreenTracks mic e.2), by simp [hc, h]⟩

theorem foldl_stopSharingTo_inactive (mic : Option Nat) (env : Uid → SigEnv)
    (es : List (Uid × RTCPeerConnection)) (acc : World) (h : acc.eng.voiceActive = false) :
    ∃ pcs, es.foldl (stopSharingTo mic env) acc =
      { acc with store := { acc.store with peerConnections := pcs }
                 log := acc.log ++ es.foldr (fun e l => sharingStops mic e ++ l) [] } := by
  induction es generalizing acc with
  | nil => exact ⟨acc.store.peerConnections, by simp⟩
  | cons e es ih =>
    obtain ⟨pcs1, h1⟩ := stopSharingTo_inactive mic env acc e h
    rw [List.foldl_cons, h1]
    obtain ⟨pcs2, h2⟩ := ih
      { acc with store := { acc.store with peerConnections := pcs1 }
                 log := acc.log ++ sharingStops mic e } h
    exact ⟨pcs2, by rw [h2]; simp [List.append_assoc]⟩

theorem stopScreenStream_spec (w : World) :
    (stopScreenStream w).store = w.store ∧ (stopScreenStream w).authUid = w.authUid ∧
    (stopScreenStream w).log = w.log ++
      (match w.eng.screenStream with
        | some s => s.tracks.map (fun t => Effect.trackStop t.id)
        | none => []) ∧
    ∃ s, (stopScreenStream w).eng = { w.eng with screenStream := s } := by
  unfold stopScreenStream
  cases hs : w.eng.screenStream with
  | none => exact ⟨rfl, rfl, by simp, w.eng.screenStream, rfl⟩
  | some st => exact ⟨rfl, rfl, rfl, none, rfl⟩

theorem clearScreenSenders_frame (w : World) (env : Uid → SigEnv) :
    (clearScreenSenders w env).eng = w.eng ∧
    (clearScreenSenders w env).browser = w.browser ∧
    (clearScreenSenders w env).authUid = w.authUid :=
  foldl_stopSharingTo_frame _ env _ w

theorem clearScreenSenders_inactive (w : World) (env : Uid → SigEnv)
    (h : w.eng.voiceActive = false) :
    ∃ pcs, clearScreenSenders w env =
      { w with store := { w.store with peerConnections := pcs }
               log := w.log ++ w.store.peerConnections.foldr (fun e l =>
                 sharingStops
                   ((w.store.localStream.bind (fun ls => ls.getAudioTracks.head?)).map Track.id) e
                   ++ l) [] } :=
  foldl_stopSharingTo_inactive _ env _ w h

theorem stopScreenShare_eng (w : World) (env : Uid → SigEnv) :
    ∃ s, (stopScreenShare w env).eng = { w.eng with screenStream := s } := by
  obtain ⟨_, _, _, s, hs⟩ := stopScreenStream_spec w
  obtain ⟨a, _, _⟩ := clearScreenSenders_frame (stopScreenStream w) env
  refine ⟨s, ?_⟩
  unfold stopScreenShare
  simp only []
  split
  · split <;> simp only [World.emit, a, hs]
  · simp only [a, hs]

theorem stopScreenShare_store (w : World) (env : Uid → SigEnv) :
    (stopScreenShare w env).store.isScreenSharing = false := by
  unfold stopScreenShare
  simp only []
  split
  · split <;> rfl
  · rfl

theorem stopScreenShare_inactive_log (w : World) (env : Uid → SigEnv)
    (h : w.eng.voiceActive = false) :
    (stopScreenShare w env).log = w.log ++ screenShareStops w := by
  obtain ⟨s1, s2, s3, s, hs⟩ := stopScreenStream_spec w
  have hv : (stopScreenStream w).eng.voiceActive = false := by rw [hs]; exact h
  have hg : (stopScreenStream w).eng.activeGroupId = w.eng.activeGroupId := by rw [hs]
  have hc : (stopScreenStream w).eng.activeChannelId = w.eng.activeChannelId := by rw [hs]
  obtain ⟨pcs, hf⟩ := clearScreenSenders_inactive (stopScreenStream w) env hv
  unfold stopScreenShare screenShareStops
  simp only [hf, hg, hc, s1, s2, s3]
  by_cases hgc : (truthyString w.eng.activeGroupId && truthyString w.eng.activeChannelId) = true
  · cases hu : truthyUid w.authUid <;> simp [hgc, World.emit]
  · simp [hgc]

theorem runStopHook_spec (w : World) :
    (runStopHook w).log = w.log ++ hookCalls w.eng ∧
    (runStopHook w).eng._onVoiceStopCb = none ∧
    (∃ cb, (runStopHook w).eng = { w.eng with _onVoiceStopCb := cb }) ∧
    (∃ su, (runStopHook w).store = { w.store with speakingUsers := su }) ∧
    (runStopHook w).browser = w.browser ∧ (runStopHook w).authUid = w.authUid := by
  unfold runStopHook hookCalls
  cases hh : w.eng._onVoiceStopCb with
  | none => exact ⟨by simp, hh, ⟨w.eng._onVoiceStopCb, rfl⟩, ⟨w.store.speakingUsers, rfl⟩, rfl, rfl⟩
  | some hk =>
    obtain ⟨su, hsu⟩ := setSpeaking_spec (w.emit Effect.stopHook) eveUid false
    simp only [StopHook.call, onVoiceStop]
    refine ⟨?_, trivial, ⟨none, ?_⟩, ⟨su, ?_⟩, ?_, ?_⟩
    · simp only [setSpeaking_log, World.emit]
    · simp only [setSpeaking_eng, World.emit]
    · rw [hsu]; rfl
    · simp only [setSpeaking_browser, World.emit]
    · simp only [setSpeaking_authUid, World.emit]

theorem stopActiveScreenShare_eng (env : Uid → SigEnv) (w : World) :
    ∃ s, (stopActiveScreenShare env w).eng = { w.eng with screenStream := s } := by
  unfold stopActiveScreenShare
  split
  · exact stopScreenShare_eng w env
  · exact ⟨w.eng.screenStream, rfl⟩

theorem stopActiveScreenShare_store (env : Uid → SigEnv) (w : World) :
    (stopActiveScreenShare env w).store.isScreenSharing = false := by
  unfold stopActiveScreenShare
  by_cases h : w.store.isScreenSharing = true
  · simp only [h, if_true]; exact stopScreenShare_store w env
  · simp only [h, if_false]; simpa using h

theorem stopActiveScreenShare_log (env : Uid → SigEnv) (w : World)
    (h : w.eng.voiceActive = false) :
    (stopActiveScreenShare env w).log =
      w.log ++ (if w.store.isScreenSharing then screenShareStops w else []) := by
  unfold stopActiveScreenShare
  by_cases hs : w.store.isScreenSharing = true
  · simp only [hs, if_true]; exact stopScreenShare_inactive_log w env h
  · simp [hs]

theorem stopRawTracks_spec (w : World) :
    (stopRawTracks w).log = w.log ++ rawTrackStops w.eng ∧
    (stopRawTracks w).store = w.store ∧
    (stopRawTracks w).eng = { w.eng with currentRawStream := none } := by
  unfold stopRawTracks rawTrackStops
  cases hh : w.eng.currentRawStream with
  | none =>
    refine ⟨by simp, rfl, ?_⟩
    have e : w.eng = { w.eng with currentRawStream := w.eng.currentRawStream } := rfl
    rw [hh] at e
    exact e
  | some s => exact ⟨rfl, rfl, rfl⟩

theorem releaseResilience_spec (w : World) :
    (releaseResilience w).log = w.log ∧ (releaseResilience w).store = w.store ∧
    (releaseResilience w).eng = { w.eng with cleanupResilience := none } := by
  unfold releaseResilience
  cases hh : w.eng.cleanupResilience with
  | none =>
    refine ⟨rfl, rfl, ?_⟩
    have e : w.eng = { w.eng with cleanupResilience := w.eng.cleanupResilience } := rfl
    rw [hh] at e
    exact e
  | some s => exact ⟨rfl, rfl, rfl⟩

theorem closeContext_spec (w : World) :
    (closeContext w).log = w.log ++ contextCloses w.eng ∧ (closeContext w).store = w.store ∧
    (closeContext w).eng =
      { w.eng with audioContext := none
                   workletLoaded := w.eng.workletLoaded && w.eng.audioContext.isNone } := by
  unfold closeContext contextCloses
  cases hh : w.eng.audioContext with
  | none =>
    refine ⟨by simp, rfl, ?_⟩
    have e : w.eng = { w.eng with audioContext := w.eng.audioContext } := rfl
    rw [hh] at e
    simp only [Option.isNone_none, Bool.and_true]
    exact e
  | some s => exact ⟨rfl, rfl, by simp [resetWorkletState, World.emit]⟩

theorem unsubscribeSignaling_spec (w : World) :
    (unsubscribeSignaling w).log = w.log ++ signalingUnsubscribes w.eng ∧
    (unsubscribeSignaling w).store = w.store ∧
    (unsubscribeSignaling w).eng = { w.eng with signalingUnsub := none } := by
  unfold unsubscribeSignaling signalingUnsubscribes
  cases hh : w.eng.signalingUnsub with
  | none =>
    refine ⟨by simp, rfl, ?_⟩
    have e : w.eng = { w.eng with signalingUnsub := w.eng.signalingUnsub } := rfl
    rw [hh] at e
    exact e
  | some s => exact ⟨rfl, rfl, rfl⟩

theorem stopVoice_unfold (w : World) (env : Uid → SigEnv) :
    stopVoice w env =
      unsubscribeSignaling (closeContext (releaseResilience (clearPipeline (stopRawTracks
        (clearTables (cancelReconnectTimers (stopDetectors
          (stopActiveScreenShare env (runStopHook (clearActive w)))))))))) := rfl

theorem stopRawTracks_log (w : World) :
    (stopRawTracks w).log = w.log ++ rawTrackStops w.eng := (stopRawTracks_spec w).1

theorem stopRawTracks_store (w : World) : (stopRawTracks w).store = w.store :=
  (stopRawTracks_spec w).2.1

theorem stopRawTracks_eng (w : World) :
    (stopRawTracks w).eng = { w.eng with currentRawStream := none } := (stopRawTracks_spec w).2.2

theorem releaseResilience_log (w : World) : (releaseResilience w).log = w.log :=
  (releaseResilience_spec w).1

theorem releaseResilience_store (w : World) : (releaseResilience w).store = w.store :=
  (releaseResilience_spec w).2.1

theorem releaseResilience_eng (w : World) :
    (releaseResilience w).eng = { w.eng with cleanupResilience := none } :=
  (releaseResilience_spec w).2.2

theorem closeContext_log (w : World) :
    (closeContext w).log = w.log ++ contextCloses w.eng := (closeContext_spec w).1

theorem closeContext_store (w : World) : (closeContext w).store = w.store :=
  (closeContext_spec w).2.1

theorem closeContext_eng (w : World) :
    (closeContext w).eng =
      { w.eng with audioContext := none
                   workletLoaded := w.eng.workletLoaded && w.eng.audioContext.isNone } :=
  (closeContext_spec w).2.2

theorem unsubscribeSignaling_log (w : World) :
    (unsubscribeSignaling w).log = w.log ++ signalingUnsubscribes w.eng :=
  (unsubscribeSignaling_spec w).1

theorem unsubscribeSignaling_store (w : World) : (unsubscribeSignaling w).store = w.store :=
  (unsubscribeSignaling_spec w).2.1

theorem unsubscribeSignaling_eng (w : World) :
    (unsubscribeSignaling w).eng = { w.eng with signalingUnsub := none } :=
  (unsubscribeSignaling_spec w).2.2

theorem stopVoice_tail_log (w : World) :
    (unsubscribeSignaling (closeContext (releaseResilience (clearPipeline (stopRawTracks
      (clearTables (cancelReconnectTimers (stopDetectors w)))))))).log =
    w.log ++ detectorStops w.eng ++ timerCancels w.eng ++ rawTrackStops w.eng ++
      contextCloses w.eng ++ signalingUnsubscribes w.eng := by
  simp only [unsubscribeSignaling_log, unsubscribeSignaling_eng, closeContext_log,
    closeContext_eng, releaseResilience_log, releaseResilience_eng, clearPipeline,
    registerMuteCallback, stopRawTracks_log, stopRawTracks_eng, clearTables,
    cancelReconnectTimers, stopDetectors, signalingUnsubscribes, contextCloses, rawTrackStops,
    timerCancels, List.append_assoc]

theorem stopVoice_tail_eng (w : World) :
    (unsubscribeSignaling (closeContext (releaseResilience (clearPipeline (stopRawTracks
      (clearTables (cancelReconnectTimers (stopDetectors w)))))))).eng =
    { w.eng with
      signalingUnsub := none
      audioContext := none
      currentRawStream := none
      pipelineDest := none
      micMuteGain := none
      captureStream := none
      speakingDetectors := []
      localSpeakingDetector := none
      pendingIceCandidates := []
      switchingDevice := false
      reconnectAttempts := []
      reconnectTimers := []
      activeGroupId := none
      activeChannelId := none
      cleanupResilience := none
      workletLoaded := w.eng.workletLoaded && w.eng.audioContext.isNone } := by
  simp only [unsubscribeSignaling_eng, closeContext_eng, releaseResilience_eng, clearPipeline,
    registerMuteCallback, stopRawTracks_eng, clearTables, cancelReconnectTimers, stopDetectors,
    objClear_eq]

theorem stopVoice_tail_store (w : World) :
    (unsubscribeSignaling (closeContext (releaseResilience (clearPipeline (stopRawTracks
      (clearTables (cancelReconnectTimers (stopDetectors w)))))))).store =
    { w.store with _muteCallback := none } := by
  simp only [unsubscribeSignaling_store, closeContext_store, releaseResilience_store,
    clearPipeline, registerMuteCallback, stopRawTracks_store, clearTables,
    cancelReconnectTimers, stopDetectors]

theorem stopVoice_head (w : World) (env : Uid → SigEnv) :
    (∃ s, (stopActiveScreenShare env (runStopHook (clearActive w))).eng =
      { w.eng with voiceActive := false
                   _onVoiceStopCb := none
                   screenStream := s }) ∧
    (stopActiveScreenShare env (runStopHook (clearActive w))).log =
      w.log ++ hookCalls w.eng ++ (if w.store.isScreenSharing then screenShareStops w else []) ∧
    (stopActiveScreenShare env (runStopHook (clearActive w))).store.isScreenSharing = false := by
  obtain ⟨hl, hn, ⟨cb, he⟩, ⟨su, hs⟩, _, ha⟩ := runStopHook_spec (clearActive w)
  have hcb : cb = none := by rw [he] at hn; exact hn
  subst hcb
  have he2 : (runStopHook (clearActive w)).eng =
      { w.eng with voiceActive := false
                   _onVoiceStopCb := none } := he
  have hv : (runStopHook (clearActive w)).eng.voiceActive = false := by rw [he2]
  obtain ⟨s, hse⟩ := stopActiveScreenShare_eng env (runStopHook (clearActive w))
  have hsl := stopActiveScreenShare_log env (runStopHook (clearActive w)) hv
  have hss : screenShareStops (runStopHook (clearActive w)) = screenShareStops w := by
    have ha2 : (runStopHook (clearActive w)).authUid = w.authUid := ha
    have hs2 : (runStopHook (clearActive w)).store = { w.store with speakingUsers := su } := hs
    simp only [screenShareStops, he2, hs2, ha2]
  have hsh : (runStopHook (clearActive w)).store.isScreenSharing = w.store.isScreenSharing := by
    rw [hs]; rfl
  refine ⟨⟨s, by rw [hse, he2]⟩, ?_, stopActiveScreenShare_store env _⟩
  rw [hsl, hl, hss, hsh]
  rfl

theorem stepsFold_inactive (fs : List (World → World))
    (hfs : ∀ f ∈ fs, ∀ w : World, w.eng.voiceActive = false → (f w).eng.voiceActive = false)
    (w : World) (h : w.eng.voiceActive = false) :
    (fs.foldl (fun acc f => f acc) w).eng.voiceActive = false := by
  induction fs generalizing w with
  | nil => exact h
  | cons f fs ih =>
    rw [List.foldl_cons]
    exact ih (fun g hg => hfs g (List.mem_cons_of_mem _ hg)) (f w)
      (hfs f (List.mem_cons_self _ _) w h)

theorem stopVoiceSteps_inactive (env : Uid → SigEnv) :
    ∀ f ∈ stopVoiceSteps env, ∀ w : World, w.eng.voiceActive = false →
      (f w).eng.voiceActive = false := by
  intro f hf w h
  simp only [stopVoiceSteps, List.mem_cons, List.mem_singleton, List.not_mem_nil, or_false] at hf
  rcases hf with e | e | e | e | e | e | e | e | e | e | e <;> subst e
  · rfl
  · obtain ⟨_, _, ⟨cb, he⟩, _⟩ := runStopHook_spec w
    rw [he]; exact h
  · obtain ⟨s, he⟩ := stopActiveScreenShare_eng env w
    rw [he]; exact h
  · exact h
  · exact h
  · exact h
  · rw [stopRawTracks_eng]; exact h
  · exact h
  · rw [releaseResilience_eng]; exact h
  · rw [closeContext_eng]; exact h
  · rw [unsubscribeSignaling_eng]; exact h

theorem stopHook_not_mem_screenShareStops (w : World) : Effect.stopHook ∉ screenShareStops w := by
  have hfold : ∀ (mic : Option Nat) (es : List (Uid × RTCPeerConnection)),
      Effect.stopHook ∉ es.foldr (fun e l => sharingStops mic e ++ l) [] := by
    intro mic es
    induction es with
    | nil => simp
    | cons e es ih =>
      simp only [List.foldr_cons, List.mem_append, not_or]
      refine ⟨?_, ih⟩
      unfold sharingStops
      split <;> simp
  unfold screenShareStops
  simp only [List.mem_append, not_or]
  refine ⟨⟨?_, hfold _ _⟩, ?_⟩
  · cases w.eng.screenStream <;> simp
  · split
    · cases truthyUid w.authUid <;> simp
    · simp

theorem stopVoice_of_stopped (w : World) (env : Uid → SigEnv)
    (h1 : w.eng.voiceActive = false) (h2 : w.eng._onVoiceStopCb = none)
    (h3 : w.store.isScreenSharing = false) (h4 : w.eng.localSpeakingDetector = none)
    (h5 : w.eng.speakingDetectors = []) (h6 : w.eng.reconnectTimers = [])
    (h7 : w.eng.reconnectAttempts = []) (h8 : w.eng.pendingIceCandidates = [])
    (h9 : w.eng.switchingDevice = false) (h10 : w.eng.currentRawStream = none)
    (h11 : w.eng.activeGroupId = none) (h12 : w.eng.activeChannelId = none)
    (h13 : w.eng.pipelineDest = none) (h14 : w.eng.micMuteGain = none)
    (h15 : w.eng.captureStream = none) (h16 : w.store._muteCallback = none)
    (h17 : w.eng.cleanupResilience = none) (h18 : w.eng.audioContext = none)
    (h19 : w.eng.signalingUnsub = none) : stopVoice w env = w := by
  obtain ⟨store, eng, browser, authUid, log⟩ := w
  obtain ⟨e1, e2, e3, e4, e5, e6, e7, e8, e9, e10, e11, e12, e13, e14, e15, e16, e17, e18, e19,
    e20, e21⟩ := eng
  obtain ⟨s1, s2, s3, s4, s5, s6, s7, s8, s9, s10, s11, s12, s13, s14, s15, s16, s17, s18,
    s19⟩ := store
  obtain ⟨b1, b2, b3, b4, b5, b6, b7, b8⟩ := browser
  simp only [] at h1 h2 h3 h4 h5 h6 h7 h8 h9 h10 h11 h12 h13 h14 h15 h16 h17 h18 h19
  subst h1 h2 h3 h4 h5 h6 h7 h8 h9 h10 h11 h12 h13 h14 h15 h16 h17 h18 h19
  simp [stopVoice, stopVoiceSteps, clearActive, runStopHook, stopActiveScreenShare,
    stopDetectors, detectorStops, objClear, objKeys, cancelReconnectTimers, timerCancels,
    clearTables, stopRawTracks, clearPipeline, registerMuteCallback, releaseResilience,
    closeContext, unsubscribeSignaling]

/-- C12: `stopVoice` is a total function of the state, a second call in a row
changes nothing (state and record of browser calls are those after the first
call, so no teardown effect and no second hook call), and called when voice was
never started (engine variables at their initial values, no screen share, no
mute callback) it changes nothing at all; in particular the state right after
page load is left as it is. -/
theorem stopVoice_idempotent (w : World) (env env2 : Uid → SigEnv) (uid : Option Uid) :
    stopVoice (stopVoice w env) env2 = stopVoice w env ∧
    stopVoice (initialWorld uid) env = initialWorld uid ∧
    (w.eng = initialEngine → w.store.isScreenSharing = false → w.store._muteCallback = none →
      stopVoice w env = w) := by
  refine ⟨?_, ?_, ?_⟩
  · obtain ⟨⟨s, hs⟩, _, hss⟩ := stopVoice_head w env
    have he := stopVoice_tail_eng (stopActiveScreenShare env (runStopHook (clearActive w)))
    have hst := stopVoice_tail_store (stopActiveScreenShare env (runStopHook (clearActive w)))
    rw [← stopVoice_unfold] at he hst
    rw [hs] at he
    apply stopVoice_of_stopped
    all_goals first
      | (rw [he])
      | (rw [hst]; exact hss)
      | (rw [hst])
  · exact stopVoice_of_stopped _ env rfl rfl rfl rfl rfl rfl rfl rfl rfl rfl rfl rfl rfl rfl rfl
      rfl rfl rfl rfl
  · intro h1 h2 h3
    apply stopVoice_of_stopped
    all_goals first
      | exact h2
      | exact h3
      | (rw [h1]; rfl)

/-- User `a` has joined a channel but voice was never started: `stopVoice`
leaves the state as it is. -/
theorem stopVoice_idempotent_witness :
    stopVoice (joinedWorld uidA [presenceOf uidA]) (fun _ => okSigEnv) =
      joinedWorld uidA [presenceOf uidA] :=
  (stopVoice_idempotent (joinedWorld uidA [presenceOf uidA]) (fun _ => okSigEnv)
    (fun _ => okSigEnv) none).2.2 (by decide) (by decide) (by decide)

theorem stopVoiceUpTo_inactive (k : Nat) (w : World) (env : Uid → SigEnv) (hk : 1 ≤ k) :
    (stopVoiceUpTo k w env).eng.voiceActive = false := by
  obtain ⟨n, rfl⟩ : ∃ n, k = n + 1 := ⟨k - 1, by omega⟩
  unfold stopVoiceUpTo
  have hsteps : stopVoiceSteps env = clearActive :: (stopVoiceSteps env).tail := rfl
  rw [hsteps, List.take_succ_cons, List.foldl_cons]
  apply stepsFold_inactive
  · intro f hf
    exact stopVoiceSteps_inactive env f (List.mem_of_mem_tail (List.mem_of_mem_take hf))
  · rfl

/-- C13: in `stopVoice` the first statement clears the active flag and calls
nothing; the flag is false after every later statement; the second statement
is the hook call, if a hook is registered; and the browser and channel calls of
the whole function are, in this order: the hook call, the calls of
`stopScreenShare` if a screen share is active, the detector stops, the
`clearTimeout` calls of the reconnect timers, the stops of the raw tracks, the
close of the audio context, the signaling unsubscribe. The hook is called
exactly once if registered (never otherwise) and is unregistered afterwards. -/
theorem stopVoice_teardown_order (w : World) (env : Uid → SigEnv) :
    (stopVoiceUpTo 1 w env).log = w.log ∧
    (∀ k, 1 ≤ k → (stopVoiceUpTo k w env).eng.voiceActive = false) ∧
    (stopVoiceUpTo 2 w env).log = w.log ++ hookCalls w.eng ∧
    stopVoiceUpTo 11 w env = stopVoice w env ∧
    (stopVoice w env).log =
      w.log ++ hookCalls w.eng ++ (if w.store.isScreenSharing then screenShareStops w else []) ++
        detectorStops w.eng ++ timerCancels w.eng ++ rawTrackStops w.eng ++
        contextCloses w.eng ++ signalingUnsubscribes w.eng ∧
    (stopVoice w env).eng._onVoiceStopCb = none ∧
    (stopVoice w env).log.count Effect.stopHook =
      w.log.count Effect.stopHook + (if w.eng._onVoiceStopCb.isSome then 1 else 0) := by
  obtain ⟨⟨s, hs⟩, hl, _⟩ := stopVoice_head w env
  have hlog : (stopVoice w env).log =
      w.log ++ hookCalls w.eng ++ (if w.store.isScreenSharing then screenShareStops w else []) ++
        detectorStops w.eng ++ timerCancels w.eng ++ rawTrackStops w.eng ++
        contextCloses w.eng ++ signalingUnsubscribes w.eng := by
    rw [stopVoice_unfold, stopVoice_tail_log, hl, hs]
    rfl
  refine ⟨rfl, fun k hk => stopVoiceUpTo_inactive k w env hk, (runStopHook_spec (clearActive w)).1,
    rfl, hlog, ?_, ?_⟩
  · rw [stopVoice_unfold, stopVoice_tail_eng, hs]
  · have c1 : (if w.store.isScreenSharing then screenShareStops w else []).count
        Effect.stopHook = 0 := by
      apply List.count_eq_zero.mpr
      split
      · exact stopHook_not_mem_screenShareStops w
      · simp
    have c2 : (detectorStops w.eng).count Effect.stopHook = 0 := by
      apply List.count_eq_zero.mpr
      unfold detectorStops
      cases w.eng.localSpeakingDetector <;> simp
    have c3 : (timerCancels w.eng).count Effect.stopHook = 0 := by
      apply List.count_eq_zero.mpr
      simp [timerCancels]
    have c4 : (rawTrackStops w.eng).count Effect.stopHook = 0 := by
      apply List.count_eq_zero.mpr
      unfold rawTrackStops
      cases w.eng.currentRawStream <;> simp
    have c5 : (contextCloses w.eng).count Effect.stopHook = 0 := by
      apply List.count_eq_zero.mpr
      unfold contextCloses
      cases w.eng.audioContext <;> simp
    have c6 : (signalingUnsubscribes w.eng).count Effect.stopHook = 0 := by
      apply List.count_eq_zero.mpr
      unfold signalingUnsubscribes
      cases w.eng.signalingUnsub <;> simp
    have c7 : (hookCalls w.eng).count Effect.stopHook =
        (if w.eng._onVoiceStopCb.isSome then 1 else 0) := by
      unfold hookCalls
      cases w.eng._onVoiceStopCb <;> simp
    rw [hlog]
    simp only [List.count_append, c1, c2, c3, c4, c5, c6, c7, Nat.add_zero]

/-- The teardown of `teardownWorldA`: the flag is false after the third
statement, and the calls are the hook, the screen share, the detector, the
timer, the raw track, the audio context and the signaling listener. -/
theorem stopVoice_teardown_order_witness :
    (stopVoiceUpTo 3 teardownWorldA (fun _ => okSigEnv)).eng.voiceActive = false ∧
    (stopVoice teardownWorldA (fun _ => okSigEnv)).log = teardownWorldA.log ++
      [Effect.stopHook, Effect.trackStop 51, Effect.updatePresence uidA false,
       Effect.detectorStopped (SpeakingCallback.localMic (some uidA)), Effect.clearTimeout 11,
       Effect.trackStop 101, Effect.closeAudioContext 1, Effect.unsubscribe 9] :=
  ⟨(stopVoice_teardown_order teardownWorldA (fun _ => okSigEnv)).2.1 3 (by decide), by decide⟩

/-! ## Callbacks after teardown -/

/-- C14 (the code at a concrete state): in `staleTimerWorldA` the flag is
false and reconnect timer 11 for `b` is pending. When it fires, its body deletes
the entry of `b` from `reconnectTimers` before it tests the flag, so the engine
state is changed although the session is inactive (nothing else is). -/
theorem reconnect_timer_changes_state_when_inactive :
    staleTimerWorldA.eng.voiceActive = false ∧
    objGet staleTimerWorldA.eng.reconnectTimers uidB = some 11 ∧
    staleTimerWorldA.browser.timers = [⟨11, TimerKind.reconnect uidB, 2000⟩] ∧
    objGet (reconnectTimerFired staleTimerWorldA 11 uidB okSigEnv).eng.reconnectTimers uidB
      = none ∧
    (reconnectTimerFired staleTimerWorldA 11 uidB okSigEnv).eng ≠ staleTimerWorldA.eng ∧
    (reconnectTimerFired staleTimerWorldA 11 uidB okSigEnv).store = staleTimerWorldA.store ∧
    (reconnectTimerFired staleTimerWorldA 11 uidB okSigEnv).log = staleTimerWorldA.log := by
  decide

/-- C14 (amended): while the active flag is false, the presence snapshot
handler, the signaling snapshot handler, the ICE-candidate handler and the
renegotiation-offer sender return the state unchanged; the connection-state
handler leaves the state as the browser's own update of the connection state
made it; a renegotiation timer only leaves the browser's timer list; and a
reconnect timer leaves the timer list and deletes its own entry from
`reconnectTimers`, nothing else. None of them creates a connection or writes a
document: the record of calls is unchanged. -/
theorem callbacks_inert_when_inactive (uid : Uid) (w : World) (users : List PresenceEntry)
    (env : Uid → SigEnv) (changes : List (DocChange × SigEnv)) (p : Uid)
    (c : Option Candidate) (senv : SigEnv) (pc : RTCPeerConnection) (pcId t : Nat)
    (state : ConnectionState) (h : w.eng.voiceActive = false) :
    onPresenceSnapshot uid w users env = w ∧
    onSignalingSnapshot uid w changes = w ∧
    onicecandidate w p c senv = w ∧
    sendRenegotiationOffer w p pc senv = w ∧
    onconnectionstatechange w p pcId state =
      (match objGet w.store.peerConnections p with
        | some q =>
          if q.pcId = pcId then
            { w with store := { w.store with
                peerConnections := objSet w.store.peerConnections p
                  { q with connectionState := state } } }
          else w
        | none => w) ∧
    renegotiateTimerFired w t p pcId senv =
      { w with browser := { w.browser with timers := w.browser.timers.filter (·.id ≠ t) } } ∧
    reconnectTimerFired w t p senv =
      { w with
        browser := { w.browser with timers := w.browser.timers.filter (·.id ≠ t) }
        eng := { w.eng with reconnectTimers := objDel w.eng.reconnectTimers p } } ∧
    (reconnectTimerFired w t p senv).log = w.log ∧
    (reconnectTimerFired w t p senv).store = w.store := by
  have hr : reconnectTimerFired w t p senv =
      { w with
        browser := { w.browser with timers := w.browser.timers.filter (·.id ≠ t) }
        eng := { w.eng with reconnectTimers := objDel w.eng.reconnectTimers p } } := by
    simp [reconnectTimerFired, h]
  refine ⟨by simp [onPresenceSnapshot, h], by simp [onSignalingSnapshot, h],
    by simp [onicecandidate, h], sendRenegotiationOffer_inactive w p pc senv h, ?_, ?_, hr,
    by rw [hr], by rw [hr]⟩
  · unfold onconnectionstatechange
    cases hq : objGet w.store.peerConnections p with
    | none => simp [h]
    | some q =>
      by_cases hid : q.pcId = pcId
      · simp [hid, h]
      · simp [hid, h]
  · have e : ∀ w0 : World, w0.eng.voiceActive = false →
        (match objGet w0.store.peerConnections p with
          | some q => if q.pcId = pcId then sendRenegotiationOffer w0 p q senv else w0
          | none => w0) = w0 := by
      intro w0 h0
      cases hq : objGet w0.store.peerConnections p with
      | none => rfl
      | some q =>
        by_cases hid : q.pcId = pcId
        · simp only [hid, if_true]
          exact sendRenegotiationOffer_inactive _ p q senv h0
        · simp only [hid, if_false]
    exact e _ h

/-- User `a` after `stopVoice` in the middle of an offer to `b`: a presence
snapshot listing `b` is ignored. -/
theorem callbacks_inert_when_inactive_witness :
    onPresenceSnapshot uidA (stopVoice offeringWorldA (fun _ => okSigEnv))
      [presenceOf uidA, presenceOf uidB, presenceOf uidC] (fun _ => okSigEnv) =
      stopVoice offeringWorldA (fun _ => okSigEnv) :=
  (callbacks_inert_when_inactive uidA (stopVoice offeringWorldA (fun _ => okSigEnv))
    [presenceOf uidA, presenceOf uidB, presenceOf uidC] (fun _ => okSigEnv) [] uidB none
    okSigEnv ⟨10, none, none, SignalingState.stable, ConnectionState.new, [], true⟩ 10 11
    ConnectionState.failed (by decide)).1

/-! ## Switching the input device -/

theorem replaceAudioTrack_of_none (nt : Option Track) (senders : List Sender)
    (h : senders.any Sender.isAudio = false) : replaceAudioTrack nt senders = senders := by
  induction senders with
  | nil => rfl
  | cons s rest ih =>
    simp only [List.any_cons, Bool.or_eq_false_iff] at h
    simp [replaceAudioTrack, h.1, ih h.2]

theorem replaceAudioTrack_spec (nt : Option Track) (pre post : List Sender) (s : Sender)
    (hpre : ∀ x ∈ pre, x.isAudio = false) (hs : s.isAudio = true) :
    replaceAudioTrack nt (pre ++ s :: post) = pre ++ ⟨nt⟩ :: post := by
  induction pre with
  | nil => simp [replaceAudioTrack, hs]
  | cons x rest ih =>
    have hx : x.isAudio = false := hpre x (List.mem_cons_self _ _)
    have ih2 := ih (fun y hy => hpre y (List.mem_cons_of_mem _ hy))
    simp [replaceAudioTrack, hx, ih2]

theorem replaceTracks_spec (nt : Option Track) (ok : Uid → Bool)
    (es : List (Uid × RTCPeerConnection)) :
    (∀ e ∈ (replaceTracks nt ok es).2.1, notLifecycle e = true) ∧
    ((replaceTracks nt ok es).2.2 = true →
      (replaceTracks nt ok es).1 =
        es.map (fun e => (e.1, { e.2 with senders := replaceAudioTrack nt e.2.senders }))) := by
  induction es with
  | nil => exact ⟨by simp [replaceTracks], fun _ => rfl⟩
  | cons e rest ih =>
    obtain ⟨p, pc⟩ := e
    obtain ⟨i1, i2⟩ := ih
    by_cases ha : pc.senders.any Sender.isAudio = true
    · by_cases hk : ok p = true
      · simp only [replaceTracks, ha, hk, if_true, List.map_cons]
        refine ⟨?_, fun h => by rw [i2 h]⟩
        intro x hx
        rcases List.mem_cons.mp hx with hx | hx
        · subst hx; rfl
        · exact i1 x hx
      · simp only [replaceTracks, ha, hk, if_true, if_false, Bool.false_eq_true]
        refine ⟨?_, fun h => absurd h (by decide)⟩
        intro x hx
        rcases List.mem_singleton.mp hx with hx
        subst hx; rfl
    · have ha2 : pc.senders.any Sender.isAudio = false := by simpa using ha
      simp only [replaceTracks, ha2, Bool.false_eq_true, if_false, List.map_cons]
      refine ⟨i1, fun h => ?_⟩
      rw [i2 h, replaceAudioTrack_of_none nt pc.senders ha2]

theorem LogExt.of_append (P : Effect → Bool) (w w' : World) (l : List Effect)
    (h : w'.log = w.log ++ l) (hl : ∀ e ∈ l, P e = true) : LogExt P w w' := ⟨l, h, hl⟩

theorem stopTracks_notLifecycle (w : World) (st : MediaStream) :
    LogExt notLifecycle w (stopTracks w st) := by
  refine ⟨_, rfl, ?_⟩
  intro e he
  obtain ⟨t, _, rfl⟩ := List.mem_map.mp he
  rfl

theorem acquireMic_notLifecycle (w : World) (dev : Option JsString) (o : MicOutcome) :
    LogExt notLifecycle w (acquireMic w dev o).1 := by
  have h1 : ∀ (x : World) (a b : Bool), LogExt notLifecycle x (x.emit (Effect.getUserMedia a b)) :=
    fun x a b => LogExt.emit _ _ _ rfl
  unfold acquireMic
  simp only []
  cases truthyString dev <;> cases o.exact <;> cases o.default <;>
    simp only [Bool.false_eq_true, if_false, if_true] <;> (repeat' split) <;>
    first
      | exact h1 _ _ _
      | exact LogExt.trans (h1 _ _ _) (h1 _ _ _)

theorem createAudioPipeline_notLifecycle (w : World) (ctx : Nat) (o : PipelineOutcome) :
    LogExt notLifecycle w (createAudioPipeline w ctx o).1 ∧
    (createAudioPipeline w ctx o).1.store = w.store ∧
    ∀ res, (createAudioPipeline w ctx o).2 = some res →
      ∃ t, res.stream.getAudioTracks.head? = some t := by
  have h1 : ∀ b, LogExt notLifecycle w (w.emit (Effect.addModule ctx b)) :=
    fun b => LogExt.emit _ _ _ rfl
  unfold createAudioPipeline
  by_cases c1 : o.sourceOk = true
  · by_cases c2 : w.eng.workletLoaded = true
    · by_cases c4 : o.workletNodeOk = true
      · simp only [c1, c2, c4, Bool.not_true, Bool.false_eq_true, if_false]
        exact ⟨LogExt.of_log_eq _ rfl, by simp [World.emit], fun res h => by
          simp only [Option.some.injEq] at h; subst h; exact ⟨_, rfl⟩⟩
      · simp only [c1, c2, c4, Bool.not_true, Bool.false_eq_true, if_false, Bool.not_false,
          if_true]
        exact ⟨LogExt.refl _ _, by simp [World.emit], fun res h => by cases h⟩
    · by_cases c3 : o.addModuleOk = true
      · by_cases c4 : o.workletNodeOk = true
        · simp only [c1, c2, c3, c4, Bool.not_true, Bool.false_eq_true, if_false, Bool.not_false,
            if_true]
          exact ⟨LogExt.of_append _ _ _ [Effect.addModule ctx true] rfl
            (fun e he => by rw [List.mem_singleton.mp he]; rfl), by simp [World.emit], fun res h => by
            simp only [Option.some.injEq] at h; subst h; exact ⟨_, rfl⟩⟩
        · simp only [c1, c2, c3, c4, Bool.not_true, Bool.false_eq_true, if_false,
            Bool.not_false, if_true]
          exact ⟨LogExt.of_append _ _ _ [Effect.addModule ctx true] rfl
            (fun e he => by rw [List.mem_singleton.mp he]; rfl), by simp [World.emit], fun res h => by cases h⟩
      · simp only [c1, c2, c3, Bool.not_true, Bool.false_eq_true, if_false, Bool.not_false,
          if_true]
        exact ⟨h1 false, by simp [World.emit], fun res h => by cases h⟩
  · simp only [c1, Bool.not_false, if_true]
    exact ⟨LogExt.refl _ _, by simp [World.emit], fun res h => by cases h⟩

theorem switchStreams_notLifecycle (w : World) (ls : Option MediaStream) (nrs : MediaStream) :
    LogExt notLifecycle w (switchStreams w ls nrs) := by
  unfold switchStreams
  have h1 : LogExt notLifecycle w (match w.eng.currentRawStream with
      | some s => stopTracks w s
      | none => w) := by
    cases w.eng.currentRawStream with
    | none => exact LogExt.refl _ _
    | some s => exact stopTracks_notLifecycle w s
  simp only []
  cases ls with
  | none => exact LogExt.trans h1 (LogExt.of_log_eq _ rfl)
  | some st =>
    exact LogExt.trans h1 (LogExt.trans (LogExt.of_log_eq _ rfl) (stopTracks_notLifecycle _ st))

theorem runCheck_notLifecycle (w : World) (d : Detector) (data : List Nat) :
    LogExt notLifecycle w (runCheck w d data).1 := by
  unfold runCheck
  simp only []
  generalize (d.check (d.readThreshold w) data) = r
  obtain ⟨d', o, rp⟩ := r
  have h1 : LogExt notLifecycle w (notifySpeaking w d.onSpeaking o) := by
    cases o with
    | none => exact LogExt.refl _ _
    | some b =>
      simp only [notifySpeaking, SpeakingCallback.call]
      cases d.onSpeaking with
      | localMic u =>
        simp only []
        split
        · exact LogExt.trans (LogExt.emit _ _ (Effect.onSpeaking _ _) rfl) (LogExt.of_log_eq _ (setSpeaking_log _ _ _))
        · exact LogExt.trans (LogExt.emit _ _ (Effect.onSpeaking _ _) rfl) (LogExt.of_log_eq _ (setSpeaking_log _ _ _))
      | remote q =>
        exact LogExt.trans (LogExt.emit _ _ (Effect.onSpeaking _ _) rfl) (LogExt.of_log_eq _ (setSpeaking_log _ _ _))
  refine LogExt.trans h1 ?_
  cases d.gateNode <;> cases rp <;>
    first
      | exact LogExt.refl _ _
      | exact LogExt.of_append _ _ _ [_] rfl (fun e he => by rw [List.mem_singleton.mp he]; rfl)

theorem switchPipeline_notLifecycle (w : World) (res : PipelineResult) (ff : List Nat) :
    LogExt notLifecycle w (switchPipeline w res ff) := by
  unfold switchPipeline createSpeakingDetector
  simp only []
  refine LogExt.trans ?_ (LogExt.of_log_eq _ rfl)
  refine LogExt.trans ?_ (runCheck_notLifecycle _ _ _)
  refine LogExt.trans ?_ (LogExt.emit _ _ _ rfl)
  have h3 : ∀ x : World, LogExt notLifecycle x (match x.eng.localSpeakingDetector with
      | some d => x.emit (Effect.detectorStopped d.onSpeaking)
      | none => x) := by
    intro x
    cases x.eng.localSpeakingDetector with
    | none => exact LogExt.refl _ _
    | some d => exact LogExt.emit _ _ _ rfl
  refine LogExt.trans ?_ (h3 _)
  split
  · exact LogExt.of_log_eq _ rfl
  · exact LogExt.of_log_eq _ rfl

theorem switchTracks_spec (w : World) (pcs : Obj RTCPeerConnection) (ps : MediaStream)
    (ok : Uid → Bool) :
    LogExt notLifecycle w (switchTracks w pcs ps ok).1 ∧
    ((switchTracks w pcs ps ok).2 = true →
      (switchTracks w pcs ps ok).1.store.localStream = some ps ∧
      (switchTracks w pcs ps ok).1.store.peerConnections =
        pcs.map (fun e =>
          (e.1, { e.2 with senders := replaceAudioTrack ps.getAudioTracks.head? e.2.senders }))) := by
  obtain ⟨r1, r2⟩ := replaceTracks_spec ps.getAudioTracks.head? ok pcs
  unfold switchTracks
  simp only []
  by_cases hk : (replaceTracks ps.getAudioTracks.head? ok pcs).2.2 = true
  · simp only [hk, if_true]
    exact ⟨LogExt.of_append _ _ _ _ rfl r1, fun _ => ⟨trivial, r2 hk⟩⟩
  · simp only [hk, if_false, Bool.false_eq_true]
    exact ⟨LogExt.of_append _ _ _ _ rfl r1, fun h => absurd h (by decide)⟩

theorem switchFinally_spec (w : World) :
    (switchFinally w).store = w.store ∧ (switchFinally w).log = w.log := ⟨rfl, rfl⟩

theorem switchAttempt_done (w : World) (store : Store) (ctx : Nat) (dev : Option JsString)
    (env : SwitchEnv) (h : (switchAttempt w store ctx dev env).2 = SwitchResult.done) :
    ∃ ps, (switchAttempt w store ctx dev env).1.store.localStream = some ps ∧
      (∃ t, ps.getAudioTracks.head? = some t) ∧
      (switchAttempt w store ctx dev env).1.store.peerConnections =
        store.peerConnections.map (fun e =>
          (e.1, { e.2 with senders := replaceAudioTrack ps.getAudioTracks.head? e.2.senders })) ∧
      LogExt notLifecycle w (switchAttempt w store ctx dev env).1 := by
  unfold switchAttempt at h ⊢
  simp only [] at h ⊢
  have hm1 := acquireMic_notLifecycle w dev env.mic
  generalize acquireMic w dev env.mic = m at h hm1 ⊢
  obtain ⟨mw, mo⟩ := m
  cases mo with
  | none => simp at h
  | some nrs =>
    have hs1 := switchStreams_notLifecycle mw store.localStream nrs
    obtain ⟨hp1, _, hp3⟩ := createAudioPipeline_notLifecycle
      (switchStreams mw store.localStream nrs) ctx env.pipeline
    simp only [] at h hs1 hp1 hp3 ⊢
    generalize createAudioPipeline (switchStreams mw store.localStream nrs) ctx
      env.pipeline = r at h hp1 hp3 ⊢
    obtain ⟨rw1, ro⟩ := r
    cases ro with
    | none => simp at h
    | some res =>
      have hsp := switchPipeline_notLifecycle rw1 res env.firstFrame
      obtain ⟨ht1, ht2⟩ := switchTracks_spec (switchPipeline rw1 res env.firstFrame)
        store.peerConnections res.stream env.replaceOk
      by_cases hok : (switchTracks (switchPipeline rw1 res env.firstFrame)
          store.peerConnections res.stream env.replaceOk).2 = true
      · obtain ⟨l1, l2⟩ := ht2 hok
        simp only [hok, if_true]
        exact ⟨res.stream, l1, hp3 res rfl, l2,
          LogExt.trans hm1 (LogExt.trans hs1 (LogExt.trans hp1
            (LogExt.trans hsp (LogExt.trans ht1 (LogExt.of_log_eq _ rfl)))))⟩
      · simp [hok] at h

theorem switchInputDevice_eq (w : World) (dev : Option JsString) (env : SwitchEnv) (ctx : Nat)
    (hsw : w.eng.switchingDevice = false) (hin : w.store.inVoice = true)
    (hctx : w.eng.audioContext = some ctx) :
    switchInputDevice w dev env =
      switchAttempt { w with eng := { w.eng with switchingDevice := true } } w.store ctx
        dev env := by
  unfold switchInputDevice
  simp only [hsw, Bool.false_eq_true, if_false]
  rw [hin, hctx]

theorem switchInputDevice_guards (w : World) (dev : Option JsString) (env : SwitchEnv)
    (h : (switchInputDevice w dev env).2 = SwitchResult.done) :
    w.eng.switchingDevice = false ∧ w.store.inVoice = true ∧
    ∃ ctx, w.eng.audioContext = some ctx := by
  unfold switchInputDevice at h
  by_cases hsw : w.eng.switchingDevice = true
  · simp [hsw] at h
  · refine ⟨by simpa using hsw, ?_⟩
    simp only [hsw, Bool.false_eq_true, if_false] at h
    cases hin : w.store.inVoice with
    | false => rw [hin] at h; simp at h
    | true =>
      cases hctx : w.eng.audioContext with
      | none => rw [hin, hctx] at h; simp at h
      | some ctx => exact ⟨rfl, ctx, rfl⟩

/-- C17: a `switchInputDevice` call that runs to the end leaves the map of peer
connections with the same keys and the same connection objects, in the same
states; the only change to a connection is that its first sender carrying an
audio track now carries the output track of the newly built pipeline (the
first audio track of the new `localStream`); and the call makes no
`new RTCPeerConnection` and no `close()` call. -/
theorem switchInputDevice_keeps_connections (w : World) (dev : Option JsString)
    (env : SwitchEnv) (h : (switchInputDevice w dev env).2 = SwitchResult.done) :
    ∃ ps newTrack,
      (switchInputDevice w dev env).1.store.localStream = some ps ∧
      ps.getAudioTracks.head? = some newTrack ∧
      (switchInputDevice w dev env).1.store.peerConnections =
        w.store.peerConnections.map (fun e =>
          (e.1, { e.2 with senders := replaceAudioTrack (some newTrack) e.2.senders })) ∧
      objKeys (switchInputDevice w dev env).1.store.peerConnections =
        objKeys w.store.peerConnections ∧
      (∀ p, (objGet (switchInputDevice w dev env).1.store.peerConnections p).map
          (fun pc => (pc.pcId, pc.connectionState, pc.signalingState)) =
        (objGet w.store.peerConnections p).map
          (fun pc => (pc.pcId, pc.connectionState, pc.signalingState))) ∧
      (∀ e ∈ w.store.peerConnections, ∀ pre s post, e.2.senders = pre ++ s :: post →
        (∀ x ∈ pre, x.isAudio = false) → s.isAudio = true →
        replaceAudioTrack (some newTrack) e.2.senders = pre ++ ⟨some newTrack⟩ :: post) ∧
      LogExt notLifecycle w (switchInputDevice w dev env).1 := by
  have hmapGet : ∀ (f : RTCPeerConnection → RTCPeerConnection) (o : Obj RTCPeerConnection)
      (p : Uid), objGet (o.map (fun e => (e.1, f e.2))) p = (objGet o p).map f := by
    intro f o p
    induction o with
    | nil => rfl
    | cons e rest ih =>
      obtain ⟨k, v⟩ := e
      by_cases hk : k = p
      · simp [objGet, hk]
      · simp [objGet, hk, ih]
  obtain ⟨hsw, hin, ctx, hctx⟩ := switchInputDevice_guards w dev env h
  rw [switchInputDevice_eq w dev env ctx hsw hin hctx] at h ⊢
  obtain ⟨ps, a1, ⟨t, a2⟩, a3, a4⟩ := switchAttempt_done
    { w with eng := { w.eng with switchingDevice := true } } w.store ctx dev env h
  refine ⟨ps, t, a1, a2, ?_, ?_, ?_, ?_, ?_⟩
  · rw [a3, a2]
  · rw [a3]
    simp [objKeys, List.map_map, Function.comp]
  · intro p
    rw [a3]
    have e := hmapGet
      (fun pc => { pc with senders := replaceAudioTrack ps.getAudioTracks.head? pc.senders })
      w.store.peerConnections p
    refine (congrArg (Option.map (fun pc : RTCPeerConnection =>
      (pc.pcId, pc.connectionState, pc.signalingState))) e).trans ?_
    cases objGet w.store.peerConnections p <;> rfl
  · intro e _ pre s post hsplit hpre hs
    rw [hsplit]
    exact replaceAudioTrack_spec (some t) pre post s hpre hs
  · exact LogExt.trans (LogExt.of_log_eq _ rfl) a4

/-- User `a`, offering to `b` over connection 10, switches to another
microphone: the connection to `b` is still connection 10 and its audio sender
now carries track 12, the output of the new pipeline. -/
theorem switchInputDevice_keeps_connections_witness :
    (switchInputDevice offeringWorldA (some [100]) goodSwitchEnv).2 = SwitchResult.done ∧
    (objGet (switchInputDevice offeringWorldA (some [100]) goodSwitchEnv).1.store.peerConnections
        uidB).map (fun pc => (pc.pcId, pc.senders)) =
      some (10, [⟨some ⟨12, TrackKind.audio⟩⟩]) ∧
    LogExt notLifecycle offeringWorldA
      (switchInputDevice offeringWorldA (some [100]) goodSwitchEnv).1 :=
  have h := switchInputDevice_keeps_connections offeringWorldA (some [100]) goodSwitchEnv
    (by decide)
  ⟨by decide, by decide, h.choose_spec.choose_spec.2.2.2.2.2.2⟩

/-! ## The detector: offset and alternation -/

theorem check_below_speaking (d : Detector) (t : Nat) (data : List Nat)
    (hrun : d.stopped = false) (hs : d.speaking = true)
    (ha : aboveThreshold d.sampleRate d.fftSize data t = false) :
    d.check t data =
      if SILENCE_DELAY < d.silenceFrames + 1 then
        ({ d with onsetFrames := 0, silenceFrames := d.silenceFrames + 1, speaking := false },
          offsetOutput d.gateNode)
      else ({ d with onsetFrames := 0, silenceFrames := d.silenceFrames + 1 }, quietOutput) := by
  unfold Detector.check
  by_cases h : SILENCE_DELAY < d.silenceFrames + 1
  · simp [hrun, hs, ha, h, offsetOutput]
  · simp [hrun, hs, ha, h, quietOutput]

theorem run_below_notSpeaking (fs : List (Nat × List Nat)) (d : Detector)
    (hrun : d.stopped = false) (hs : d.speaking = false)
    (hbelow : ∀ f ∈ fs, aboveThreshold d.sampleRate d.fftSize f.2 f.1 = false) :
    (d.run fs).1.speaking = false ∧
    ∀ i, i < fs.length → (d.run fs).2.get? i = some quietOutput := by
  induction fs generalizing d with
  | nil => exact ⟨hs, fun i hi => absurd hi (by simp)⟩
  | cons f rest ih =>
    have hc := check_below_notSpeaking d f.1 f.2 hrun hs (hbelow f (List.mem_cons_self _ _))
    have ih' := ih (d.check f.1 f.2).1 (by rw [hc]; exact hrun) (by rw [hc]; exact hs)
      (by rw [hc]; exact fun x hx => hbelow x (List.mem_cons_of_mem _ hx))
    refine ⟨ih'.1, ?_⟩
    intro i hi
    cases i with
    | zero => simp [Detector.run, hc]
    | succ j =>
      have := ih'.2 j (by simpa using hi)
      simpa [Detector.run] using this

theorem run_below_speaking (fs : List (Nat × List Nat)) (d : Detector)
    (hrun : d.stopped = false) (hs : d.speaking = true)
    (hbelow : ∀ f ∈ fs, aboveThreshold d.sampleRate d.fftSize f.2 f.1 = false) :
    ((d.run fs).1.speaking = decide (fs.length ≤ SILENCE_DELAY - d.silenceFrames)) ∧
    ∀ i, i < fs.length → (d.run fs).2.get? i =
      some (if i = SILENCE_DELAY - d.silenceFrames then offsetOutput d.gateNode
        else quietOutput) := by
  induction fs generalizing d with
  | nil => exact ⟨by simp [Detector.run, hs], fun i hi => absurd hi (by simp)⟩
  | cons f rest ih =>
    have hc := check_below_speaking d f.1 f.2 hrun hs (hbelow f (List.mem_cons_self _ _))
    by_cases h : SILENCE_DELAY < d.silenceFrames + 1
    · rw [if_pos h] at hc
      have hz : SILENCE_DELAY - d.silenceFrames = 0 := by omega
      have sp := run_below_notSpeaking rest (d.check f.1 f.2).1 (by rw [hc]; exact hrun)
        (by rw [hc]) (by rw [hc]; exact fun x hx => hbelow x (List.mem_cons_of_mem _ hx))
      refine ⟨by simp [Detector.run, sp.1, hz], ?_⟩
      intro i hi
      cases i with
      | zero => simp [Detector.run, hc, hz]
      | succ j =>
        have := sp.2 j (by simpa using hi)
        simpa [Detector.run, hz] using this
    · rw [if_neg h] at hc
      have ih' := ih (d.check f.1 f.2).1 (by rw [hc]; exact hrun) (by rw [hc]; exact hs)
        (by rw [hc]; exact fun x hx => hbelow x (List.mem_cons_of_mem _ hx))
      have hg : (d.check f.1 f.2).1.gateNode = d.gateNode := by rw [hc]
      have ho : (d.check f.1 f.2).1.silenceFrames = d.silenceFrames + 1 := by rw [hc]
      rw [hg, ho] at ih'
      have hsucc : SILENCE_DELAY - d.silenceFrames =
          (SILENCE_DELAY - (d.silenceFrames + 1)) + 1 := by omega
      refine ⟨?_, ?_⟩
      · simp only [Detector.run, ih'.1, List.length_cons]
        rw [hsucc]; simp
      · intro i hi
        cases i with
        | zero =>
          have : ¬ (0 = SILENCE_DELAY - d.silenceFrames) := by omega
          simp [Detector.run, hc, this]
        | succ j =>
          have := ih'.2 j (by simpa using hi)
          simp only [Detector.run, List.get?_cons_succ, this]
          rw [hsucc]; simp

/-- C21 (the code at a concrete run): a speaking detector that has just seen an
above-threshold frame is given 15 below-threshold frames in a row. No frame of
the run reports anything and the detector is still speaking; only the 16th
below-threshold frame switches. -/
theorem fifteen_silent_frames_do_not_switch :
    SILENCE_DELAY = 15 ∧
    (speakingDetector.run (List.replicate 15 (20, silentFrame))).2 =
      List.replicate 15 quietOutput ∧
    (speakingDetector.run (List.replicate 15 (20, silentFrame))).1.speaking = true ∧
    (speakingDetector.run (List.replicate 16 (20, silentFrame))).2 =
      List.replicate 15 quietOutput ++ [offsetOutput (some 0)] ∧
    (speakingDetector.run (List.replicate 16 (20, silentFrame))).1.speaking = false := by
  decide

/-- C21 (amended): a running detector that is speaking and has just seen an
above-threshold frame (silence count 0). Over a run of below-threshold frames
it calls `onSpeaking(false)` (and ramps the gate shut when one is attached) on
exactly one frame, the one that completes `SILENCE_DELAY + 1 = 16` consecutive
below-threshold frames; up to 15 such frames leave it speaking. An
above-threshold frame after at most 15 below-threshold frames leaves every
frame without a report, the detector speaking and the silence count reset. -/
theorem offset_after_silence_delay (d : Detector) (hrun : d.stopped = false)
    (hs : d.speaking = true) (h0 : d.silenceFrames = 0) :
    (∀ fs : List (Nat × List Nat),
      (∀ f ∈ fs, aboveThreshold d.sampleRate d.fftSize f.2 f.1 = false) →
      (∀ i, i < fs.length → (d.run fs).2.get? i =
        some (if i + 1 = SILENCE_DELAY + 1 then offsetOutput d.gateNode else quietOutput)) ∧
      ((d.run fs).1.speaking = decide (fs.length ≤ SILENCE_DELAY))) ∧
    (∀ (fs : List (Nat × List Nat)) (t : Nat) (data : List Nat),
      (∀ f ∈ fs, aboveThreshold d.sampleRate d.fftSize f.2 f.1 = false) →
      fs.length ≤ SILENCE_DELAY →
      aboveThreshold d.sampleRate d.fftSize data t = true →
      (∀ o ∈ (d.run (fs ++ [(t, data)])).2, o = quietOutput) ∧
      (d.run (fs ++ [(t, data)])).1.speaking = true ∧
      (d.run (fs ++ [(t, data)])).1.silenceFrames = 0) := by
  refine ⟨?_, ?_⟩
  · intro fs hbelow
    obtain ⟨r1, r2⟩ := run_below_speaking fs d hrun hs hbelow
    rw [h0] at r1 r2
    constructor
    · intro i hi
      rw [r2 i hi]
      by_cases hc : i = SILENCE_DELAY - 0
      · rw [if_pos hc, if_pos (by omega)]
      · rw [if_neg hc, if_neg (by omega)]
    · rw [r1]; rfl
  · intro fs t data hbelow hlen habove
    obtain ⟨r1, r2⟩ := run_below_speaking fs d hrun hs hbelow
    rw [h0] at r1 r2
    obtain ⟨s1, s2, s3, _, s5⟩ := run_static fs d
    obtain ⟨a1, a2⟩ := run_append fs [(t, data)] d
    have hsp : (d.run fs).1.speaking = true := by
      rw [r1]; simpa using hlen
    have hb := check_above_speaking (d.run fs).1 t data (by rw [s1]; exact hrun) hsp
      (by rw [s2, s3]; exact habove)
    have hl1 : ((d.run fs).1.run [(t, data)]).1 = ((d.run fs).1.check t data).1 := rfl
    have hl2 : ((d.run fs).1.run [(t, data)]).2 = [((d.run fs).1.check t data).2] := rfl
    rw [a1, a2, hl1, hl2, hb]
    refine ⟨?_, hsp, rfl⟩
    intro o ho
    rcases List.mem_append.mp ho with h | h
    · obtain ⟨i, hi, rfl⟩ := List.getElem_of_mem h
      have hi' : i < fs.length := by rw [← s5]; exact hi
      have := r2 i hi'
      rw [List.get?_eq_getElem?, List.getElem?_eq_getElem hi] at this
      have hne : ¬ (i = SILENCE_DELAY - 0) := by omega
      rw [if_neg hne] at this
      exact Option.some.inj this
    · simpa using h

/-- The speaking detector of the example over 16 silent frames: it is no
longer speaking. -/
theorem offset_after_silence_delay_witness :
    (speakingDetector.run (List.replicate 16 (20, silentFrame))).1.speaking = false :=
  ((offset_after_silence_delay speakingDetector rfl rfl rfl).1
    (List.replicate 16 (20, silentFrame))
    (by intro f hf; rw [List.eq_of_mem_replicate hf]; decide)).2

theorem check_call (d : Detector) (t : Nat) (data : List Nat) :
    ((d.check t data).2.onSpeaking = none ∧ (d.check t data).1.speaking = d.speaking) ∨
    ((d.check t data).2.onSpeaking = some (!d.speaking) ∧
      (d.check t data).1.speaking = !d.speaking) := by
  unfold Detector.check
  by_cases h1 : d.stopped = true
  · simp [h1]
  · by_cases h2 : aboveThreshold d.sampleRate d.fftSize data t = true
    · by_cases h3 : d.speaking = true
      · simp [h1, h2, h3]
      · by_cases h4 : ONSET_DELAY d.gateNode ≤ d.onsetFrames + 1
        · simp [h1, h2, h3, h4]
        · simp [h1, h2, h3, h4]
    · by_cases h3 : d.speaking = true
      · by_cases h4 : SILENCE_DELAY < d.silenceFrames + 1
        · simp [h1, h2, h3, h4]
        · simp [h1, h2, h3, h4]
      · simp [h1, h2, h3]

theorem run_calls (fs : List (Nat × List Nat)) (d : Detector) :
    alternating (!d.speaking) (speakingCalls (d.run fs).2) = true ∧
    (d.run fs).1.speaking = ((speakingCalls (d.run fs).2).getLast?).getD d.speaking := by
  induction fs generalizing d with
  | nil => simp [Detector.run, speakingCalls, alternating]
  | cons f rest ih =>
    obtain ⟨i1, i2⟩ := ih (d.check f.1 f.2).1
    rcases check_call d f.1 f.2 with ⟨c1, c2⟩ | ⟨c1, c2⟩
    · rw [c2] at i1 i2
      simp only [Detector.run, speakingCalls, List.filterMap_cons, c1]
      exact ⟨i1, i2⟩
    · rw [c2] at i1 i2
      simp only [Detector.run, speakingCalls, List.filterMap_cons, c1]
      refine ⟨by simpa [alternating] using i1, ?_⟩
      rw [i2]
      cases hl : List.filterMap CheckOutput.onSpeaking
        (Detector.run (d.check f.1 f.2).1 rest).2 with
      | nil => simp [speakingCalls, hl]
      | cons x xs =>
        simp [speakingCalls, hl, List.getLast?_cons_cons,
          List.getLast?_eq_getLast _ (List.cons_ne_nil x xs)]

/-- C30: for every sequence of analysed frames, the arguments of the
`onSpeaking` calls of a detector alternate, the first being the opposite of
the speaking state the detector starts from, and after the run the speaking
state equals the argument of the latest call (the initial state if there was
none). A detector starts not speaking (line 100), so its calls start with
`true`, and no value is reported twice in a row. -/
theorem onSpeaking_calls_alternate (d : Detector) (fs : List (Nat × List Nat)) :
    alternating (!d.speaking) (speakingCalls (d.run fs).2) = true ∧
    (d.run fs).1.speaking = ((speakingCalls (d.run fs).2).getLast?).getD d.speaking ∧
    (d.speaking = false → alternating true (speakingCalls (d.run fs).2) = true) ∧
    (∀ i b, (speakingCalls (d.run fs).2).get? i = some b →
      (speakingCalls (d.run fs).2).get? (i + 1) ≠ some b) := by
  obtain ⟨r1, r2⟩ := run_calls fs d
  have halt : ∀ (l : List Bool) (s : Bool), alternating s l = true →
      ∀ i b, l.get? i = some b → l.get? (i + 1) ≠ some b := by
    intro l
    induction l with
    | nil => intro s _ i b h; simp at h
    | cons x xs ih =>
      intro s hs i b h
      simp only [alternating, Bool.and_eq_true, beq_iff_eq] at hs
      cases i with
      | zero =>
        simp only [List.get?_cons_zero, Option.some.injEq] at h
        cases xs with
        | nil => simp
        | cons y ys =>
          simp only [alternating, Bool.and_eq_true, beq_iff_eq] at hs
          simp only [List.get?_cons_succ, List.get?_cons_zero, ne_eq, Option.some.injEq]
          rw [hs.2.1, ← h, hs.1]
          cases s <;> decide
      | succ j => exact ih (!s) hs.2 j b (by simpa using h)
  refine ⟨r1, r2, fun h => by rw [h] at r1; exact r1, halt _ _ r1⟩

/-- A fresh detector over three loud frames and sixteen silent ones: it calls
`onSpeaking(true)` and then `onSpeaking(false)`. -/
theorem onSpeaking_calls_alternate_witness :
    alternating true (speakingCalls
      (({ speakingDetector with speaking := false, onsetFrames := 0 } : Detector).run
        (List.replicate 3 (20, loudFrame) ++ List.replicate 16 (20, silentFrame))).2) = true :=
  (onSpeaking_calls_alternate { speakingDetector with speaking := false, onsetFrames := 0 }
    (List.replicate 3 (20, loudFrame) ++ List.replicate 16 (20, silentFrame))).2.2.1 rfl

/-! ## The credential cache -/

theorem fetchTurnCredentials_step (w : World) (now : Nat) (o : TurnOutcome) :
    ((decide (now < w.eng.turnCacheExpiry) &&
        decide (w.eng.ICE_SERVERS.length > STUN_SERVERS.length)) = true →
      fetchTurnCredentials w now o = w) ∧
    ((decide (now < w.eng.turnCacheExpiry) &&
        decide (w.eng.ICE_SERVERS.length > STUN_SERVERS.length)) = false →
      (fetchTurnCredentials w now o).log = w.log ++ [Effect.turnFetch o.answered] ∧
      (∀ ts t, o = TurnOutcome.returned ts t → 0 < ts.length →
        (fetchTurnCredentials w now o).eng.ICE_SERVERS = STUN_SERVERS ++ ts ∧
        (fetchTurnCredentials w now o).eng.turnCacheExpiry = t + 3600000) ∧
      ((o = TurnOutcome.failed ∨ ∃ t, o = TurnOutcome.returned [] t) →
        (fetchTurnCredentials w now o).eng.ICE_SERVERS = STUN_SERVERS ∧
        (fetchTurnCredentials w now o).eng.turnCacheExpiry = w.eng.turnCacheExpiry)) := by
  unfold fetchTurnCredentials
  constructor
  · intro h
    rw [if_pos h]
  · intro h
    rw [if_neg (by rw [h]; decide)]
    cases o with
    | failed =>
      refine ⟨rfl, ?_, fun _ => ⟨rfl, rfl⟩⟩
      intro ts t e
      cases e
    | returned ts t =>
      by_cases hl : ts.length > 0
      · simp only [hl, if_true]
        refine ⟨rfl, fun ts2 t2 e _ => ?_, fun hc => ?_⟩
        · cases e; exact ⟨rfl, rfl⟩
        · rcases hc with e | ⟨t2, e⟩
          · cases e
          · cases e; simp at hl
      · simp only [hl, if_false]
        refine ⟨rfl, fun ts2 t2 e hp => ?_, fun _ => ⟨by simp [World.emit], by simp [World.emit]⟩⟩
        cases e; exact absurd hp hl

theorem turnCache_invariant (calls : List (Nat × TurnOutcome)) (w : World) (last : LastFetch)
    (hinv : ∀ now, (decide (now < w.eng.turnCacheExpiry) &&
        decide (w.eng.ICE_SERVERS.length > STUN_SERVERS.length)) = cacheFresh last now) :
    ∀ now, (decide (now < (turnCalls w calls).eng.turnCacheExpiry) &&
        decide ((turnCalls w calls).eng.ICE_SERVERS.length > STUN_SERVERS.length)) =
      cacheFresh (calls.foldl (fun l c => recordFetch l c.1 c.2) last) now := by
  induction calls generalizing w last with
  | nil => exact hinv
  | cons c rest ih =>
    simp only [turnCalls, List.foldl_cons]
    apply ih
    intro now
    obtain ⟨s1, s2⟩ := fetchTurnCredentials_step w c.1 c.2
    unfold recordFetch
    by_cases hf : cacheFresh last c.1 = true
    · rw [s1 (by rw [hinv]; exact hf), if_pos hf]
      exact hinv now
    · have hf2 : cacheFresh last c.1 = false := by simpa using hf
      obtain ⟨_, t1, t2⟩ := s2 (by rw [hinv]; exact hf2)
      rw [if_neg hf]
      cases hc : c.2 with
      | failed =>
        obtain ⟨u1, u2⟩ := t2 (Or.inl hc)
        rw [hc] at u1 u2
        rw [u1]
        simp [cacheFresh]
      | returned ts t =>
        by_cases hl : 0 < ts.length
        · obtain ⟨u1, u2⟩ := t1 ts t hc hl
          rw [hc] at u1 u2
          rw [u1, u2]
          have h1 : 1 ≤ ts.length := hl
          simp [cacheFresh, h1, STUN_SERVERS, hl]
        · have hz : ts = [] := by
            cases ts with
            | nil => rfl
            | cons a b => simp at hl
          subst hz
          obtain ⟨u1, u2⟩ := t2 (Or.inr ⟨t, hc⟩)
          rw [hc] at u1 u2
          rw [u1]
          simp [cacheFresh]

/-- C22: after any sequence of `fetchTurnCredentials` calls from page load, a
further call at time `now` skips the fetch (it changes nothing and calls
nothing) exactly when the most recent fetch returned at least one TURN server
and its answer was processed less than 3,600,000 ms before `now`; otherwise it
makes exactly one fetch. A fetch that fails or returns no TURN server sets the
server list to the STUN servers, and the call after it, whenever it is made,
fetches again. -/
theorem turn_cache_skips_iff_fresh (uid : Option Uid) (calls : List (Nat × TurnOutcome))
    (now : Nat) (o : TurnOutcome) :
    (cacheFresh (lastFetchOf calls) now = true →
      fetchTurnCredentials (turnCalls (initialWorld uid) calls) now o =
        turnCalls (initialWorld uid) calls) ∧
    (cacheFresh (lastFetchOf calls) now = false →
      (fetchTurnCredentials (turnCalls (initialWorld uid) calls) now o).log =
        (turnCalls (initialWorld uid) calls).log ++ [Effect.turnFetch o.answered] ∧
      ((o = TurnOutcome.failed ∨ ∃ t, o = TurnOutcome.returned [] t) →
        (fetchTurnCredentials (turnCalls (initialWorld uid) calls) now o).eng.ICE_SERVERS =
          STUN_SERVERS ∧
        ∀ now2 o2,
          (fetchTurnCredentials
            (fetchTurnCredentials (turnCalls (initialWorld uid) calls) now o) now2 o2).log =
          (fetchTurnCredentials (turnCalls (initialWorld uid) calls) now o).log ++
            [Effect.turnFetch o2.answered])) := by
  have hinv := turnCache_invariant calls (initialWorld uid) none
    (by intro n; simp [initialWorld, initialEngine, cacheFresh])
  obtain ⟨s1, s2⟩ := fetchTurnCredentials_step (turnCalls (initialWorld uid) calls) now o
  refine ⟨fun h => s1 (by rw [hinv]; exact h), fun h => ?_⟩
  obtain ⟨a1, _, a3⟩ := s2 (by rw [hinv]; exact h)
  refine ⟨a1, fun hc => ?_⟩
  obtain ⟨u1, _⟩ := a3 hc
  refine ⟨u1, fun now2 o2 => ?_⟩
  exact ((fetchTurnCredentials_step _ now2 o2).2 (by rw [u1]; simp)).1

/-- A fetch at time 1000 returns one TURN server (answer processed at 1500):
the call at 3,601,499 is skipped, the call at 3,601,500 fetches. -/
theorem turn_cache_skips_iff_fresh_witness :
    fetchTurnCredentials (turnCalls (initialWorld none) [(1000, TurnOutcome.returned [7] 1500)])
        3601499 TurnOutcome.failed =
      turnCalls (initialWorld none) [(1000, TurnOutcome.returned [7] 1500)] ∧
    (fetchTurnCredentials (turnCalls (initialWorld none) [(1000, TurnOutcome.returned [7] 1500)])
        3601500 TurnOutcome.failed).log =
      (turnCalls (initialWorld none) [(1000, TurnOutcome.returned [7] 1500)]).log ++
        [Effect.turnFetch false] :=
  ⟨(turn_cache_skips_iff_fresh none [(1000, TurnOutcome.returned [7] 1500)] 3601499
      TurnOutcome.failed).1 (by decide),
   ((turn_cache_skips_iff_fresh none [(1000, TurnOutcome.returned [7] 1500)] 3601500
      TurnOutcome.failed).2 (by decide)).1⟩

/-! ## Failure paths -/

/-- C23 (the code at the failing input): user `a` starts voice, the module
load on context 1 succeeds and the construction of the suppressor node throws.
The failure path closes context 1 and clears `audioContext` but leaves
`workletLoaded` true. The next start creates context 2, skips the load because
the flag is true, and builds its pipeline on context 2, on which the module was
never loaded: the only successful load in the record is that on context 1.
After a start that succeeded, `stopVoice` does reset the flag. -/
theorem failed_start_leaves_worklet_flag :
    (startVoice (joinedWorld uidA [presenceOf uidA]) [103] [99] nodeFailEnv).1 = false ∧
    failedStartWorldA.eng.audioContext = none ∧
    failedStartWorldA.browser.closedContexts = [1] ∧
    failedStartWorldA.eng.workletLoaded = true ∧
    (startVoice failedStartWorldA [103] [99] goodStartEnv).1 = true ∧
    (startVoice failedStartWorldA [103] [99] goodStartEnv).2.eng.audioContext = some 2 ∧
    (startVoice failedStartWorldA [103] [99] goodStartEnv).2.eng.workletLoaded = true ∧
    modulesLoaded (startVoice failedStartWorldA [103] [99] goodStartEnv).2.log = [1] ∧
    (stopVoice startedWorldA (fun _ => okSigEnv)).eng.workletLoaded = false := by
  decide

/-- C27 (the code at the failing inputs): user `a`, offering to `b`, switches
the microphone. When the pipeline rebuild throws, the call rejects: only the
`finally` block runs, after the old raw track 101 and the old processed track 3
were stopped, and `localStream` is still the old, stopped stream. When
`replaceTrack` is rejected the call rejects too. Only a refused microphone is
caught and turned into a return. -/
theorem switchInputDevice_rejects_on_pipeline_failure :
    (switchInputDevice offeringWorldA (some [100]) pipelineFailSwitchEnv).2 =
      SwitchResult.threw ∧
    (switchInputDevice offeringWorldA (some [100]) pipelineFailSwitchEnv).1.eng.switchingDevice
      = false ∧
    (switchInputDevice offeringWorldA (some [100])
      pipelineFailSwitchEnv).1.browser.stoppedTracks = [101, 3] ∧
    (switchInputDevice offeringWorldA (some [100]) pipelineFailSwitchEnv).1.store.localStream =
      some ⟨2, [⟨3, TrackKind.audio⟩]⟩ ∧
    (switchInputDevice offeringWorldA (some [100]) replaceFailSwitchEnv).2 =
      SwitchResult.threw ∧
    (switchInputDevice offeringWorldA (some [100]) micFailSwitchEnv).2 =
      SwitchResult.micFailed := by
  decide

/-- C28 (the code at the failing input): user `a` presses mute while
`startVoice` waits for the credential fetch. The start succeeds, `isMuted` is
true, and the mute gain of the new pipeline (gain node 1) has value 1: the
start registers the mute callback without applying the current mute state. A
device switch made in that state does apply it (the new mute gain has value
0). -/
theorem mute_before_pipeline_leaves_gain_open :
    mutedDuringStartA.1 = true ∧
    mutedDuringStartA.2.store.isMuted = true ∧
    mutedDuringStartA.2.eng.micMuteGain = some 1 ∧
    muteGainValue mutedDuringStartA.2 = some 1 ∧
    (switchInputDevice mutedDuringStartA.2 (some [100]) goodSwitchEnv).2 = SwitchResult.done ∧
    muteGainValue (switchInputDevice mutedDuringStartA.2 (some [100]) goodSwitchEnv).1 =
      some 0 := by
  decide

/-! ## Deleting handled signaling documents -/

theorem docsDeleted_append (l1 l2 : List Effect) :
    docsDeleted (l1 ++ l2) = docsDeleted l1 ++ docsDeleted l2 := by
  induction l1 with
  | nil => rfl
  | cons e rest ih => cases e <;> simp [docsDeleted, ih]

theorem docsDeleted_of_notDelete (l : List Effect) (h : ∀ e ∈ l, notDelete e = true) :
    docsDeleted l = [] := by
  induction l with
  | nil => rfl
  | cons e rest ih =>
    have he := h e (List.mem_cons_self _ _)
    have ih2 := ih (fun x hx => h x (List.mem_cons_of_mem _ hx))
    cases e <;>
      first
        | (simp [notDelete, Effect.isDelete] at he; done)
        | (simp [docsDeleted, ih2])

theorem LogExt.docsDeleted {w w' : World} (h : LogExt notDelete w w') :
    Dizkord.docsDeleted w'.log = Dizkord.docsDeleted w.log := by
  obtain ⟨s, e, p⟩ := h
  rw [e, docsDeleted_append, docsDeleted_of_notDelete s p, List.append_nil]

theorem removePeer_notDelete (w : World) (p : Uid) : LogExt notDelete w (removePeer w p) := by
  refine ⟨_, by rw [removePeer_log, List.append_assoc], ?_⟩
  intro e he
  cases h1 : objGet w.store.peerConnections p <;>
    cases h2 : objGet w.eng.speakingDetectors p <;>
    simp [h1, h2] at he <;>
    first
      | (rcases he with he | he <;> subst he <;> rfl)
      | (subst he; rfl)

theorem flushIceCandidates_notDelete (w : World) (p : Uid) (pc : RTCPeerConnection)
    (env : SigEnv) : LogExt notDelete w (flushIceCandidates w p pc env) := by
  unfold flushIceCandidates
  split
  · exact LogExt.refl _ _
  · exact LogExt.refl _ _
  · rename_i c cs _
    have hf := LogExt.foldl notDelete
      (fun acc cand => (addIceCandidate acc p pc cand env).1)
      (fun a b => LogExt.emit notDelete a _ rfl) (c :: cs) w
    exact LogExt.trans hf (LogExt.of_log_eq _ rfl)

theorem setRemoteDescription_notDelete (w : World) (p : Uid) (pc : RTCPeerConnection)
    (t : SdpType) (sdp : Sdp) (env : SigEnv) :
    LogExt notDelete w (setRemoteDescription w p pc t sdp env).1 := by
  unfold setRemoteDescription
  have h := LogExt.emit notDelete w (Effect.setRemoteDescription p pc.pcId env.setRemoteOk) rfl
  split
  · exact LogExt.trans h (LogExt.of_log_eq _ rfl)
  · exact h

theorem addDoc_notDelete (w : World) (t : DocType) (r : Uid) (env : SigEnv) :
    LogExt notDelete w (addDoc w t r env).1 := by
  unfold addDoc
  split
  · exact LogExt.emit _ _ _ rfl
  · exact LogExt.refl _ _

theorem answerOffer_notDelete (w : World) (p : Uid) (pc : RTCPeerConnection) (sdp : Sdp)
    (env : SigEnv) : LogExt notDelete w (answerOffer w p pc sdp env).1 := by
  unfold answerOffer
  have h1 := setRemoteDescription_notDelete w p pc SdpType.offer sdp env
  by_cases hok : (setRemoteDescription w p pc SdpType.offer sdp env).2.2 = true
  · have h2 := flushIceCandidates_notDelete (setRemoteDescription w p pc SdpType.offer sdp env).1
      p (setRemoteDescription w p pc SdpType.offer sdp env).2.1 env
    have h3 : LogExt notDelete w
        (setLocalDescription
          (flushIceCandidates (setRemoteDescription w p pc SdpType.offer sdp env).1 p
            (setRemoteDescription w p pc SdpType.offer sdp env).2.1 env) p
          (setRemoteDescription w p pc SdpType.offer sdp env).2.1 SdpType.answer env).1 :=
      LogExt.trans (LogExt.trans h1 h2) (LogExt.of_log_eq _ (setLocalDescription_log _ _ _ _ _))
    simp only [hok, Bool.not_true, Bool.false_eq_true, if_false]
    split
    · exact h3
    · exact LogExt.trans h3 (addDoc_notDelete _ _ _ _)
  · simp only [hok, Bool.not_false, if_true]
    simpa [hok] using h1

theorem createPeerConnection_notDelete (w : World) (p : Uid) (ls : Option MediaStream)
    (isOff : Bool) (sdp : Option Sdp) (env : SigEnv) :
    LogExt notDelete w (createPeerConnection w p ls isOff sdp env).1 := by
  have h1 : LogExt notDelete w (newPeerConnection w p ls isOff).1 := by
    unfold newPeerConnection
    exact LogExt.trans
      (LogExt.emit notDelete w (Effect.newPeerConnection p w.browser.nextId isOff) rfl)
      (LogExt.of_log_eq _ rfl)
  have h2 : ∀ (x : World) (pc : RTCPeerConnection),
      LogExt notDelete x (peerSetup x p pc isOff sdp env).1 := by
    intro x pc
    unfold peerSetup
    split
    · have h1 : LogExt notDelete x (setLocalDescription x p pc SdpType.offer env).1 :=
        LogExt.of_log_eq _ (setLocalDescription_log _ _ _ _ _)
      simp only []
      split
      · exact h1
      · exact LogExt.trans h1 (addDoc_notDelete _ _ _ _)
    · split
      · exact answerOffer_notDelete _ _ _ _ _
      · exact LogExt.refl _ _
  have h3 : ∀ (x : World) (i : Nat), LogExt notDelete x (addScreenTracks x p i isOff) := by
    intro x i
    unfold addScreenTracks
    split
    · split
      · exact LogExt.refl _ _
      · cases hq : objGet x.store.peerConnections p <;>
          exact ⟨[Effect.setTimeout _], rfl, by simp [notDelete, Effect.isDelete]⟩
    · exact LogExt.refl _ _
  unfold createPeerConnection
  simp only []
  split
  · exact LogExt.trans (LogExt.trans h1 (h2 _ _)) (removePeer_notDelete _ _)
  · exact LogExt.trans (LogExt.trans h1 (h2 _ _)) (h3 _ _)

theorem handleSignal_notDelete (w : World) (data : SignalingDoc) (env : SigEnv) :
    LogExt notDelete w (handleSignal w data env) := by
  unfold handleSignal
  simp only []
  split
  · split
    · split
      · exact answerOffer_notDelete _ _ _ _ _
      · exact createPeerConnection_notDelete _ _ _ _ _ _
    · exact createPeerConnection_notDelete _ _ _ _ _ _
  · split
    · rename_i pc _
      split
      · have h1 := setRemoteDescription_notDelete w data.sender pc SdpType.answer data.sdp env
        by_cases hok : (setRemoteDescription w data.sender pc SdpType.answer data.sdp env).2.2 = true
        · simp only [hok, Bool.not_true, Bool.false_eq_true, if_false]
          exact LogExt.trans h1 (flushIceCandidates_notDelete _ _ _ _)
        · simp only [hok, Bool.not_false, if_true]
          simpa [hok] using h1
      · exact LogExt.refl _ _
    · exact LogExt.refl _ _
  · split
    · split
      · exact LogExt.emit _ _ _ rfl
      · exact LogExt.of_log_eq _ rfl
    · exact LogExt.refl _ _
  · exact LogExt.refl _ _

theorem handleDocChange_deleted (uid : Uid) (w : World) (c : DocChange) (env : SigEnv) :
    docsDeleted (handleDocChange uid w c env).log =
      docsDeleted w.log ++ (if addressedTo uid c then [c.doc.ref] else []) := by
  unfold handleDocChange addressedTo
  by_cases h1 : c.type = ChangeType.added
  · by_cases h2 : c.doc.recipient = uid
    · simp only [h1, h2, ne_eq, not_true_eq_false, if_false, decide_True, Bool.and_self, if_true,
        World.emit, docsDeleted_append, (handleSignal_notDelete w c.doc env).docsDeleted]
      rfl
    · simp [h1, h2]
  · simp [h1]

theorem foldl_handleDocChange_deleted (uid : Uid) (cs : List (DocChange × SigEnv)) (w : World) :
    docsDeleted (cs.foldl (fun acc c => handleDocChange uid acc c.1 c.2) w).log =
      docsDeleted w.log ++
        (cs.filter (fun c => addressedTo uid c.1)).map (fun c => c.1.doc.ref) := by
  induction cs generalizing w with
  | nil => simp
  | cons c rest ih =>
    rw [List.foldl_cons, ih, handleDocChange_deleted]
    by_cases h : addressedTo uid c.1 = true
    · simp [h, List.filter_cons]
    · simp [h, List.filter_cons]

/-- C24: a signaling snapshot handled while the session is active. The
`deleteDoc` calls it makes are exactly one per added document addressed to the
local user, in snapshot order; for such a document, of whatever type and
whatever the outcome of handling it, the call comes right after the handling
and is the only `deleteDoc` call of the iteration; a change that is not an
added document addressed to the local user is skipped with the state
unchanged. -/
theorem handled_documents_deleted_once (uid : Uid) (w : World)
    (changes : List (DocChange × SigEnv)) (hactive : w.eng.voiceActive = true) :
    docsDeleted (onSignalingSnapshot uid w changes).log =
      docsDeleted w.log ++
        (changes.filter (fun c => addressedTo uid c.1)).map (fun c => c.1.doc.ref) ∧
    (∀ (x : World) (c : DocChange) (env : SigEnv), addressedTo uid c = true →
      (handleDocChange uid x c env).log =
        (handleSignal x c.doc env).log ++ [Effect.deleteDoc c.doc.ref env.deleteDocOk] ∧
      docsDeleted (handleSignal x c.doc env).log = docsDeleted x.log) ∧
    (∀ (x : World) (c : DocChange) (env : SigEnv), addressedTo uid c = false →
      handleDocChange uid x c env = x) := by
  refine ⟨?_, ?_, ?_⟩
  · have hu : onSignalingSnapshot uid w changes =
        changes.foldl (fun acc c => handleDocChange uid acc c.1 c.2) w := by
      simp [onSignalingSnapshot, hactive]
    rw [hu]
    exact foldl_handleDocChange_deleted uid changes w
  · intro x c env hc
    simp only [addressedTo, Bool.and_eq_true, decide_eq_true_eq] at hc
    refine ⟨?_, (handleSignal_notDelete x c.doc env).docsDeleted⟩
    unfold handleDocChange
    simp [hc.1, hc.2, World.emit]
  · intro x c env hc
    unfold handleDocChange
    by_cases h1 : c.type = ChangeType.added
    · have h2 : c.doc.recipient ≠ uid := by
        intro e
        simp [addressedTo, h1, e] at hc
      simp [h1, h2]
    · simp [h1]

/-- User `b` handles a snapshot with a candidate, an offer and a candidate of
`a` and one document addressed to `c`: documents 1, 2 and 3 are deleted, in that
order, and document 4 is not. -/
theorem handled_documents_deleted_once_witness :
    docsDeleted (onSignalingSnapshot uidB startedWorldB
      [addedDoc 1 DocType.iceCandidate uidA uidB [] 7, addedDoc 2 DocType.offer uidA uidB [1] 0,
       addedDoc 4 DocType.offer uidA uidC [1] 0,
       addedDoc 3 DocType.iceCandidate uidA uidB [] 9]).log =
      docsDeleted startedWorldB.log ++ [1, 2, 3] :=
  (handled_documents_deleted_once uidB startedWorldB
    [addedDoc 1 DocType.iceCandidate uidA uidB [] 7, addedDoc 2 DocType.offer uidA uidB [1] 0,
     addedDoc 4 DocType.offer uidA uidC [1] 0,
     addedDoc 3 DocType.iceCandidate uidA uidB [] 9] (by decide)).1

/-! ## Flushing a candidate queue -/

/-- C25: `flushIceCandidates` for peer `p` on connection `pc` calls
`addIceCandidate` once for every queued candidate of `p`, in queue order and
whatever the outcome of the earlier calls (a call fails when the browser
rejects the candidate or no remote description is set); afterwards the queue of
`p` is empty, and the queues of the other peers and the store are unchanged. -/
theorem flush_attempts_every_candidate (w : World) (p : Uid) (pc : RTCPeerConnection)
    (env : SigEnv) :
    (flushIceCandidates w p pc env).log =
      w.log ++ ((objGet w.eng.pendingIceCandidates p).getD []).map
        (fun c => Effect.addIceCandidate p pc.pcId c pc.remoteDescription.isSome
          (pc.remoteDescription.isSome && decide (c ∉ env.badCandidates))) ∧
    (objGet (flushIceCandidates w p pc env).eng.pendingIceCandidates p).getD [] = [] ∧
    (∀ k, k ≠ p → objGet (flushIceCandidates w p pc env).eng.pendingIceCandidates k =
      objGet w.eng.pendingIceCandidates k) ∧
    (flushIceCandidates w p pc env).store = w.store := by
  unfold flushIceCandidates
  split
  · rename_i h; simp [h]
  · rename_i h; simp [h]
  · rename_i c cs h
    obtain ⟨h1, h2, h3⟩ := foldl_addIceCandidate p pc env (c :: cs) w
    refine ⟨?_, ?_, ?_, ?_⟩
    · simp only [h1, h, Option.getD_some]
    · simp only [objGet_objDel_same, Option.getD_none]
    · intro k hk
      simp only [h2]
      exact objGet_objDel_ne _ _ _ hk
    · simp only [h3]

/-! ## Removing a peer -/

theorem removePeer_store (w : World) (p : Uid) :
    (removePeer w p).store.remoteStreams = objDel w.store.remoteStreams p ∧
    (removePeer w p).store.remoteVideoStreams = objDel w.store.remoteVideoStreams p ∧
    (removePeer w p).store.speakingUsers =
      (if objGet w.store.speakingUsers p = some true then objDel w.store.speakingUsers p
        else w.store.speakingUsers) := by
  unfold removePeer setSpeaking
  cases h1 : objGet w.store.peerConnections p <;>
    cases h2 : objGet w.eng.speakingDetectors p <;>
    by_cases h3 : objGet w.store.speakingUsers p = some true <;>
    simp [World.emit, h1, h2, h3]

/-- C26: `removePeer p` leaves no entry for `p` in the connection map, the
mic-audio stream map, the video stream map and the pending-candidate queues,
and no `true` entry for `p` in the speaking map (the speaking map only ever
holds `true` entries, so `p` has no entry at all); the entries of every other
peer in these five maps are unchanged. -/
theorem removePeer_frame (w : World) (p : Uid) :
    objGet (removePeer w p).store.peerConnections p = none ∧
    objGet (removePeer w p).store.remoteStreams p = none ∧
    objGet (removePeer w p).store.remoteVideoStreams p = none ∧
    objGet (removePeer w p).eng.pendingIceCandidates p = none ∧
    objGet (removePeer w p).store.speakingUsers p ≠ some true ∧
    (w.store.speakingUsers.all (fun e => e.2) = true →
      objGet (removePeer w p).store.speakingUsers p = none) ∧
    (∀ k, k ≠ p →
      objGet (removePeer w p).store.peerConnections k = objGet w.store.peerConnections k ∧
      objGet (removePeer w p).store.remoteStreams k = objGet w.store.remoteStreams k ∧
      objGet (removePeer w p).store.remoteVideoStreams k =
        objGet w.store.remoteVideoStreams k ∧
      objGet (removePeer w p).eng.pendingIceCandidates k =
        objGet w.eng.pendingIceCandidates k ∧
      objGet (removePeer w p).store.speakingUsers k = objGet w.store.speakingUsers k) := by
  obtain ⟨s1, s2, s3⟩ := removePeer_store w p
  have hsu : objGet (removePeer w p).store.speakingUsers p ≠ some true := by
    rw [s3]
    by_cases h : objGet w.store.speakingUsers p = some true
    · rw [if_pos h, objGet_objDel_same]; exact fun e => by cases e
    · rw [if_neg h]; exact h
  refine ⟨by rw [removePeer_peerConnections]; exact objGet_objDel_same _ _,
    by rw [s1]; exact objGet_objDel_same _ _, by rw [s2]; exact objGet_objDel_same _ _,
    by rw [removePeer_pending]; exact objGet_objDel_same _ _, hsu, ?_, ?_⟩
  · intro hall
    have hinv : ∀ (o : Obj Bool) (k : Uid), o.all (fun e => e.2) = true →
        objGet o k ≠ some false := by
      intro o k
      induction o with
      | nil => intro _ e; cases e
      | cons e rest ih =>
        obtain ⟨k1, v1⟩ := e
        intro ha
        simp only [List.all_cons, Bool.and_eq_true] at ha
        by_cases hk : k1 = k
        · simp only [objGet, hk, if_true]
          intro e
          rw [Option.some.inj e] at ha
          exact absurd ha.1 (by decide)
        · simp only [objGet, hk, if_false]
          exact ih ha.2
    rw [s3] at hsu ⊢
    by_cases h : objGet w.store.speakingUsers p = some true
    · rw [if_pos h]; exact objGet_objDel_same _ _
    · rw [if_neg h]
      cases hv : objGet w.store.speakingUsers p with
      | none => rfl
      | some b =>
        cases b with
        | true => exact absurd hv h
        | false => exact absurd hv (hinv _ p hall)
  · intro k hk
    refine ⟨by rw [removePeer_peerConnections]; exact objGet_objDel_ne _ _ _ hk,
      by rw [s1]; exact objGet_objDel_ne _ _ _ hk, by rw [s2]; exact objGet_objDel_ne _ _ _ hk,
      by rw [removePeer_pending]; exact objGet_objDel_ne _ _ _ hk, ?_⟩
    rw [s3]
    by_cases h : objGet w.store.speakingUsers p = some true
    · rw [if_pos h]; exact objGet_objDel_ne _ _ _ hk
    · rw [if_neg h]

/-- In `meshWorldA` peer `b` has an entry in each of the five maps (connection,
mic-audio stream, video stream, speaking `true`, queue `[7]`). After
`removePeer b` it has none, and the five entries of `c` are still there. -/
theorem removePeer_frame_witness :
    ((objGet meshWorldA.store.peerConnections uidB).isSome = true ∧
      (objGet meshWorldA.store.remoteStreams uidB).isSome = true ∧
      (objGet meshWorldA.store.remoteVideoStreams uidB).isSome = true ∧
      objGet meshWorldA.store.speakingUsers uidB = some true ∧
      objGet meshWorldA.eng.pendingIceCandidates uidB = some [7]) ∧
    (objGet (removePeer meshWorldA uidB).store.peerConnections uidB = none ∧
      objGet (removePeer meshWorldA uidB).store.remoteStreams uidB = none ∧
      objGet (removePeer meshWorldA uidB).store.remoteVideoStreams uidB = none ∧
      objGet (removePeer meshWorldA uidB).store.speakingUsers uidB = none ∧
      objGet (removePeer meshWorldA uidB).eng.pendingIceCandidates uidB = none) ∧
    ((objGet (removePeer meshWorldA uidB).store.peerConnections uidC).isSome = true ∧
      (objGet (removePeer meshWorldA uidB).store.remoteStreams uidC).isSome = true ∧
      (objGet (removePeer meshWorldA uidB).store.remoteVideoStreams uidC).isSome = true ∧
      objGet (removePeer meshWorldA uidB).store.speakingUsers uidC = some true ∧
      objGet (removePeer meshWorldA uidB).eng.pendingIceCandidates uidC = some [8]) :=
  have h := removePeer_frame meshWorldA uidB
  have hc := h.2.2.2.2.2.2 uidC (by decide)
  ⟨by decide,
   ⟨h.1, h.2.1, h.2.2.1, h.2.2.2.2.2.1 (by decide), h.2.2.2.1⟩,
   ⟨by rw [hc.1]; decide, by rw [hc.2.1]; decide, by rw [hc.2.2.1]; decide,
    by rw [hc.2.2.2.2]; decide, by rw [hc.2.2.2.1]; decide⟩⟩

/-! ## Stopping a screen share -/

theorem setLocalDescription_senders (w : World) (p : Uid) (pc : RTCPeerConnection) (t : SdpType)
    (env : SigEnv) (hp : (objGet w.store.peerConnections p).map RTCPeerConnection.senders =
      some pc.senders) :
    (objGet (setLocalDescription w p pc t env).1.store.peerConnections p).map
      RTCPeerConnection.senders = some pc.senders := by
  unfold setLocalDescription
  split
  · simp only [objGet_objSet_same, Option.map_some']
  · exact hp

theorem stopSharingTo_pcs (mic : Option Nat) (env : Uid → SigEnv) (acc : World)
    (e : Uid × RTCPeerConnection) :
    (∀ k, k ≠ e.1 → objGet (stopSharingTo mic env acc e).store.peerConnections k =
      objGet acc.store.peerConnections k) ∧
    (e.2.connectionState = ConnectionState.closed → stopSharingTo mic env acc e = acc) ∧
    (e.2.connectionState ≠ ConnectionState.closed →
      (objGet (stopSharingTo mic env acc e).store.peerConnections e.1).map
        RTCPeerConnection.senders = some (removeScreenTracks mic e.2).senders) := by
  have hsend : ∀ (x : World) (pc : RTCPeerConnection) (se : SigEnv),
      (∀ k, k ≠ e.1 → objGet (sendRenegotiationOffer x e.1 pc se).store.peerConnections k =
        objGet x.store.peerConnections k) ∧
      ((objGet x.store.peerConnections e.1).map RTCPeerConnection.senders = some pc.senders →
        (objGet (sendRenegotiationOffer x e.1 pc se).store.peerConnections e.1).map
          RTCPeerConnection.senders = some pc.senders) := by
    intro x pc se
    unfold sendRenegotiationOffer
    by_cases hv : x.eng.voiceActive = true
    · simp only [hv, Bool.not_true, Bool.false_eq_true, if_false]
      by_cases hl : (setLocalDescription x e.1 pc SdpType.offer se).2.2 = true
      · simp only [hl, Bool.not_true, Bool.false_eq_true, if_false]
        rw [(addDoc_spec _ _ _ _).2]
        exact ⟨fun k hk => setLocalDescription_pcs x e.1 pc SdpType.offer se k hk,
          fun hp => setLocalDescription_senders x e.1 pc SdpType.offer se hp⟩
      · simp only [hl, Bool.not_false, if_true]
        exact ⟨fun k hk => setLocalDescription_pcs x e.1 pc SdpType.offer se k hk,
          fun hp => setLocalDescription_senders x e.1 pc SdpType.offer se hp⟩
    · simp only [hv, Bool.not_false, if_true]
      exact ⟨by simp, fun hp => hp⟩
  unfold stopSharingTo
  by_cases hc : e.2.connectionState = ConnectionState.closed
  · simp only [hc, if_true]
    exact ⟨by simp, by simp, by simp⟩
  · simp only [hc, if_false]
    refine ⟨?_, by simp [hc], fun _ => ?_⟩
    · intro k hk
      split
      · rw [(hsend _ _ _).1 k hk]
        exact objGet_objSet_ne _ _ _ _ hk
      · exact objGet_objSet_ne _ _ _ _ hk
    · split
      · apply (hsend _ _ _).2
        simp only [objGet_objSet_same, Option.map_some']
      · simp only [objGet_objSet_same, Option.map_some']

theorem foldl_stopSharingTo_pcs (mic : Option Nat) (env : Uid → SigEnv)
    (es : List (Uid × RTCPeerConnection)) (hnd : (objKeys es).Nodup) (acc : World) (k : Uid) :
    (objGet (es.foldl (stopSharingTo mic env) acc).store.peerConnections k).map
        RTCPeerConnection.senders =
      (match objGet es k with
        | some pc =>
          if pc.connectionState = ConnectionState.closed then
            (objGet acc.store.peerConnections k).map RTCPeerConnection.senders
          else some (removeScreenTracks mic pc).senders
        | none => (objGet acc.store.peerConnections k).map RTCPeerConnection.senders) := by
  induction es generalizing acc with
  | nil => rfl
  | cons e rest ih =>
    obtain ⟨k1, pc1⟩ := e
    have hnd2 : (objKeys rest).Nodup := (List.nodup_cons.mp hnd).2
    have hnot : k1 ∉ objKeys rest := (List.nodup_cons.mp hnd).1
    obtain ⟨s1, s2, s3⟩ := stopSharingTo_pcs mic env acc (k1, pc1)
    rw [List.foldl_cons, ih hnd2]
    by_cases hk : k1 = k
    · subst hk
      have hnone : objGet rest k1 = none := by
        by_contra hne
        exact hnot ((mem_objKeys_iff rest k1).mpr hne)
      simp only [hnone, objGet, if_true]
      by_cases hc : pc1.connectionState = ConnectionState.closed
      · rw [s2 hc, if_pos hc]
      · rw [s3 hc, if_neg hc]
    · have hk2 : k ≠ k1 := fun e => hk e.symm
      simp only [objGet, hk, if_false]
      rw [s1 k hk2]

theorem stopScreenShare_pcs (w : World) (env : Uid → SigEnv) :
    (stopScreenShare w env).store.peerConnections =
      (w.store.peerConnections.foldl (stopSharingTo (micTrackId w) env)
        (stopScreenStream w)).store.peerConnections := by
  obtain ⟨s1, _, _, _⟩ := stopScreenStream_spec w
  unfold stopScreenShare clearScreenSenders micTrackId
  simp only [s1]
  split
  · split <;> rfl
  · rfl

/-- C29: `stopScreenShare` calls `removeTrack` on a sender of a connection
exactly when the connection is not closed and the sender carries a video track
or an audio track whose identifier differs from that of the microphone track
(the first audio track of `localStream`); such a sender is left without a
track, every other sender is unchanged, whatever its position. In particular
the sender carrying the microphone track keeps it, and the senders of a closed
connection are untouched. -/
theorem stopScreenShare_keeps_mic_sender (w : World) (env : Uid → SigEnv)
    (hnd : (objKeys w.store.peerConnections).Nodup) :
    (∀ k, (objGet (stopScreenShare w env).store.peerConnections k).map
        RTCPeerConnection.senders =
      (objGet w.store.peerConnections k).map (fun pc =>
        if pc.connectionState = ConnectionState.closed then pc.senders
        else pc.senders.map (fun s => if isScreenSender (micTrackId w) s then ⟨none⟩ else s))) ∧
    (∀ (s : Sender) (t : Track), s.track = some t →
      (isScreenSender (micTrackId w) s = true ↔
        (t.kind = TrackKind.video ∨ some t.id ≠ micTrackId w))) ∧
    (∀ (s : Sender) (t : Track), s.track = some t → t.kind = TrackKind.audio →
      some t.id = micTrackId w → isScreenSender (micTrackId w) s = false) ∧
    (∀ s : Sender, s.track = none → isScreenSender (micTrackId w) s = false) := by
  refine ⟨?_, ?_, ?_, ?_⟩
  · intro k
    obtain ⟨s1, _, _, _⟩ := stopScreenStream_spec w
    rw [stopScreenShare_pcs, foldl_stopSharingTo_pcs (micTrackId w) env _ hnd, s1]
    cases hq : objGet w.store.peerConnections k with
    | none => rfl
    | some pc =>
      by_cases hc : pc.connectionState = ConnectionState.closed
      · simp [hc]
      · simp [hc, removeScreenTracks]
  · intro s t hs
    simp [isScreenSender, hs]
  · intro s t hs hk hid
    simp [isScreenSender, hs, hk, hid]
  · intro s hs
    simp [isScreenSender, hs]

/-- The example of a running screen share: on the connection to `b` the video
sender and the screen-audio sender lose their tracks and the microphone
sender, which stands between them, keeps track 3. -/
theorem stopScreenShare_keeps_mic_sender_witness :
    (objGet (stopScreenShare sharingWorldA (fun _ => okSigEnv)).store.peerConnections uidB).map
        RTCPeerConnection.senders =
      some [⟨none⟩, ⟨some ⟨3, TrackKind.audio⟩⟩, ⟨none⟩] := by
  have h := (stopScreenShare_keeps_mic_sender sharingWorldA (fun _ => okSigEnv)
    (by decide)).1 uidB
  rw [h]
  decide

/-! ## Interleaved handlers -/

theorem presenceConnectWith_nil (uid : Uid) (pcs : Obj RTCPeerConnection) (env : Uid → SigEnv)
    (others : List PresenceEntry) (w : World) :
    presenceConnectWith uid pcs env w others [] = presenceConnect uid pcs env w others := by
  induction others generalizing w with
  | nil => rfl
  | cons u rest ih =>
    simp only [presenceConnectWith, presenceConnect, List.foldl_cons]
    by_cases h : (!objHas pcs u.uid && isOfferer uid u.uid) = true
    · have h1 : objHas pcs u.uid = false := by
        cases hh : objHas pcs u.uid <;> simp [hh] at h ⊢
      have h2 : isOfferer uid u.uid = true := by
        cases hh : isOfferer uid u.uid <;> simp [hh] at h ⊢
      simp only [h1, h2, Bool.not_false, Bool.and_self, if_true]
      rw [ih]
      rfl
    · have h0 : (!objHas pcs u.uid && isOfferer uid u.uid) = false := by simpa using h
      rw [if_neg h, ih]
      cases h1 : objHas pcs u.uid
      · have h2 : isOfferer uid u.uid = false := by simpa [h1] using h0
        simp [presenceConnect, h1, h2]
      · simp [presenceConnect, h1]

theorem onPresenceSnapshotWith_nil (uid : Uid) (w : World) (users : List PresenceEntry)
    (env : Uid → SigEnv) :
    onPresenceSnapshotWith uid w users env [] = onPresenceSnapshot uid w users env := by
  unfold onPresenceSnapshotWith onPresenceSnapshot
  simp only [presenceConnectWith_nil]

theorem startVoiceWith_id (w : World) (g c : JsString) (env : StartEnv) :
    startVoiceWith w g c env (fun x => x) = startVoice w g c env := rfl

/-- C2 (the code at the failing input): user `b` has started voice and has no
connection to `a`. The candidate 7 of `a` arrives first: handling it calls
nothing but `deleteDoc`, the candidate is neither applied nor queued and the
state is otherwise unchanged. After the offer of `a` and candidate 9 in the
same snapshot, the connection to `a` has its remote description, candidate 9
is the only one ever applied, the queue of `a` is empty and all three documents
are deleted: candidate 7 is lost. With a connection that has no remote
description (`a` waiting for the answer of `b`) the same candidate is queued. -/
theorem early_candidate_without_connection_lost :
    startedWorldB.eng.voiceActive = true ∧
    objGet startedWorldB.store.peerConnections uidA = none ∧
    handleDocChange uidB startedWorldB (addedDoc 1 DocType.iceCandidate uidA uidB [] 7).1
      okSigEnv = startedWorldB.emit (Effect.deleteDoc 1 true) ∧
    (objGet earlyCandidateWorldB.store.peerConnections uidA).map
      RTCPeerConnection.remoteDescription = some (some [1]) ∧
    iceCalls earlyCandidateWorldB.log = [(uidA, 10, 9)] ∧
    objGet earlyCandidateWorldB.eng.pendingIceCandidates uidA = none ∧
    docsDeleted earlyCandidateWorldB.log = [1, 2, 3] ∧
    objGet (handleDocChange uidA offeringWorldA
      (addedDoc 1 DocType.iceCandidate uidB uidA [] 7).1 okSigEnv).eng.pendingIceCandidates
      uidB = some [7] := by
  decide

/-- C9 (the code at the failing input): user `a` handles a presence snapshot
listing `b` and `c`; while the handler waits for the connection to `b`, a second
snapshot with the same documents is handled and creates connection 11 to `c`.
The first handler then goes on with the connection map it read at its start,
in which `c` has no connection, and creates connection 12 to `c`: two
connections are initiated to `c`, the store keeps connection 12, and connection
11 is never closed. Handled one after the other, the two snapshots initiate
one connection to each peer. -/
theorem overlapping_presence_snapshots_duplicate_connection :
    startedWorldA.eng.voiceActive = true ∧
    offersInitiated overlappingPresenceA.log = [uidB, uidC, uidC] ∧
    connectionsOpened overlappingPresenceA.log = [(uidB, 10), (uidC, 11), (uidC, 12)] ∧
    connectionsClosed overlappingPresenceA.log = [] ∧
    (objGet overlappingPresenceA.store.peerConnections uidC).map RTCPeerConnection.pcId =
      some 12 ∧
    offersInitiated (onPresenceSnapshot uidA
      (onPresenceSnapshot uidA startedWorldA presenceABC (fun _ => okSigEnv)) presenceABC
      (fun _ => okSigEnv)).log = [uidB, uidC] := by
  decide

/-- C10 (the code at the failing inputs): user `a` calls `startVoice`, which
sets the flag and waits for the microphone. `stopVoice` is called in that state
and clears the flag. A second `startVoice` called then is accepted and returns
true although the first call is still in progress; when the first call
resumes it does not test the flag again and builds its own session on top:
both calls return true, two audio contexts (1 and 10) were created and none
closed, two resilience registrations and two pairs of engine listeners are
active. Without the second call, the first call resumed after `stopVoice`
still returns true with the flag false, an open audio context and microphone,
and registered listeners. -/
theorem start_resumes_after_stop :
    suspendedStartA.eng.voiceActive = true ∧
    suspendedStartA ∈ startVoiceSuspended (joinedWorld uidA [presenceOf uidA]) [103] [99]
      goodStartEnv ∧
    (stopVoice suspendedStartA (fun _ => okSigEnv)).eng.voiceActive = false ∧
    (startVoice (stopVoice suspendedStartA (fun _ => okSigEnv)) [103] [99] otherMicEnv).1
      = true ∧
    restartedDuringStartA.1 = true ∧
    contextsCreated restartedDuringStartA.2.log = [1, 10] ∧
    restartedDuringStartA.2.browser.closedContexts = [] ∧
    restartedDuringStartA.2.browser.resilience = [1, 10] ∧
    restartedDuringStartA.2.browser.listeners = [0, 8, 9, 17, 18] ∧
    stoppedDuringStartA.1 = true ∧
    stoppedDuringStartA.2.eng.voiceActive = false ∧
    stoppedDuringStartA.2.eng.audioContext = some 1 ∧
    stoppedDuringStartA.2.browser.closedContexts = [] ∧
    stoppedDuringStartA.2.browser.stoppedTracks = [] ∧
    stoppedDuringStartA.2.browser.listeners = [0, 8, 9] := by
  decide

end Dizkord
